import Mathlib

/-!
DORY network template (DroNet/IMAV variant): memory orchestration of `network_run`

Shallow embedding of `src/templates/network_template_imav.c`.

* The Mako template parameters (`len(PULP_Nodes_Graph)`, the byte sizes emitted into
  section 1, the test / checksum switches) and the generated per-layer tables are the
  fields of `Chain`.  A table is a function of the index, so that the reads the code
  makes at index `i-1` with `i = 0` (outside the array) have a value too: whatever the
  memory next to the table holds.
* Addresses, sizes and `int` flags are integers.  `uint16_t` locals are reduced modulo
  `2^16` where they are assigned.
* `Var` names the globals, the function-static variables and the locals of
  `network_run`; a `State` maps each of them to its value.  `trace` is a ghost log of
  the calls issued by the current call of `network_run`.
* The model follows one core (`core` is the value of `pi_core_id()`); barriers and
  `printf` diagnostics have no effect on the state and are left out.
-/

namespace Dory

/-- The value of the C expression `!x` on an `int`. -/
def lnot (x : Int) : Int := if x = 0 then 1 else 0

/-- The value of the C expression `d ? w2 : w1`. -/
def pick (d w1 w2 : Int) : Int := if d = 0 then w1 else w2

/-- Calls issued by `network_run`, in program order.  `alloc` and `free` carry the size
and the side flag passed to `dory_L2_alloc` / `dory_L2_free`, and the two arena
boundaries as they are after the call; `alloc` also carries the returned address. -/
inductive Event where
  | alloc (size side ptr b e : Int)
  | free (size side b e : Int)
  | read (src dst size : Int)
  | wait
  | kernel (i : Nat) (args : List Int)
  | resout (k : Nat) (v : Int)
  | l1_malloc (size : Int)
  | l1_free (ptr size : Int)
deriving DecidableEq

/-- Template parameters and generated tables of one compiled network. -/
structure Chain where
  /-- Number of layers, `len(PULP_Nodes_Graph)`. -/
  N : Nat
  /-- Template switch `test`. -/
  test : Bool
  /-- Whether `CHECKSUMS` is defined (the template defines it when `verbose`). -/
  checksums : Bool
  /-- Literal `int(PULP_Nodes_Graph[0].input_activation_dimensions * BitIn / 8.0)`. -/
  input_dim : Int
  /-- Literal `int(PULP_Nodes_Graph[0].weights_dimension * BitW / 8.0)`. -/
  weights0_dim : Int
  /-- Literal `int(PULP_Nodes_Graph[0].output_activation_dimensions * BitOut / 8.0)`. -/
  output0_dim : Int
  /-- Template condition `'Gemm' in PULP_Nodes_Graph[1].name or 'Conv' in ...name`. -/
  second_weights : Bool
  /-- Literal `int(PULP_Nodes_Graph[1].weights_dimension * BitW / 8.0)`. -/
  weights1_dim : Int
  /-- Literal `l1_buffer`. -/
  l1_buffer_size : Int
  L3_layers : Int → Int
  allocate_layer : Int → Int
  branch_input : Int → Int
  branch_output : Int → Int
  branch_change : Int → Int
  branch_last : Int → Int
  check_weights_dimension : Int → Int
  cumulative_weights_dimension : Int → Int
  check_activations_dimension : Int → Int
  check_activations_out_dimension : Int → Int
  out_mult_vector : Int → Int
  out_shift_vector : Int → Int
  inmul1_vector : Int → Int
  inmul2_vector : Int → Int
  layer_with_weights : Int → Int

/-- What the board and the SDK hand to the program: the addresses returned by the memory
services, whether the flash files can be opened, and the layer kernels, which are opaque
functions of the 13-word argument vector acting on memory. -/
structure Board where
  /-- Result of `pmsis_l2_malloc(410000)`. -/
  l2_malloc : Int
  /-- Result of `pmsis_l1_malloc`. -/
  l1_malloc : Int
  /-- Address of the device handle `ram`. -/
  ram : Int
  /-- Results of the three `pi_ram_alloc` calls. -/
  ram_weights : Int
  ram_input : Int
  ram_output : Int
  /-- Number of weight bytes copied to the off-chip RAM (`rdDone` after the loop). -/
  weights_bytes : Int
  /-- Whether every `pi_fs_open` succeeds. -/
  files_open : Bool
  /-- Effect of the kernel of layer `i`, called with `args`, on the memory words. -/
  kernel : Nat → List Int → (Int → Int) → (Int → Int)

/-- Variables of `network_template_imav.c`: file-scope variables, the function-static
variables of `network_run` (`keeping`, `activation_to_keep_delloced`, `keep_index`) and
the locals of `network_run`.  The locals `error_presence`, `d_buffering_inputs` and
`d_buffering_outputs` are initialised and never used again; they are left out. -/
inductive Var where
  | L3_weights | L3_input | bypass_L3_input | L3_output | bypass_L3_output
  | activations_input
  | L2_output | L2_input | L2_weights_1 | L2_weights_2
  | L2_buffer_allocation | L2_buffer_tofree_copy | L2_buffer_allocation_end
  | l1_buffer | bypass_activations | activation_to_keep
  | exec_weights | transfer_weights | bypass_weights | L3_weights_internal
  | L2_buffer_allocation_baseline | L2_buffer_allocation_end_baseline
  | keeping | activation_to_keep_delloced | keep_index
  | out_mult | out_shift | inmul1 | inmul2
  | branch_active | branch_keep_active | counter | counter_keep | valid
  | branch_output_index | bypass_dimension | bypass_to_dealloc | activation_dimension
  | d_buffering_weights_t | bypass_side | bypass_used_as_out | input_used_as_out
  | valid_keep | bypass_side_keep | d_buffering_weights_e | begin_end_n
deriving DecidableEq

/-- Program state: the value of every variable, the memory as seen through
`*(int32_t*)(a)`, the result vector `ResOut` of main.c, and the ghost log of the calls
issued by the current call of `network_run`. -/
structure State where
  get : Var → Int
  mem : Int → Int
  ResOut : Nat → Int
  trace : List Event

/-- The assignment `x = v`. -/
def State.set (s : State) (x : Var) (v : Int) : State :=
  { s with get := fun y => if y = x then v else s.get y }

/-- Append a call to the ghost log. -/
def State.log (s : State) (ev : Event) : State :=
  { s with trace := s.trace ++ [ev] }

/-- Start the ghost log afresh. -/
def State.clear (s : State) : State :=
  { s with trace := [] }

/-- Replace the memory contents. -/
def State.store (s : State) (m : Int → Int) : State :=
  { s with mem := m }

/-- The assignment `ResOut[k] = v`. -/
def State.result (s : State) (k : Nat) (v : Int) : State :=
  { s with ResOut := fun j => if j = k then v else s.ResOut j }

/-- Size of the on-chip arena requested by `network_setup`. -/
def ARENA_SIZE : Int := 410000

/-- Modelled from the spec: `dory_L2_alloc` is declared in `dory.h`, which is not among
the sources.  Spec 4.1: it carves `size` bytes from the `begin` or the `end` boundary,
selected by the side flag (the call sites say "begin is 1, end is 0"), and returns a
pointer to the carved block.  The result is `(begin, end, pointer)` after the call.  The
fatal failure of the spec is the situation `begin > end` after the call; the pass model
records the boundaries in the trace and keeps stepping, so a pass whose trace has such an
event describes the code up to that event only. -/
def dory_L2_alloc (b e size side : Int) : Int × Int × Int :=
  if side = 1 then (b + size, e, b) else (b, e - size, e - size)

/-- Modelled from the spec: `dory_L2_free` is declared in `dory.h`, which is not among
the sources.  Spec 4.1: it releases `size` bytes at the boundary selected by the side
flag.  The result is `(begin, end)` after the call. -/
def dory_L2_free (b e size side : Int) : Int × Int :=
  if side = 1 then (b - size, e) else (b, e + size)

/-- A call `dory_L2_alloc(&L2_buffer_allocation, &L2_buffer_allocation_end, &x, size,
begin_end_n)`. -/
def alloc_into (s : State) (x : Var) (size : Int) : State :=
  let r := dory_L2_alloc (s.get .L2_buffer_allocation) (s.get .L2_buffer_allocation_end)
    size (s.get .begin_end_n)
  (((s.set .L2_buffer_allocation r.1).set .L2_buffer_allocation_end r.2.1).set x r.2.2).log
    (Event.alloc size (s.get .begin_end_n) r.2.2 r.1 r.2.1)

/-- A call `dory_L2_free(&L2_buffer_allocation, &L2_buffer_allocation_end, size,
begin_end_n)`. -/
def do_free (s : State) (size : Int) : State :=
  let r := dory_L2_free (s.get .L2_buffer_allocation) (s.get .L2_buffer_allocation_end)
    size (s.get .begin_end_n)
  ((s.set .L2_buffer_allocation r.1).set .L2_buffer_allocation_end r.2).log
    (Event.free size (s.get .begin_end_n) r.1 r.2)

/-- A call `pi_cl_ram_read(&ram, src, dst, size, &buff_req1)`. -/
def do_read (s : State) (src dst size : Int) : State :=
  s.log (Event.read src dst size)

/-- A call `pi_cl_ram_read_wait(&buff_req1)`. -/
def do_wait (s : State) : State :=
  s.log Event.wait

/-- The function `network_setup`, lines 411-413 and 461-490: the off-chip buffers, then,
unless a file could not be opened (return value -1), the arena and its baseline
addresses.  The copy of the weight files to the off-chip RAM is not modelled. -/
def network_setup (b : Board) (s : State) : State × Int :=
  let s := ((s.set .L3_weights b.ram_weights).set .L3_input b.ram_input).set
    .L3_output b.ram_output
  if b.files_open = false then (s, -1)
  else
    let s := s.set .activations_input (s.get .L3_weights + b.weights_bytes)
    let s := s.set .L2_buffer_allocation b.l2_malloc
    let s := s.set .L2_buffer_tofree_copy (s.get .L2_buffer_allocation)
    let s := s.set .L2_buffer_allocation_end (s.get .L2_buffer_allocation + ARENA_SIZE)
    let s := s.set .L2_buffer_allocation_baseline (s.get .L2_buffer_allocation)
    let s := s.set .L2_buffer_allocation_end_baseline (s.get .L2_buffer_allocation_end)
    (s, s.get .L2_buffer_allocation)

/-- Lines 554-582 of `network_run`: the initialisers of the locals and the reset of the
two bypass pointers, run by every core.  The function-static variables keep their
values.  The ghost log starts empty. -/
def init_locals (s : State) : State :=
  let s := (((s.set .out_mult 0).set .out_shift 0).set .inmul1 0).set .inmul2 0
  let s := (((s.set .branch_active 0).set .branch_keep_active 0).set .counter 0).set
    .counter_keep 0
  let s := (s.set .valid 0).set .branch_output_index 0
  let s := (s.set .bypass_activations 0).set .activation_to_keep 0
  let s := ((s.set .bypass_dimension 0).set .bypass_to_dealloc 0).set .activation_dimension 0
  let s := s.set .d_buffering_weights_t 0
  let s := (((s.set .bypass_side 0).set .bypass_used_as_out 0).set .input_used_as_out 0).set
    .valid_keep 0
  let s := ((s.set .bypass_side_keep 0).set .d_buffering_weights_e 0).set .begin_end_n 1
  s.clear

/-- Lines 584-587 of `network_run`, run by every core. -/
def init_weights (s : State) : State :=
  let s := s.set .L3_weights_internal (s.get .L3_weights)
  let s := s.set .transfer_weights
    (pick (s.get .d_buffering_weights_t) (s.get .L2_weights_1) (s.get .L2_weights_2))
  let s := s.set .exec_weights
    (pick (s.get .d_buffering_weights_e) (s.get .L2_weights_1) (s.get .L2_weights_2))
  s.set .bypass_weights
    (pick (s.get .d_buffering_weights_e) (s.get .L2_weights_1) (s.get .L2_weights_2))

/-- Lines 590-602 of `network_run`, core 0: the arena boundaries are restored and the L1
buffer is allocated. -/
def restore (c : Chain) (b : Board) (s : State) : State :=
  let s := s.set .L2_buffer_allocation (s.get .L2_buffer_allocation_baseline)
  let s := s.set .L2_buffer_allocation_end (s.get .L2_buffer_allocation_end_baseline)
  (s.set .l1_buffer b.l1_malloc).log (Event.l1_malloc c.l1_buffer_size)

/-- Section 0 of `network_run` (lines 554-602). -/
def section0 (c : Chain) (b : Board) (core : Nat) (s : State) : State :=
  let s := init_weights (init_locals s)
  if core = 0 then restore c b s else s

/-- Lines 619-638: allocation of the input and, in a test build with checksums, its copy
from the off-chip RAM. -/
def s1_input (c : Chain) (s : State) : State :=
  let s := alloc_into s .L2_input c.input_dim
  if c.test = true ∧ c.checksums = true then
    do_wait (do_read s (s.get .activations_input) (s.get .L2_input) c.input_dim)
  else s

/-- Lines 639-652: allocation and copy of the weights of the first layer. -/
def s1_weights (c : Chain) (s : State) : State :=
  let s := alloc_into s .L2_weights_1 c.weights0_dim
  let s := s.set .begin_end_n (lnot (s.get .begin_end_n))
  let s := s.set .transfer_weights (s.get .L2_weights_1)
  let s := s.set .exec_weights (s.get .L2_weights_1)
  do_wait (do_read s (s.get .L3_weights_internal) (s.get .transfer_weights) c.weights0_dim)

/-- Lines 653-661: allocation of the output of the first layer. -/
def s1_output (c : Chain) (s : State) : State :=
  alloc_into s .L2_output c.output0_dim

/-- Section 1 up to the allocation of the first output (lines 614-661), on core 0. -/
def section1_head (c : Chain) (s : State) : State :=
  s1_output c (s1_weights c (s1_input c s))

/-- Whether core 0 leaves `network_run` at line 667 (`if(L2_output == NULL) return -1;`),
given the state after `section1_head`. -/
def section1_returns (c : Chain) (s : State) : Bool :=
  c.second_weights && decide (s.get .L2_output = 0)

/-- State in which core 0 returns at line 667: the transfer toggle is already flipped. -/
def section1_abort (s : State) : State :=
  s.set .d_buffering_weights_t (lnot (s.get .d_buffering_weights_t))

/-- Lines 662-675, when line 667 does not return: the weight slot of the second layer. -/
def s1_second (c : Chain) (s : State) : State :=
  if c.second_weights = true then
    let s := s.set .d_buffering_weights_t (lnot (s.get .d_buffering_weights_t))
    let s := alloc_into s .L2_weights_2 (c.weights1_dim - c.weights0_dim)
    s.set .transfer_weights
      (pick (s.get .d_buffering_weights_t) (s.get .L2_weights_1) (s.get .L2_weights_2))
  else s

/-- Line 676. -/
def s1_flip (s : State) : State :=
  s.set .begin_end_n (lnot (s.get .begin_end_n))

/-- Section 1 after the allocation of the first output (lines 662-677), on core 0, when
line 667 does not return. -/
def section1_tail (c : Chain) (s : State) : State :=
  s1_flip (s1_second c s)

/-- Prefetch of the weights of the next layer (lines 696-713), on core 0. -/
def prefetch (c : Chain) (i : Nat) (s : State) : State :=
  if i + 1 < c.N then
    if c.allocate_layer ((i : Int) + 1) = 1 then
      let s := if c.L3_layers ((i : Int) - 1) = 0 ∧ 0 < i then do_wait s else s
      let s := do_read s
        (s.get .L3_weights_internal + c.cumulative_weights_dimension ((i : Int) + 1))
        (s.get .transfer_weights) (c.check_weights_dimension ((i : Int) + 1))
      if c.L3_layers i = 1 then do_wait s else s
    else s
  else s

/-- Lines 741-744: the four `uint16_t` locals. -/
def set_quant (c : Chain) (i : Nat) (s : State) : State :=
  let s := s.set .out_mult (c.out_mult_vector i % 65536)
  let s := s.set .out_shift (c.out_shift_vector i % 65536)
  let s := s.set .inmul1 (c.inmul1_vector i % 65536)
  s.set .inmul2 (c.inmul2_vector i % 65536)

/-- The argument vector `args[13]` of layer `i` (lines 746-768). -/
def kernel_args (c : Chain) (b : Board) (i : Nat) (s : State) : List Int :=
  let a : List Int :=
    [s.get .L3_input, s.get .L3_output,
     s.get .L3_weights_internal + c.cumulative_weights_dimension i,
     s.get .L2_input, s.get .bypass_activations, s.get .L2_output, s.get .exec_weights,
     s.get .l1_buffer, b.ram,
     s.get .out_mult, s.get .inmul1, s.get .inmul2, s.get .out_shift]
  let a : List Int :=
    if c.branch_change ((i : Int) - 1) = 1 ∧ c.branch_input i = 0 then
      ((a.set 0 (s.get .bypass_L3_input)).set 1 (s.get .bypass_L3_output)).set 3
        (s.get .bypass_activations)
    else a
  if c.branch_input i = 1 ∧ s.get .keeping = 1 then a.set 4 (s.get .activation_to_keep) else a

/-- The kernel call of layer `i` (lines 776-783). -/
def invoke (c : Chain) (b : Board) (i : Nat) (s : State) : State :=
  (s.store (b.kernel i (kernel_args c b i s) s.mem)).log (Event.kernel i (kernel_args c b i s))

/-- One assignment `ResOut[k] = *(int32_t*)(L2_output + 4*k)`.  In the code the seven
loads come first and the seven stores follow; `ResOut` is a buffer of its own, so every
load sees the memory as the kernel left it. -/
def store_result (k : Nat) (s : State) : State :=
  let v := s.mem (s.get .L2_output + 4 * (k : Int))
  (s.result k v).log (Event.resout k v)

/-- Lines 803-835: the seven result words. -/
def cnn_outputs (s : State) : State :=
  store_result 6 (store_result 5 (store_result 4 (store_result 3 (store_result 2
    (store_result 1 (store_result 0 s))))))

/-- Lines 838-846: the two off-chip buffers change roles. -/
def swap_L3 (s : State) : State :=
  let temp := s.get .L3_input
  let s := s.set .L3_input (s.get .L3_output)
  s.set .L3_output temp

/-- Lines 882-885. -/
def set_keep_index (c : Chain) (i : Nat) (s : State) : State :=
  if c.branch_change i = 1 then s.set .keep_index i else s

/-- Lines 890-894. -/
def bk_valid (c : Chain) (i : Nat) (s : State) : State :=
  if c.branch_input i = 1 then (s.set .valid 1).set .valid_keep 1 else s

/-- Lines 896-902: deallocation of the weights of layer `i`. -/
def bk_free_weights (c : Chain) (i : Nat) (s : State) : State :=
  if c.layer_with_weights i = 1 then do_free s (c.check_weights_dimension i) else s

/-- Lines 903-907: the execution slot follows the next layer. -/
def bk_exec (c : Chain) (i : Nat) (s : State) : State :=
  if c.layer_with_weights ((i : Int) + 1) = 1 then
    let s := s.set .d_buffering_weights_e (lnot (s.get .d_buffering_weights_e))
    s.set .exec_weights
      (pick (s.get .d_buffering_weights_e) (s.get .L2_weights_1) (s.get .L2_weights_2))
  else s

/-- Lines 908-918: deallocation of the input of layer `i`. -/
def bk_free_input (c : Chain) (i : Nat) (s : State) : State :=
  if ((c.branch_output ((i : Int) - 1) ≠ 1 ∧ c.branch_change ((i : Int) - 1) ≠ 1)
        ∧ s.get .input_used_as_out ≠ 1) ∨ i = 0 then
    do_free s (c.check_activations_dimension i)
  else s

/-- Lines 920-932: deallocation of a kept activation. -/
def bk_free_keep (s : State) : State :=
  if s.get .valid_keep = 1 ∧ s.get .keeping = 1
      ∧ s.get .bypass_side_keep = s.get .begin_end_n ∧ s.get .bypass_used_as_out ≠ 1 then
    let s := do_free s (s.get .activation_dimension)
    let s := (s.set .counter_keep 0).set .branch_keep_active 0
    (s.set .keeping 0).set .activation_to_keep_delloced 0
  else s

/-- Lines 933-945: deallocation of the bypass activation. -/
def bk_free_bypass (c : Chain) (i : Nat) (s : State) : State :=
  if c.branch_input i = 1 ∧ s.get .bypass_to_dealloc = 1 then
    let s := do_free s (s.get .bypass_dimension)
    ((s.set .counter 0).set .branch_active 0).set .bypass_to_dealloc 0
  else s

/-- Lines 946-956: the output of a branch-change layer is kept. -/
def bk_keep (c : Chain) (i : Nat) (s : State) : State :=
  if c.branch_change i = 1 ∧ c.branch_output i = 0 ∧ c.branch_last i = 0 then
    let s := s.set .activation_to_keep (s.get .L2_output)
    let s := s.set .activation_dimension (c.check_activations_out_dimension i)
    let s := ((s.set .keeping 1).set .branch_keep_active 1).set .activation_to_keep_delloced 1
    let s := s.set .bypass_side_keep (lnot (s.get .begin_end_n))
    s.set .valid_keep 0
  else s

/-- Lines 957-968: the output of a branch-output layer becomes the bypass. -/
def bk_bypass (c : Chain) (i : Nat) (s : State) : State :=
  if c.branch_output i = 1 then
    let s := s.set .bypass_L3_input (s.get .L3_input)
    let s := s.set .bypass_L3_output (s.get .L3_output)
    let s := s.set .branch_output_index i
    let s := s.set .bypass_activations (s.get .L2_output)
    let s := s.set .bypass_dimension (c.check_activations_out_dimension i)
    let s := (s.set .branch_active 1).set .bypass_to_dealloc 1
    let s := s.set .bypass_side (lnot (s.get .begin_end_n))
    s.set .valid 0
  else s

/-- Line 969. -/
def bk_input (s : State) : State :=
  s.set .L2_input (s.get .L2_output)

/-- Lines 970-1000: the output buffer of layer `i+1`. -/
def bk_output (c : Chain) (i : Nat) (s : State) : State :=
  if c.branch_input ((i : Int) + 1) ≠ 1
      ∨ (c.branch_input ((i : Int) + 1) = 1 ∧ s.get .bypass_side ≠ s.get .begin_end_n
          ∧ s.get .keeping = 0) then
    let s := alloc_into s .L2_output (c.check_activations_out_dimension ((i : Int) + 1))
    (s.set .input_used_as_out 0).set .bypass_used_as_out 0
  else if s.get .keeping = 1 then
    if s.get .bypass_side_keep = s.get .begin_end_n then
      (s.set .L2_output (s.get .L2_input)).set .input_used_as_out 1
    else
      (s.set .L2_output (s.get .activation_to_keep)).set .keeping 0
  else
    ((s.set .L2_output (s.get .bypass_activations)).set .bypass_used_as_out 1).set
      .bypass_to_dealloc 0

/-- Lines 1003-1004: the side flag is switched ahead of a merge whose kept activation
lies on the current side. -/
def bk_merge_side (c : Chain) (i : Nat) (s : State) : State :=
  if c.branch_input ((i : Int) + 1) = 1 ∧ s.get .bypass_side_keep = s.get .begin_end_n
      ∧ s.get .keeping = 1 then
    s.set .begin_end_n (lnot (s.get .begin_end_n))
  else s

/-- Lines 1005-1028: allocation of the weight slot of layer `i+2`. -/
def bk_alloc_weights (c : Chain) (i : Nat) (s : State) : State :=
  if c.layer_with_weights ((i : Int) + 2) = 1 then
    let s :=
      if s.get .d_buffering_weights_e = 1 then
        alloc_into s .L2_weights_1 (c.check_weights_dimension ((i : Int) + 2))
      else
        alloc_into s .L2_weights_2 (c.check_weights_dimension ((i : Int) + 2))
    let s := s.set .d_buffering_weights_t (lnot (s.get .d_buffering_weights_t))
    s.set .transfer_weights
      (pick (s.get .d_buffering_weights_t) (s.get .L2_weights_1) (s.get .L2_weights_2))
  else s

/-- Lines 1001-1029. -/
def bk_next_weights (c : Chain) (i : Nat) (s : State) : State :=
  if i + 2 < c.N then bk_alloc_weights c i (bk_merge_side c i s) else s

/-- Lines 1030-1031. -/
def bk_side (s : State) : State :=
  s.set .begin_end_n (lnot (s.get .begin_end_n))

/-- Lines 888-1032: the bookkeeping of core 0 after layer `i`, for `i < N-1`. -/
def bookkeeping (c : Chain) (i : Nat) (s : State) : State :=
  bk_side (bk_next_weights c i (bk_output c i (bk_input (bk_bypass c i (bk_keep c i
    (bk_free_bypass c i (bk_free_keep (bk_free_input c i (bk_exec c i
      (bk_free_weights c i (bk_valid c i s)))))))))))

/-- State in which the kernel of layer `i` is called, from the state at the top of
iteration `i` of the loop (lines 696-768). -/
def before_kernel (c : Chain) (core : Nat) (i : Nat) (s : State) : State :=
  set_quant c i (if core = 0 then prefetch c i s else s)

/-- What follows the kernel call in iteration `i` (lines 803-1034). -/
def after_kernel (c : Chain) (core : Nat) (i : Nat) (s : State) : State :=
  let s := if i + 1 = c.N ∧ core = 0 then cnn_outputs s else s
  let s := if core = 0 then swap_L3 s else s
  let s := set_keep_index c i s
  if i + 1 < c.N ∧ core = 0 then bookkeeping c i s else s

/-- One iteration of the loop of section 2 (lines 694-1035). -/
def layer (c : Chain) (b : Board) (core : Nat) (i : Nat) (s : State) : State :=
  after_kernel c core i (invoke c b i (before_kernel c core i s))

/-- The first `k` iterations of the loop of section 2. -/
def iterations (c : Chain) (b : Board) (core : Nat) : Nat → State → State
  | 0, s => s
  | k + 1, s => layer c b core k (iterations c b core k s)

/-- Section 3 (lines 1060-1066): core 0 releases the L1 buffer. -/
def section3 (c : Chain) (core : Nat) (s : State) : State :=
  if core = 0 then s.log (Event.l1_free (s.get .l1_buffer) c.l1_buffer_size) else s

/-- State at the top of the loop of section 2, when line 667 does not return. -/
def loop_entry (c : Chain) (b : Board) (core : Nat) (s : State) : State :=
  if core = 0 then section1_tail c (section1_head c (section0 c b core s))
  else section0 c b core s

/-- Whether this call of `network_run` returns at line 667. -/
def returns_early (c : Chain) (b : Board) (core : Nat) (s : State) : Bool :=
  decide (core = 0) && section1_returns c (section1_head c (section0 c b core s))

/-- The function `network_run`, as executed by the core whose id is `core`. -/
def network_run (c : Chain) (b : Board) (core : Nat) (s : State) : State :=
  if returns_early c b core s = true then
    section1_abort (section1_head c (section0 c b core s))
  else
    section3 c core (iterations c b core c.N (loop_entry c b core s))

/-- State at the top of iteration `i` of the loop, in the pass started from `s`. -/
def at_iteration (c : Chain) (b : Board) (core : Nat) (s : State) (i : Nat) : State :=
  iterations c b core i (loop_entry c b core s)

/-- State in which the kernel of layer `i` is called, in the pass started from `s`. -/
def at_kernel (c : Chain) (b : Board) (core : Nat) (s : State) (i : Nat) : State :=
  before_kernel c core i (at_iteration c b core s i)

/-- A sequence of inference passes on core 0.  Between two passes main.c captures and
crops a camera frame; each element of `frames` is the effect of that on the memory. -/
def passes (c : Chain) (b : Board) (frames : List ((Int → Int) → (Int → Int))) (s : State) :
    State :=
  frames.foldl (fun st f => network_run c b 0 (st.store (f st.mem))) s


/-- Lines 888-969: the bookkeeping of core 0 after layer `i`, up to the point where the
output buffer of layer `i+1` is set up. -/
def bk_head (c : Chain) (i : Nat) (s : State) : State :=
  bk_input (bk_bypass c i (bk_keep c i (bk_free_bypass c i (bk_free_keep (bk_free_input c i
    (bk_exec c i (bk_free_weights c i (bk_valid c i s))))))))

/-- State in which the output buffer of layer `i+1` is set up (line 970), in the pass
started from `s`, on core 0. -/
def at_output (c : Chain) (b : Board) (s : State) (i : Nat) : State :=
  bk_head c i (set_keep_index c i (swap_L3 (invoke c b i (at_kernel c b 0 s i))))

/-! ### main.c: the length of the result vector -/

/-- The two macros of main.c that select the build variant. -/
structure Build where
  REGRESSION_AS_CLASSIFICATION : Bool
  IMAV : Bool

/-- The macro `CNN_OUTPUTS` of main.c (lines 82-89): the number of words of `ResOut` that
main.c allocates (line 305) and copies to `data_to_send` (lines 396-398). -/
def CNN_OUTPUTS (v : Build) : Nat :=
  if v.REGRESSION_AS_CLASSIFICATION = true then 4 else if v.IMAV = true then 7 else 2

/-! ### `network_setup`: the checksums of the weight files

In a build with `Check_all` in `verbose_level` the loop of `network_setup` that copies the
weight files to the off-chip RAM also sums their bytes and, when `VERBOSE` is defined,
compares each sum with the table `check_weights`. -/

/-- Size of `flashBuffer` in bytes. -/
def FLASH_BUFF_SIZE : Nat := 128

/-- The value of an `int` after an operation whose mathematical result is `x` (32 bits,
two's complement). -/
def wrap32 (x : Int) : Int := (x + 2147483648) % 4294967296 - 2147483648

/-- A weight file of the flash filesystem: whether `pi_fs_open` finds it, and its bytes. -/
structure WeightFile where
  opens : Bool
  bytes : List Nat

/-- Line 446: `sum_weights += flashBuffer[t]`, where `flashBuffer[t]` is a `uint8_t`. -/
def add_byte (sum : Int) (t : Nat) : Int := wrap32 (sum + ((t % 256 : Nat) : Int))

/-- The loop of lines 441-450 on the bytes of the file that are still to be read: each
`pi_fs_read` delivers the next `FLASH_BUFF_SIZE` bytes (fewer at the end of the file),
and the loop of lines 445-446 adds them to `sum_weights`.  The first argument bounds the
number of rounds. -/
def read_loop : Nat → List Nat → Int → Int
  | 0, _, sum => sum
  | fuel + 1, rest, sum =>
      if rest = [] then sum
      else
        read_loop fuel (rest.drop FLASH_BUFF_SIZE)
          ((rest.take FLASH_BUFF_SIZE).foldl add_byte sum)

/-- Lines 439-450: the value of `sum_weights` after the copy of a file.  A file of `n`
bytes is read in at most `n` rounds. -/
def sum_weights (f : WeightFile) : Int := read_loop f.bytes.length f.bytes 0

/-- Diagnostics printed by the loop over the weight files. -/
inductive Diag where
  | open_failed
  | check_ok (layer_number check sum : Int)
  | check_failed (layer_number check sum : Int)
deriving DecidableEq

/-- Lines 452-457: the comparison of the sum with the stored checksum. -/
def compare_sum (check_weights : Int → Int) (layer_number sum : Int) : Diag :=
  if check_weights layer_number = sum then
    Diag.check_ok layer_number (check_weights layer_number) sum
  else Diag.check_failed layer_number (check_weights layer_number) sum

/-- Lines 424-460 of `network_setup`: the loop over the weight files, from the value of
`layer_number` at the top of an iteration.  The result is the list of diagnostics and
whether the loop ran to its end (`false`: `return -1` at line 434). -/
def setup_weights (c : Chain) (check_weights : Int → Int) :
    List WeightFile → Int → List Diag × Bool
  | [], _ => ([], true)
  | f :: rest, layer_number =>
      let layer_number :=
        if c.layer_with_weights layer_number = 0 then layer_number + 1 else layer_number
      if f.opens = false then ([Diag.open_failed], false)
      else
        let r := setup_weights c check_weights rest (layer_number + 1)
        (compare_sum check_weights layer_number (sum_weights f) :: r.1, r.2)

/-! ### main.c: the crop of the camera frame -/

/-- The macro `CAMERA_WIDTH` of main.c (lines 55-67). -/
def CAMERA_WIDTH (v : Build) : Nat := if v.IMAV = true then 162 else 324

/-- The macro `CAMERA_HEIGHT` of main.c (lines 55-67). -/
def CAMERA_HEIGHT (v : Build) : Nat := if v.IMAV = true then 162 else 244

/-- The macro `INPUT_WIDTH` of main.c (lines 55-67). -/
def INPUT_WIDTH (v : Build) : Nat := if v.IMAV = true then 162 else 200

/-- The macro `BUFF_SIZE` of main.c (line 70): the number of bytes of a camera frame. -/
def BUFF_SIZE (v : Build) : Nat := CAMERA_WIDTH v * CAMERA_HEIGHT v

/-- Line 165 of main.c, `*(image_cropped+i*INPUT_WIDTH+j) =
*(image_raw+(i+44)*CAMERA_WIDTH+j+62)`, on a memory of bytes; the two pointers are
addresses in that memory. -/
def crop_step (v : Build) (image_raw image_cropped i j : Nat) (m : Nat → Nat) : Nat → Nat :=
  Function.update m (image_cropped + i * INPUT_WIDTH v + j)
    (m (image_raw + (i + 44) * CAMERA_WIDTH v + j + 62))

/-- The inner loop of `image_crop` (lines 164-166), for row `i`. -/
def crop_row (v : Build) (image_raw image_cropped i : Nat) (m : Nat → Nat) : Nat → Nat :=
  (List.range 200).foldl (fun m j => crop_step v image_raw image_cropped i j m) m

/-- The function `image_crop` of main.c (lines 160-168).  main.c calls it with the camera
buffer as source and as destination (line 386), in the builds without `IMAV`. -/
def image_crop (v : Build) (image_raw image_cropped : Nat) (m : Nat → Nat) : Nat → Nat :=
  (List.range 200).foldl (fun m i => crop_row v image_raw image_cropped i m) m
/-! ## Observations on a pass -/

/-- An allocator call, reduced to its kind, its size and its side flag. -/
inductive Call where
  | alloc (size side : Int)
  | free (size side : Int)
deriving DecidableEq

/-- The allocator call behind an event, if it is one. -/
def Event.call : Event → Option Call
  | Event.alloc size side _ _ _ => some (Call.alloc size side)
  | Event.free size side _ _ => some (Call.free size side)
  | _ => none

/-- The allocator calls of a trace, in order. -/
def alloc_calls (t : List Event) : List Call := t.filterMap Event.call

/-- The effect of one allocator call on the two stacks of live block sizes (begin side
first, end side second, last allocated block at the head).  The result is `none` as soon
as a free does not release the last live block of its side with the size it was allocated
with. -/
def stack_step (st : Option (List Int × List Int)) (k : Call) : Option (List Int × List Int) :=
  match st, k with
  | none, _ => none
  | some (bs, es), Call.alloc size side =>
      if side = 1 then some (size :: bs, es) else some (bs, size :: es)
  | some (bs, es), Call.free size side =>
      if side = 1 then
        match bs with
        | top :: rest => if top = size then some (rest, es) else none
        | [] => none
      else
        match es with
        | top :: rest => if top = size then some (bs, rest) else none
        | [] => none

/-- The two stacks of live block sizes after the calls of a trace, from an empty arena. -/
def arena_stacks (t : List Event) : Option (List Int × List Int) :=
  (alloc_calls t).foldl stack_step (some ([], []))

/-- Every free of the trace releases the last live block of its side, with its size. -/
def StackDiscipline (t : List Event) : Prop := (arena_stacks t).isSome = true

/-- The arena boundaries recorded by an allocator call do not cross. -/
def Event.within : Event → Prop
  | Event.alloc _ _ _ b e => b ≤ e
  | Event.free _ _ b e => b ≤ e
  | _ => True

/-- Bytes of the arena that are allocated in a state. -/
def live (s : State) : Int :=
  (s.get .L2_buffer_allocation - s.get .L2_buffer_allocation_baseline)
    + (s.get .L2_buffer_allocation_end_baseline - s.get .L2_buffer_allocation_end)

/-- Weight bytes of layer `i`: the table entry if the layer exists and has weights. -/
def weight_bytes (c : Chain) (i : Nat) : Int :=
  if i < c.N ∧ c.layer_with_weights i = 1 then c.check_weights_dimension i else 0

/-- Bytes that layer `i` needs in the arena while its kernel runs: its input, its
weights, its output and the weights of the next layer. -/
def need (c : Chain) (i : Nat) : Int :=
  c.check_activations_dimension i + weight_bytes c i
    + c.check_activations_out_dimension i + weight_bytes c (i + 1)

/-- No layer carries a branch flag. -/
def BranchFree (c : Chain) : Prop :=
  ∀ i : Nat, i < c.N →
    c.branch_input i = 0 ∧ c.branch_output i = 0 ∧ c.branch_change i = 0
      ∧ c.branch_last i = 0

/-- Section 1 pre-allocates the second weight slot exactly when layer 1 exists and has
weights. -/
def SecondSlotMatches (c : Chain) : Prop :=
  c.second_weights = true ↔ (1 < c.N ∧ c.layer_with_weights 1 = 1)

/-- Mutually consistent size tables: the input of a layer is the output of the layer
before, the sizes emitted into section 1 are the table entries of layers 0 and 1, and the
second weight slot is pre-allocated exactly when layer 1 has weights. -/
def Consistent (c : Chain) : Prop :=
  (∀ i : Nat, i + 1 < c.N →
      c.check_activations_dimension ((i : Int) + 1) = c.check_activations_out_dimension i)
    ∧ c.input_dim = c.check_activations_dimension 0
    ∧ c.weights0_dim = c.check_weights_dimension 0
    ∧ c.output0_dim = c.check_activations_out_dimension 0
    ∧ (c.second_weights = true →
        c.weights1_dim - c.weights0_dim = c.check_weights_dimension 1)
    ∧ SecondSlotMatches c

/-- Byte sizes are not negative. -/
def SizesNonneg (c : Chain) : Prop :=
  ∀ i : Nat, i < c.N →
    0 ≤ c.check_activations_dimension i ∧ 0 ≤ c.check_activations_out_dimension i
      ∧ 0 ≤ c.check_weights_dimension i

/-- A table given by its entries; reads outside the table give 0. -/
def tbl (l : List Int) : Int → Int := fun i => if i < 0 then 0 else l.getD i.toNat 0

/-- A board: arena at address 1000, kernels that leave the memory alone. -/
def board0 : Board :=
  { l2_malloc := 1000, l1_malloc := 16, ram := 8, ram_weights := 2000000,
    ram_input := 5000000, ram_output := 7000000, weights_bytes := 100, files_open := true,
    kernel := fun _ _ m => m }

/-- The state of a freshly loaded program: every variable is zero. -/
def state0 : State :=
  { get := fun _ => 0, mem := fun _ => 0, ResOut := fun _ => 0, trace := [] }

/-- The 3-layer chain of the allocator scenario: sizes 100, 200, 150, weights 40, 0, 60,
no branches; `out2` is the output size of the last layer. -/
def chain3 (out2 : Int) : Chain :=
  { N := 3, test := false, checksums := false, input_dim := 100, weights0_dim := 40,
    output0_dim := 200, second_weights := false, weights1_dim := 40, l1_buffer_size := 1000,
    L3_layers := tbl [0, 0, 0], allocate_layer := tbl [1, 0, 1],
    branch_input := tbl [], branch_output := tbl [], branch_change := tbl [],
    branch_last := tbl [],
    check_weights_dimension := tbl [40, 0, 60],
    cumulative_weights_dimension := tbl [0, 40, 40],
    check_activations_dimension := tbl [100, 200, 150],
    check_activations_out_dimension := tbl [200, 150, out2],
    out_mult_vector := tbl [], out_shift_vector := tbl [], inmul1_vector := tbl [],
    inmul2_vector := tbl [],
    layer_with_weights := tbl [1, 0, 1] }


/-- Live weight block of layer `j`, as a stack segment. -/
def wlist (c : Chain) (j : Nat) : List Int :=
  if j < c.N ∧ c.layer_with_weights j = 1 then [c.check_weights_dimension j] else []

/-- Facts at the top of iteration `i` of a branch-free pass: the side flag is 0 or 1, no
input is reused as output, no merge has been seen, and the side selected by the flag
holds the input and the weights of layer `i` while the other side holds its output and
the weights of layer `i+1`. -/
def PlainStacks (c : Chain) (i : Nat) (s : State) : Prop :=
  (s.get .begin_end_n = 0 ∨ s.get .begin_end_n = 1)
    ∧ s.get .input_used_as_out = 0
    ∧ s.get .valid_keep = 0
    ∧ arena_stacks s.trace = some
        (if s.get .begin_end_n = 1 then
          (wlist c i ++ [c.check_activations_dimension i],
            wlist c (i + 1) ++ [c.check_activations_out_dimension i])
        else
          (wlist c (i + 1) ++ [c.check_activations_out_dimension i],
            wlist c i ++ [c.check_activations_dimension i]))

/-- A 2-layer branch-free chain whose first layer has no weights although 40 weight bytes
are emitted for it: sizes 100 -> 200 -> 28. -/
def chain_w0 : Chain :=
  { N := 2, test := false, checksums := false, input_dim := 100, weights0_dim := 40,
    output0_dim := 200, second_weights := false, weights1_dim := 40, l1_buffer_size := 1000,
    L3_layers := tbl [0, 0], allocate_layer := tbl [0, 0],
    branch_input := tbl [], branch_output := tbl [], branch_change := tbl [],
    branch_last := tbl [],
    check_weights_dimension := tbl [40, 0],
    cumulative_weights_dimension := tbl [0, 40],
    check_activations_dimension := tbl [100, 200],
    check_activations_out_dimension := tbl [200, 28],
    out_mult_vector := tbl [], out_shift_vector := tbl [], inmul1_vector := tbl [],
    inmul2_vector := tbl [],
    layer_with_weights := tbl [0, 0] }

/-- No allocator call of the trace leaves the two boundaries crossed. -/
def AllWithin (t : List Event) : Prop := ∀ ev ∈ t, ev.within

/-- Position of the two boundaries at the top of iteration `i` of a branch-free pass:
the side selected by the flag holds the input and the weights of layer `i`, the other
side its output and the weights of layer `i+1`. -/
def PlainArena (c : Chain) (i : Nat) (s : State) : Prop :=
  if s.get .begin_end_n = 1 then
    s.get .L2_buffer_allocation
        = s.get .L2_buffer_allocation_baseline
          + (weight_bytes c i + c.check_activations_dimension i)
      ∧ s.get .L2_buffer_allocation_end
        = s.get .L2_buffer_allocation_end_baseline
          - (weight_bytes c (i + 1) + c.check_activations_out_dimension i)
  else
    s.get .L2_buffer_allocation
        = s.get .L2_buffer_allocation_baseline
          + (weight_bytes c (i + 1) + c.check_activations_out_dimension i)
      ∧ s.get .L2_buffer_allocation_end
        = s.get .L2_buffer_allocation_end_baseline
          - (weight_bytes c i + c.check_activations_dimension i)

/-- The 3-layer scenario chain: no branches, activation sizes 100, 200, 150 and output
size `out2`, weight sizes 40, 0, 60, the middle layer without weights. -/
def Scenario3 (c : Chain) (out2 : Int) : Prop :=
  c.N = 3 ∧ BranchFree c
    ∧ c.input_dim = 100 ∧ c.weights0_dim = 40 ∧ c.output0_dim = 200
    ∧ c.second_weights = false
    ∧ c.layer_with_weights 0 = 1 ∧ c.layer_with_weights 1 = 0 ∧ c.layer_with_weights 2 = 1
    ∧ c.check_weights_dimension 0 = 40 ∧ c.check_weights_dimension 1 = 0
    ∧ c.check_weights_dimension 2 = 60
    ∧ c.check_activations_dimension 0 = 100 ∧ c.check_activations_dimension 1 = 200
    ∧ c.check_activations_dimension 2 = 150
    ∧ c.check_activations_out_dimension 0 = 200 ∧ c.check_activations_out_dimension 1 = 150
    ∧ c.check_activations_out_dimension 2 = out2

/-- The sequence of allocator calls that the scenario expects: three allocations, then
free(40), free(100), alloc(150), then free(200), alloc(out2), then only frees. -/
def ExpectedCalls (out2 : Int) (l : List Call) : Prop :=
  ∃ (s1 s2 s3 s4 s5 s6 s7 s8 : Int) (rest : List Call),
    l = [Call.alloc 100 s1, Call.alloc 40 s2, Call.alloc 200 s3, Call.free 40 s4,
         Call.free 100 s5, Call.alloc 150 s6, Call.free 200 s7, Call.alloc out2 s8] ++ rest
      ∧ ∀ k ∈ rest, ∃ size side, k = Call.free size side

/-- The double-buffering variables: the two toggles, the two selected pointers and the
two slot variables. -/
def slots (s : State) : Int × Int × Int × Int × Int × Int :=
  (s.get .d_buffering_weights_e, s.get .d_buffering_weights_t, s.get .exec_weights,
    s.get .transfer_weights, s.get .L2_weights_1, s.get .L2_weights_2)

/-- Facts on the double-buffering variables at the top of iteration `i`: the execution
toggle is 0 or 1, each pointer is the slot variable selected by its toggle, and the
transfer toggle is ahead of the execution toggle exactly when layer `i+1` exists and has
weights. -/
def SlotInv (c : Chain) (i : Nat) (v : Int × Int × Int × Int × Int × Int) : Prop :=
  (v.1 = 0 ∨ v.1 = 1)
    ∧ v.2.2.1 = pick v.1 v.2.2.2.2.1 v.2.2.2.2.2
    ∧ v.2.2.2.1 = pick v.2.1 v.2.2.2.2.1 v.2.2.2.2.2
    ∧ v.2.1 = (if i + 1 < c.N ∧ c.layer_with_weights ((i : Int) + 1) = 1 then lnot v.1 else v.1)

/-- A 2-layer chain whose second layer has weights that section 1 does not pre-allocate
(the template pre-allocates for 'Gemm' and 'Conv' nodes only, the tables also mark
'MatMul' nodes as layers with weights). -/
def chain_mm : Chain :=
  { N := 2, test := false, checksums := false, input_dim := 100, weights0_dim := 40,
    output0_dim := 200, second_weights := false, weights1_dim := 100, l1_buffer_size := 1000,
    L3_layers := tbl [0, 0], allocate_layer := tbl [1, 1],
    branch_input := tbl [], branch_output := tbl [], branch_change := tbl [],
    branch_last := tbl [],
    check_weights_dimension := tbl [40, 60],
    cumulative_weights_dimension := tbl [0, 40],
    check_activations_dimension := tbl [100, 200],
    check_activations_out_dimension := tbl [200, 28],
    out_mult_vector := tbl [], out_shift_vector := tbl [], inmul1_vector := tbl [],
    inmul2_vector := tbl [],
    layer_with_weights := tbl [1, 1] }

/-- The 3-layer chain `chain3` with weights in every layer (60, 40, 60 bytes), the second
slot pre-allocated by section 1. -/
def chain_www : Chain :=
  { N := 3, test := false, checksums := false, input_dim := 100, weights0_dim := 60,
    output0_dim := 200, second_weights := true, weights1_dim := 100, l1_buffer_size := 1000,
    L3_layers := tbl [0, 0, 0], allocate_layer := tbl [1, 1, 1],
    branch_input := tbl [], branch_output := tbl [], branch_change := tbl [],
    branch_last := tbl [],
    check_weights_dimension := tbl [60, 40, 60],
    cumulative_weights_dimension := tbl [0, 60, 100],
    check_activations_dimension := tbl [100, 200, 150],
    check_activations_out_dimension := tbl [200, 150, 28],
    out_mult_vector := tbl [], out_shift_vector := tbl [], inmul1_vector := tbl [],
    inmul2_vector := tbl [],
    layer_with_weights := tbl [1, 1, 1] }

/-- Effect of lines 903-907 on the double-buffering variables. -/
def exec_toggle (c : Chain) (i : Nat) (v : Int × Int × Int × Int × Int × Int) :
    Int × Int × Int × Int × Int × Int :=
  if c.layer_with_weights ((i : Int) + 1) = 1 then
    (lnot v.1, v.2.1, pick (lnot v.1) v.2.2.2.2.1 v.2.2.2.2.2, v.2.2.2.1, v.2.2.2.2.1,
      v.2.2.2.2.2)
  else v

/-- Effect of lines 1001-1029 on the double-buffering variables, `p` being the address
returned by the allocator. -/
def transfer_toggle (c : Chain) (i : Nat) (p : Int) (v : Int × Int × Int × Int × Int × Int) :
    Int × Int × Int × Int × Int × Int :=
  if i + 2 < c.N ∧ c.layer_with_weights ((i : Int) + 2) = 1 then
    (v.1, lnot v.2.1, v.2.2.1,
      pick (lnot v.2.1) (if v.1 = 1 then p else v.2.2.2.2.1)
        (if v.1 = 1 then v.2.2.2.2.2 else p),
      (if v.1 = 1 then p else v.2.2.2.2.1), (if v.1 = 1 then v.2.2.2.2.2 else p))
  else v

/-- Whether an event is a call on the request handle `buff_req1`. -/
def Event.is_transfer : Event → Bool
  | Event.read _ _ _ => true
  | Event.wait => true
  | _ => false

/-- The reads and waits of a trace, in order. -/
def transfers (t : List Event) : List Event := t.filter Event.is_transfer

/-- The effect of one call on the request handle: `some true` while a read is issued and
not yet waited for, `none` as soon as a read is issued while an earlier one is still
outstanding. -/
def outstanding_step (st : Option Bool) (ev : Event) : Option Bool :=
  match st, ev with
  | none, _ => none
  | some pending, Event.read _ _ _ => if pending then none else some true
  | some _, Event.wait => some false
  | some pending, _ => some pending

/-- No read of the trace is issued while an earlier read is still un-waited. -/
def OneOutstanding (t : List Event) : Prop :=
  (t.foldl outstanding_step (some false)).isSome = true

/-- A 4-layer chain: a layer with weights, a layer with weights whose activations are
tiled from the off-chip memory (`L3_layers[1] = 1`), a layer without weights, a layer
with weights.  Sizes 100 -> 200 -> 150 -> 120 -> 28, weights 40, 60, 0, 50. -/
def chain_gap : Chain :=
  { N := 4, test := false, checksums := false, input_dim := 100, weights0_dim := 40,
    output0_dim := 200, second_weights := true, weights1_dim := 100, l1_buffer_size := 1000,
    L3_layers := tbl [0, 1, 0, 0], allocate_layer := tbl [1, 1, 0, 1],
    branch_input := tbl [], branch_output := tbl [], branch_change := tbl [],
    branch_last := tbl [],
    check_weights_dimension := tbl [40, 60, 0, 50],
    cumulative_weights_dimension := tbl [0, 40, 100, 100],
    check_activations_dimension := tbl [100, 200, 150, 120],
    check_activations_out_dimension := tbl [200, 150, 120, 28],
    out_mult_vector := tbl [], out_shift_vector := tbl [], inmul1_vector := tbl [],
    inmul2_vector := tbl [],
    layer_with_weights := tbl [1, 1, 0, 1] }

/-- A 3-layer chain whose layers 1 and 2 are merge layers (`branch_input = 1`) although
no layer is a branch-output or a branch-change layer. -/
def chain_merge : Chain :=
  { N := 3, test := false, checksums := false, input_dim := 100, weights0_dim := 40,
    output0_dim := 200, second_weights := false, weights1_dim := 40, l1_buffer_size := 1000,
    L3_layers := tbl [0, 0, 0], allocate_layer := tbl [1, 0, 0],
    branch_input := tbl [0, 1, 1], branch_output := tbl [], branch_change := tbl [],
    branch_last := tbl [],
    check_weights_dimension := tbl [40, 0, 0],
    cumulative_weights_dimension := tbl [0, 40, 40],
    check_activations_dimension := tbl [100, 200, 200],
    check_activations_out_dimension := tbl [200, 200, 28],
    out_mult_vector := tbl [], out_shift_vector := tbl [], inmul1_vector := tbl [],
    inmul2_vector := tbl [],
    layer_with_weights := tbl [1, 0, 0] }

/-- The branch scenario: at least 7 layers, a branch-change at layer 2, a merge
(`branch_input`) at layer 5, no other branch flag. -/
def Scenario9 (c : Chain) : Prop :=
  7 ≤ c.N ∧ ∀ j : Nat, j < c.N →
    c.branch_output j = 0 ∧ c.branch_last j = 0
      ∧ c.branch_change j = (if j = 2 then 1 else 0)
      ∧ c.branch_input j = (if j = 5 then 1 else 0)

/-- A 7-layer chain of the branch scenario; layers 0, 3 and 5 have weights. -/
def chain9 : Chain :=
  { N := 7, test := false, checksums := false, input_dim := 100, weights0_dim := 40,
    output0_dim := 200, second_weights := false, weights1_dim := 40, l1_buffer_size := 1000,
    L3_layers := tbl [0, 0, 0, 0, 0, 0, 0], allocate_layer := tbl [1, 0, 0, 1, 0, 1, 0],
    branch_input := tbl [0, 0, 0, 0, 0, 1, 0], branch_output := tbl [],
    branch_change := tbl [0, 0, 1, 0, 0, 0, 0], branch_last := tbl [],
    check_weights_dimension := tbl [40, 0, 0, 30, 0, 20, 0],
    cumulative_weights_dimension := tbl [0, 40, 40, 40, 70, 70, 90],
    check_activations_dimension := tbl [100, 200, 150, 120, 110, 90, 120],
    check_activations_out_dimension := tbl [200, 150, 120, 110, 90, 120, 28],
    out_mult_vector := tbl [], out_shift_vector := tbl [], inmul1_vector := tbl [],
    inmul2_vector := tbl [],
    layer_with_weights := tbl [1, 0, 0, 1, 0, 1, 0] }

/-- The chain `chain3 28` with the word in front of the table `branch_change` set to 1:
every entry of every table is as in `chain3 28`. -/
def chain_low : Chain :=
  { chain3 28 with branch_change := fun j => if j = -1 then 1 else 0 }

/-- A 6-layer chain with a branch-change at layer 2 and a merge at layer 4; layers 0, 3
and 5 have weights. -/
def chain_even : Chain :=
  { N := 6, test := false, checksums := false, input_dim := 100, weights0_dim := 40,
    output0_dim := 200, second_weights := false, weights1_dim := 40, l1_buffer_size := 1000,
    L3_layers := tbl [0, 0, 0, 0, 0, 0], allocate_layer := tbl [1, 0, 0, 1, 0, 1],
    branch_input := tbl [0, 0, 0, 0, 1, 0], branch_output := tbl [],
    branch_change := tbl [0, 0, 1, 0, 0, 0], branch_last := tbl [],
    check_weights_dimension := tbl [40, 0, 0, 30, 0, 20],
    cumulative_weights_dimension := tbl [0, 40, 40, 40, 70, 70],
    check_activations_dimension := tbl [100, 200, 150, 120, 120, 120],
    check_activations_out_dimension := tbl [200, 150, 120, 120, 120, 28],
    out_mult_vector := tbl [], out_shift_vector := tbl [], inmul1_vector := tbl [],
    inmul2_vector := tbl [],
    layer_with_weights := tbl [1, 0, 0, 1, 0, 1] }

/-- A board whose kernels fill the 28 bytes of their output buffer (slot 5 of the argument
vector): the kernel of layer `i` stores `1000 * i + a` in the word at offset `a`. -/
def board1 : Board :=
  { board0 with
    kernel := fun i args m a =>
      if args.getD 5 0 ≤ a ∧ a < args.getD 5 0 + 28 then
        1000 * (i : Int) + (a - args.getD 5 0)
      else m a }

/-- The write to `ResOut` behind an event, if it is one. -/
def Event.result : Event → Option (Nat × Int)
  | Event.resout k v => some (k, v)
  | _ => none

/-- The writes to `ResOut` of a trace, in order: index and value. -/
def resouts (t : List Event) : List (Nat × Int) := t.filterMap Event.result

/-- The trace `u` continues the trace `t` with allocator calls only. -/
def CallsOnly (t u : List Event) : Prop :=
  ∃ post : List Event, u = t ++ post ∧ ∀ ev ∈ post, (Event.call ev).isSome = true

/-- Whether a read is issued and not yet waited for when the kernel of layer `i` is
called, `p` telling whether one is outstanding at the start of the trace; `none` if the
trace has no call of that kernel. -/
def in_flight_at_kernel (i : Nat) : List Event → Bool → Option Bool
  | [], _ => none
  | Event.kernel j _ :: t, p => if j = i then some p else in_flight_at_kernel i t p
  | Event.read _ _ _ :: t, _ => in_flight_at_kernel i t true
  | Event.wait :: t, _ => in_flight_at_kernel i t false
  | _ :: t, p => in_flight_at_kernel i t p

/-- Sum of the bytes of a blob, as mathematical integers. -/
def byte_total (bytes : List Nat) : Int := (bytes.map (fun t => ((t % 256 : Nat) : Int))).sum

/-- The checksum of a blob: the sum of its bytes as a 32-bit `int`. -/
def blob_sum (bytes : List Nat) : Int := wrap32 (byte_total bytes)

/-- A 3-layer chain with a branch-change at layer 1 and no merge. -/
def chain_keep : Chain :=
  { N := 3, test := false, checksums := false, input_dim := 100, weights0_dim := 40,
    output0_dim := 200, second_weights := false, weights1_dim := 40, l1_buffer_size := 1000,
    L3_layers := tbl [0, 0, 0], allocate_layer := tbl [1, 0, 1],
    branch_input := tbl [], branch_output := tbl [], branch_change := tbl [0, 1, 0],
    branch_last := tbl [],
    check_weights_dimension := tbl [40, 0, 60],
    cumulative_weights_dimension := tbl [0, 40, 40],
    check_activations_dimension := tbl [100, 200, 150],
    check_activations_out_dimension := tbl [200, 150, 28],
    out_mult_vector := tbl [], out_shift_vector := tbl [], inmul1_vector := tbl [],
    inmul2_vector := tbl [],
    layer_with_weights := tbl [1, 0, 1] }

/-- A 3-layer chain with a branch-change at layer 0 and a merge at the last layer. -/
def chain_merge_last : Chain :=
  { N := 3, test := false, checksums := false, input_dim := 100, weights0_dim := 40,
    output0_dim := 200, second_weights := false, weights1_dim := 40, l1_buffer_size := 1000,
    L3_layers := tbl [0, 0, 0], allocate_layer := tbl [1, 0, 0],
    branch_input := tbl [0, 0, 1], branch_output := tbl [], branch_change := tbl [1, 0, 0],
    branch_last := tbl [],
    check_weights_dimension := tbl [40, 0, 0],
    cumulative_weights_dimension := tbl [0, 40, 40],
    check_activations_dimension := tbl [100, 200, 200],
    check_activations_out_dimension := tbl [200, 200, 28],
    out_mult_vector := tbl [], out_shift_vector := tbl [], inmul1_vector := tbl [],
    inmul2_vector := tbl [],
    layer_with_weights := tbl [1, 0, 0] }

/-- The layers that have weights, in order. -/
def weighted_layers (c : Chain) : List Nat :=
  (List.range c.N).filter (fun j => decide (c.layer_with_weights j = 1))

/-- The value of `layer_number` printed by a comparison. -/
def Diag.layer : Diag → Option Int
  | Diag.open_failed => none
  | Diag.check_ok layer_number _ _ => some layer_number
  | Diag.check_failed layer_number _ _ => some layer_number

/-- Offset in the camera frame of the byte that ends up at offset `k` of the cropped
image: row `k / 200 + 44`, column `k % 200 + 62`. -/
def crop_source (k : Nat) : Nat := (k / 200 + 44) * 324 + k % 200 + 62

/-- The crop as a whole: what `image_crop` is to leave in memory when the destination
does not overlap the bytes still to be read. -/
def cropped_memory (image_raw image_cropped n : Nat) (m : Nat → Nat) : Nat → Nat :=
  fun x =>
    if image_cropped ≤ x ∧ x < image_cropped + n then
      m (image_raw + crop_source (x - image_cropped))
    else m x

/-- No byte of the cropped image is written before a byte that is read later. -/
def CropSafe (image_raw image_cropped : Nat) : Prop :=
  ∀ k k2 : Nat, k < k2 → k2 < 40000 → image_cropped + k ≠ image_raw + crop_source k2

/-- A 3-layer branch-free chain whose first layer has no weights and for which no weight
bytes are emitted: a pooling layer, a layer with 60 weight bytes, a weight-free layer;
sizes 100 -> 200 -> 150 -> 28. -/
def chain_pool : Chain :=
  { N := 3, test := false, checksums := false, input_dim := 100, weights0_dim := 0,
    output0_dim := 200, second_weights := true, weights1_dim := 60, l1_buffer_size := 1000,
    L3_layers := tbl [0, 0, 0], allocate_layer := tbl [0, 1, 0],
    branch_input := tbl [], branch_output := tbl [], branch_change := tbl [],
    branch_last := tbl [],
    check_weights_dimension := tbl [0, 60, 0],
    cumulative_weights_dimension := tbl [0, 0, 60],
    check_activations_dimension := tbl [100, 200, 150],
    check_activations_out_dimension := tbl [200, 150, 28],
    out_mult_vector := tbl [], out_shift_vector := tbl [], inmul1_vector := tbl [],
    inmul2_vector := tbl [],
    layer_with_weights := tbl [0, 1, 0] }

/-- A 2-layer chain whose first output, 411000 bytes, does not fit in the arena of 410000
bytes: on `board0`, whose arena ends at 411000, the end-side allocation of section 1
returns the null pointer.  Both layers have weights and section 1 pre-allocates the
second slot, so line 667 is emitted. -/
def chain_full : Chain :=
  { N := 2, test := false, checksums := false, input_dim := 100, weights0_dim := 40,
    output0_dim := 411000, second_weights := true, weights1_dim := 100,
    l1_buffer_size := 1000,
    L3_layers := tbl [0, 0], allocate_layer := tbl [1, 1],
    branch_input := tbl [], branch_output := tbl [], branch_change := tbl [],
    branch_last := tbl [],
    check_weights_dimension := tbl [40, 60],
    cumulative_weights_dimension := tbl [0, 40],
    check_activations_dimension := tbl [100, 411000],
    check_activations_out_dimension := tbl [411000, 28],
    out_mult_vector := tbl [], out_shift_vector := tbl [], inmul1_vector := tbl [],
    inmul2_vector := tbl [],
    layer_with_weights := tbl [1, 1] }
/-! ## Reading a state after a step -/

@[simp] theorem get_set (s : State) (x y : Var) (v : Int) :
    (s.set x v).get y = if y = x then v else s.get y := rfl
@[simp] theorem mem_set (s : State) (x : Var) (v : Int) : (s.set x v).mem = s.mem := rfl
@[simp] theorem ResOut_set (s : State) (x : Var) (v : Int) : (s.set x v).ResOut = s.ResOut := rfl
@[simp] theorem trace_set (s : State) (x : Var) (v : Int) : (s.set x v).trace = s.trace := rfl
@[simp] theorem get_log (s : State) (ev : Event) : (s.log ev).get = s.get := rfl
@[simp] theorem mem_log (s : State) (ev : Event) : (s.log ev).mem = s.mem := rfl
@[simp] theorem ResOut_log (s : State) (ev : Event) : (s.log ev).ResOut = s.ResOut := rfl
@[simp] theorem trace_log (s : State) (ev : Event) : (s.log ev).trace = s.trace ++ [ev] := rfl
@[simp] theorem get_clear (s : State) : s.clear.get = s.get := rfl
@[simp] theorem mem_clear (s : State) : s.clear.mem = s.mem := rfl
@[simp] theorem ResOut_clear (s : State) : s.clear.ResOut = s.ResOut := rfl
@[simp] theorem trace_clear (s : State) : s.clear.trace = [] := rfl
@[simp] theorem get_store (s : State) (m : Int → Int) : (s.store m).get = s.get := rfl
@[simp] theorem mem_store (s : State) (m : Int → Int) : (s.store m).mem = m := rfl
@[simp] theorem ResOut_store (s : State) (m : Int → Int) : (s.store m).ResOut = s.ResOut := rfl
@[simp] theorem trace_store (s : State) (m : Int → Int) : (s.store m).trace = s.trace := rfl
@[simp] theorem get_result (s : State) (k : Nat) (v : Int) : (s.result k v).get = s.get := rfl
@[simp] theorem mem_result (s : State) (k : Nat) (v : Int) : (s.result k v).mem = s.mem := rfl
@[simp] theorem ResOut_result (s : State) (k j : Nat) (v : Int) :
    (s.result k v).ResOut j = if j = k then v else s.ResOut j := rfl
@[simp] theorem trace_result (s : State) (k : Nat) (v : Int) :
    (s.result k v).trace = s.trace := rfl

@[simp] theorem get_ite (p : Prop) [Decidable p] (a b : State) (x : Var) :
    (if p then a else b).get x = if p then a.get x else b.get x := by
  split <;> rfl
@[simp] theorem trace_ite (p : Prop) [Decidable p] (a b : State) :
    (if p then a else b).trace = if p then a.trace else b.trace := by
  split <;> rfl
@[simp] theorem mem_ite (p : Prop) [Decidable p] (a b : State) :
    (if p then a else b).mem = if p then a.mem else b.mem := by
  split <;> rfl

@[simp] theorem get_store_result (k : Nat) (s : State) : (store_result k s).get = s.get := rfl
@[simp] theorem mem_store_result (k : Nat) (s : State) : (store_result k s).mem = s.mem := rfl
@[simp] theorem get_cnn_outputs (s : State) : (cnn_outputs s).get = s.get := by
  simp [cnn_outputs]
@[simp] theorem mem_cnn_outputs (s : State) : (cnn_outputs s).mem = s.mem := by
  simp [cnn_outputs]
@[simp] theorem get_invoke (c : Chain) (b : Board) (i : Nat) (s : State) :
    (invoke c b i s).get = s.get := rfl
@[simp] theorem ResOut_invoke (c : Chain) (b : Board) (i : Nat) (s : State) :
    (invoke c b i s).ResOut = s.ResOut := rfl
theorem trace_invoke (c : Chain) (b : Board) (i : Nat) (s : State) :
    (invoke c b i s).trace = s.trace ++ [Event.kernel i (kernel_args c b i s)] := rfl
@[simp] theorem get_prefetch (c : Chain) (i : Nat) (s : State) :
    (prefetch c i s).get = s.get := by
  unfold prefetch do_read do_wait
  split_ifs <;> rfl
@[simp] theorem mem_prefetch (c : Chain) (i : Nat) (s : State) :
    (prefetch c i s).mem = s.mem := by
  unfold prefetch do_read do_wait
  split_ifs <;> rfl

@[simp] theorem get_do_read (s : State) (src dst size : Int) :
    (do_read s src dst size).get = s.get := rfl
@[simp] theorem mem_do_read (s : State) (src dst size : Int) :
    (do_read s src dst size).mem = s.mem := rfl
theorem trace_do_read (s : State) (src dst size : Int) :
    (do_read s src dst size).trace = s.trace ++ [Event.read src dst size] := rfl
@[simp] theorem get_do_wait (s : State) : (do_wait s).get = s.get := rfl
@[simp] theorem mem_do_wait (s : State) : (do_wait s).mem = s.mem := rfl
theorem trace_do_wait (s : State) : (do_wait s).trace = s.trace ++ [Event.wait] := rfl

@[simp] theorem get_do_free (s : State) (size : Int) (x : Var) :
    (do_free s size).get x
      = if x = .L2_buffer_allocation_end then
          (dory_L2_free (s.get .L2_buffer_allocation) (s.get .L2_buffer_allocation_end) size
            (s.get .begin_end_n)).2
        else if x = .L2_buffer_allocation then
          (dory_L2_free (s.get .L2_buffer_allocation) (s.get .L2_buffer_allocation_end) size
            (s.get .begin_end_n)).1
        else s.get x := rfl
@[simp] theorem mem_do_free (s : State) (size : Int) : (do_free s size).mem = s.mem := rfl
theorem trace_do_free (s : State) (size : Int) :
    (do_free s size).trace
      = s.trace ++ [Event.free size (s.get .begin_end_n)
          (dory_L2_free (s.get .L2_buffer_allocation) (s.get .L2_buffer_allocation_end) size
            (s.get .begin_end_n)).1
          (dory_L2_free (s.get .L2_buffer_allocation) (s.get .L2_buffer_allocation_end) size
            (s.get .begin_end_n)).2] := rfl

@[simp] theorem get_alloc_into (s : State) (t : Var) (size : Int) (x : Var) :
    (alloc_into s t size).get x
      = if x = t then
          (dory_L2_alloc (s.get .L2_buffer_allocation) (s.get .L2_buffer_allocation_end) size
            (s.get .begin_end_n)).2.2
        else if x = .L2_buffer_allocation_end then
          (dory_L2_alloc (s.get .L2_buffer_allocation) (s.get .L2_buffer_allocation_end) size
            (s.get .begin_end_n)).2.1
        else if x = .L2_buffer_allocation then
          (dory_L2_alloc (s.get .L2_buffer_allocation) (s.get .L2_buffer_allocation_end) size
            (s.get .begin_end_n)).1
        else s.get x := rfl
@[simp] theorem mem_alloc_into (s : State) (t : Var) (size : Int) :
    (alloc_into s t size).mem = s.mem := rfl
theorem trace_alloc_into (s : State) (t : Var) (size : Int) :
    (alloc_into s t size).trace
      = s.trace ++ [Event.alloc size (s.get .begin_end_n)
          (dory_L2_alloc (s.get .L2_buffer_allocation) (s.get .L2_buffer_allocation_end) size
            (s.get .begin_end_n)).2.2
          (dory_L2_alloc (s.get .L2_buffer_allocation) (s.get .L2_buffer_allocation_end) size
            (s.get .begin_end_n)).1
          (dory_L2_alloc (s.get .L2_buffer_allocation) (s.get .L2_buffer_allocation_end) size
            (s.get .begin_end_n)).2.1] := rfl

/-- An iteration that is not the last one, on core 0. -/
theorem layer_inner (c : Chain) (b : Board) (i : Nat) (s : State) (h : i + 1 < c.N) :
    layer c b 0 i s
      = bookkeeping c i
          (set_keep_index c i (swap_L3 (invoke c b i (before_kernel c 0 i s)))) := by
  have h1 : ¬ (i + 1 = c.N) := by omega
  simp [layer, after_kernel, h, h1]

/-- The last iteration, on core 0. -/
theorem layer_last (c : Chain) (b : Board) (i : Nat) (s : State) (h : i + 1 = c.N) :
    layer c b 0 i s
      = set_keep_index c i (swap_L3 (cnn_outputs (invoke c b i (before_kernel c 0 i s)))) := by
  have h1 : ¬ (i + 1 < c.N) := by omega
  simp [layer, after_kernel, h, h1]

theorem get_before_kernel (c : Chain) (i : Nat) (s : State) (x : Var)
    (h : x ≠ .out_mult ∧ x ≠ .out_shift ∧ x ≠ .inmul1 ∧ x ≠ .inmul2) :
    (before_kernel c 0 i s).get x = s.get x := by
  simp [before_kernel, set_quant, h]

theorem trace_before_kernel (c : Chain) (i : Nat) (s : State) :
    (before_kernel c 0 i s).trace = (prefetch c i s).trace := by
  simp [before_kernel, set_quant]

/-! ## Allocator calls of a step -/

theorem alloc_calls_append (t u : List Event) :
    alloc_calls (t ++ u) = alloc_calls t ++ alloc_calls u := by
  simp [alloc_calls, List.filterMap_append]

theorem alloc_calls_do_free (s : State) (size : Int) :
    alloc_calls (do_free s size).trace
      = alloc_calls s.trace ++ [Call.free size (s.get .begin_end_n)] := by
  simp [trace_do_free, alloc_calls, List.filterMap_append, Event.call]

theorem alloc_calls_alloc_into (s : State) (t : Var) (size : Int) :
    alloc_calls (alloc_into s t size).trace
      = alloc_calls s.trace ++ [Call.alloc size (s.get .begin_end_n)] := by
  simp [trace_alloc_into, alloc_calls, List.filterMap_append, Event.call]

theorem alloc_calls_do_read (s : State) (src dst size : Int) :
    alloc_calls (do_read s src dst size).trace = alloc_calls s.trace := by
  simp [trace_do_read, alloc_calls, List.filterMap_append, Event.call]

theorem alloc_calls_do_wait (s : State) :
    alloc_calls (do_wait s).trace = alloc_calls s.trace := by
  simp [trace_do_wait, alloc_calls, List.filterMap_append, Event.call]

theorem alloc_calls_log (s : State) (ev : Event) (h : ev.call = none) :
    alloc_calls (s.log ev).trace = alloc_calls s.trace := by
  simp [alloc_calls, List.filterMap_append, h]

theorem alloc_calls_prefetch (c : Chain) (i : Nat) (s : State) :
    alloc_calls (prefetch c i s).trace = alloc_calls s.trace := by
  unfold prefetch
  split_ifs <;> simp [alloc_calls_do_read, alloc_calls_do_wait]

theorem alloc_calls_invoke (c : Chain) (b : Board) (i : Nat) (s : State) :
    alloc_calls (invoke c b i s).trace = alloc_calls s.trace := by
  simp [trace_invoke, alloc_calls, List.filterMap_append, Event.call]

theorem alloc_calls_cnn_outputs (s : State) :
    alloc_calls (cnn_outputs s).trace = alloc_calls s.trace := by
  simp [cnn_outputs, store_result, alloc_calls, List.filterMap_append, Event.call]

theorem alloc_calls_ite (p : Prop) [Decidable p] (t u : List Event) :
    alloc_calls (if p then t else u) = if p then alloc_calls t else alloc_calls u := by
  split <;> rfl

theorem alloc_calls_nil : alloc_calls [] = [] := rfl

theorem alloc_calls_cons (ev : Event) (t : List Event) :
    alloc_calls (ev :: t) = ev.call.toList ++ alloc_calls t := by
  cases h : ev.call <;> simp [alloc_calls, List.filterMap_cons, h]

/-! ## The baseline addresses are never assigned by `network_run` -/

/-- The two baseline addresses are not assigned by an iteration of the loop. -/
theorem layer_baseline (c : Chain) (b : Board) (core i : Nat) (s : State) :
    (layer c b core i s).get .L2_buffer_allocation_baseline
        = s.get .L2_buffer_allocation_baseline
      ∧ (layer c b core i s).get .L2_buffer_allocation_end_baseline
        = s.get .L2_buffer_allocation_end_baseline := by
  simp [alloc_into, layer, before_kernel, after_kernel, bookkeeping, set_quant, swap_L3,
    set_keep_index, bk_valid, bk_free_weights, bk_exec, bk_free_input, bk_free_keep,
    bk_free_bypass, bk_keep, bk_bypass, bk_input, bk_output, bk_next_weights, bk_side, do_free,
    bk_merge_side, bk_alloc_weights]

theorem iterations_baseline (c : Chain) (b : Board) (core k : Nat) (s : State) :
    (iterations c b core k s).get .L2_buffer_allocation_baseline
        = s.get .L2_buffer_allocation_baseline
      ∧ (iterations c b core k s).get .L2_buffer_allocation_end_baseline
        = s.get .L2_buffer_allocation_end_baseline := by
  induction k with
  | zero => exact ⟨rfl, rfl⟩
  | succ k ih =>
    have h := layer_baseline c b core k (iterations c b core k s)
    simp only [iterations]
    exact ⟨h.1.trans ih.1, h.2.trans ih.2⟩

theorem network_run_baseline (c : Chain) (b : Board) (core : Nat) (s : State) :
    (network_run c b core s).get .L2_buffer_allocation_baseline
        = s.get .L2_buffer_allocation_baseline
      ∧ (network_run c b core s).get .L2_buffer_allocation_end_baseline
        = s.get .L2_buffer_allocation_end_baseline := by
  have h := iterations_baseline c b core c.N (loop_entry c b core s)
  unfold network_run
  split
  · simp [section1_abort, section1_head, s1_output, s1_weights, s1_input, alloc_into,
      do_wait, do_read, section0, restore, init_weights, init_locals]
  · have e : (section3 c core (iterations c b core c.N (loop_entry c b core s))).get
        = (iterations c b core c.N (loop_entry c b core s)).get := by
      unfold section3
      split <;> rfl
    rw [e, h.1, h.2]
    simp [loop_entry, section1_tail, s1_flip, s1_second, section1_head, s1_output, s1_weights,
      s1_input, alloc_into, do_wait, do_read, section0, restore, init_weights, init_locals]

theorem passes_baseline (c : Chain) (b : Board) (frames : List ((Int → Int) → (Int → Int)))
    (s : State) :
    (passes c b frames s).get .L2_buffer_allocation_baseline
        = s.get .L2_buffer_allocation_baseline
      ∧ (passes c b frames s).get .L2_buffer_allocation_end_baseline
        = s.get .L2_buffer_allocation_end_baseline := by
  induction frames generalizing s with
  | nil => exact ⟨rfl, rfl⟩
  | cons f t ih =>
    have h := network_run_baseline c b 0 (s.store (f s.mem))
    have h2 := ih (network_run c b 0 (s.store (f s.mem)))
    simp only [passes, List.foldl_cons] at h2 ⊢
    exact ⟨h2.1.trans h.1, h2.2.trans h.2⟩

/-! ## Branch-free passes: control variables and allocator calls -/

/-- Control variables at the top of the loop. -/
theorem entry_ctrl (c : Chain) (b : Board) (s : State) :
    (loop_entry c b 0 s).get .begin_end_n = 1
      ∧ (loop_entry c b 0 s).get .input_used_as_out = 0
      ∧ (loop_entry c b 0 s).get .valid_keep = 0 := by
  refine ⟨?_, ?_, ?_⟩ <;>
  simp [loop_entry, section1_tail, s1_flip, s1_second, section1_head, s1_output, s1_weights,
    s1_input, section0, restore, init_weights, init_locals, lnot]

/-- Allocator calls of section 1 up to the first output. -/
theorem head_calls (c : Chain) (b : Board) (s : State) :
    alloc_calls (section1_head c (section0 c b 0 s)).trace
      = [Call.alloc c.input_dim 1, Call.alloc c.weights0_dim 1, Call.alloc c.output0_dim 0] := by
  simp [section1_head, s1_output, s1_weights, s1_input, section0, restore, init_weights,
    init_locals, lnot, alloc_calls_alloc_into, alloc_calls_do_read, alloc_calls_do_wait,
    alloc_calls_ite, alloc_calls_append, alloc_calls_nil, alloc_calls_cons, Event.call]

/-- Allocator calls of sections 0 and 1. -/
theorem entry_calls (c : Chain) (b : Board) (s : State) :
    alloc_calls (loop_entry c b 0 s).trace
      = [Call.alloc c.input_dim 1, Call.alloc c.weights0_dim 1, Call.alloc c.output0_dim 0]
        ++ (if c.second_weights = true then [Call.alloc (c.weights1_dim - c.weights0_dim) 0]
            else []) := by
  by_cases h : c.second_weights = true <;>
  simp [loop_entry, section1_tail, s1_flip, s1_second, section1_head, s1_output, s1_weights,
    s1_input, section0, restore, init_weights, init_locals, lnot, alloc_calls_alloc_into,
    alloc_calls_do_read, alloc_calls_do_wait, alloc_calls_ite, alloc_calls_append,
    alloc_calls_nil, alloc_calls_cons, Event.call, h]

/-- The last iteration issues no allocator call. -/
theorem last_calls (c : Chain) (b : Board) (i : Nat) (s : State) (hi : ¬ i + 1 < c.N) :
    alloc_calls (layer c b 0 i s).trace = alloc_calls s.trace := by
  by_cases h : i + 1 = c.N <;>
  simp [layer, after_kernel, hi, h, set_keep_index, swap_L3, trace_before_kernel,
    alloc_calls_cnn_outputs, alloc_calls_invoke, alloc_calls_prefetch, alloc_calls_ite]

theorem section3_calls (c : Chain) (s : State) :
    alloc_calls (section3 c 0 s).trace = alloc_calls s.trace := by
  simp [section3, alloc_calls_append, alloc_calls_nil, alloc_calls_cons, Event.call]

/-- In a branch-free chain the input of a layer is always deallocated. -/
theorem plain_prev (c : Chain) (i : Nat) (hb : BranchFree c) (hi : i < c.N) :
    (¬ c.branch_output ((i : Int) - 1) = 1 ∧ ¬ c.branch_change ((i : Int) - 1) = 1)
      ∨ i = 0 := by
  rcases Nat.eq_zero_or_pos i with h0 | hpos
  · exact Or.inr h0
  · obtain ⟨j, rfl⟩ : ∃ j, i = j + 1 := ⟨i - 1, by omega⟩
    have bj := hb j (by omega)
    left
    simp [bj.2.1, bj.2.2.1]

/-- Control variables after an iteration of a branch-free chain. -/
theorem plain_ctrl (c : Chain) (b : Board) (i : Nat) (s : State)
    (hb : BranchFree c) (hi : i + 1 < c.N)
    (hiu : s.get .input_used_as_out = 0) (hvk : s.get .valid_keep = 0) :
    (layer c b 0 i s).get .begin_end_n = lnot (s.get .begin_end_n)
      ∧ (layer c b 0 i s).get .input_used_as_out = 0
      ∧ (layer c b 0 i s).get .valid_keep = 0 := by
  have b0 := hb i (by omega)
  have b1 := hb (i + 1) hi
  have hprev := plain_prev c i hb (by omega)
  simp only [Nat.cast_add, Nat.cast_one] at b1
  rw [layer_inner c b i s hi]
  refine ⟨?_, ?_, ?_⟩ <;>
  simp [bookkeeping, bk_side, bk_next_weights, bk_alloc_weights, bk_merge_side, bk_output,
    bk_input, bk_bypass, bk_keep, bk_free_bypass, bk_free_keep, bk_free_input, bk_exec,
    bk_free_weights, bk_valid, set_keep_index, swap_L3, get_before_kernel, b0, b1, hiu, hvk,
    hprev]

/-- Allocator calls of an iteration of a branch-free chain: the weights and the input of
the layer are freed, the output of the next layer and the weights of the layer after it
are allocated, all on the current side. -/
theorem plain_calls (c : Chain) (b : Board) (i : Nat) (s : State)
    (hb : BranchFree c) (hi : i + 1 < c.N)
    (hiu : s.get .input_used_as_out = 0) (hvk : s.get .valid_keep = 0) :
    alloc_calls (layer c b 0 i s).trace
      = alloc_calls s.trace
        ++ (if c.layer_with_weights i = 1 then
              [Call.free (c.check_weights_dimension i) (s.get .begin_end_n)] else [])
        ++ [Call.free (c.check_activations_dimension i) (s.get .begin_end_n),
            Call.alloc (c.check_activations_out_dimension ((i : Int) + 1)) (s.get .begin_end_n)]
        ++ (if i + 2 < c.N ∧ c.layer_with_weights ((i : Int) + 2) = 1 then
              [Call.alloc (c.check_weights_dimension ((i : Int) + 2)) (s.get .begin_end_n)]
            else []) := by
  have b0 := hb i (by omega)
  have b1 := hb (i + 1) hi
  have hprev := plain_prev c i hb (by omega)
  simp only [Nat.cast_add, Nat.cast_one] at b1
  rw [layer_inner c b i s hi]
  by_cases w0 : c.layer_with_weights i = 1 <;>
  by_cases w2 : c.layer_with_weights ((i : Int) + 2) = 1 <;>
  by_cases n2 : i + 2 < c.N <;>
  simp [bookkeeping, bk_side, bk_next_weights, bk_alloc_weights, bk_merge_side, bk_output,
    bk_input, bk_bypass, bk_keep, bk_free_bypass, bk_free_keep, bk_free_input, bk_exec,
    bk_free_weights, bk_valid, set_keep_index, swap_L3, get_before_kernel,
    trace_before_kernel, b0, b1, hiu, hvk, hprev, w0, w2, n2, alloc_calls_prefetch,
    alloc_calls_do_free, alloc_calls_alloc_into, alloc_calls_invoke, alloc_calls_ite]

/-! ## Branch-free passes: the two stacks of live blocks -/

theorem at_iteration_succ (c : Chain) (b : Board) (s : State) (k : Nat) :
    at_iteration c b 0 s (k + 1) = layer c b 0 k (at_iteration c b 0 s k) := rfl

theorem plain_stacks_entry (c : Chain) (b : Board) (s : State) (hc : Consistent c)
    (h0 : c.layer_with_weights 0 = 1) (hN : 0 < c.N) :
    PlainStacks c 0 (loop_entry c b 0 s) := by
  obtain ⟨-, hin, hw, hout, hw1, hsec⟩ := hc
  have hctl := entry_ctrl c b s
  refine ⟨Or.inr hctl.1, hctl.2.1, hctl.2.2, ?_⟩
  unfold arena_stacks
  rw [entry_calls, hctl.1]
  unfold SecondSlotMatches at hsec
  by_cases h2 : c.second_weights = true
  · have h3 := hsec.mp h2
    have h4 := hw1 h2
    rw [hw] at h4
    simp [h2, h3, h4, hin, hw, hout, wlist, stack_step, hN, h0]
  · have h3 : ¬ (1 < c.N ∧ c.layer_with_weights 1 = 1) := fun h => h2 (hsec.mpr h)
    simp [h2, h3, hin, hw, hout, wlist, stack_step, hN, h0]

set_option maxHeartbeats 1000000 in
theorem plain_stacks_step (c : Chain) (b : Board) (i : Nat) (s : State)
    (hb : BranchFree c) (hc : Consistent c) (hi : i + 1 < c.N) (hs : PlainStacks c i s) :
    PlainStacks c (i + 1) (layer c b 0 i s) := by
  obtain ⟨hside, hiu, hvk, hstk⟩ := hs
  have hctl := plain_ctrl c b i s hb hi hiu hvk
  have hin := hc.1 i hi
  have hi0 : i < c.N := by omega
  have e2 : (i : Int) + 1 + 1 = (i : Int) + 2 := by ring
  refine ⟨?_, hctl.2.1, hctl.2.2, ?_⟩
  · rw [hctl.1]
    rcases hside with h | h <;> simp [h, lnot]
  · unfold arena_stacks at hstk ⊢
    rw [plain_calls c b i s hb hi hiu hvk, hctl.1]
    simp only [List.foldl_append, hstk]
    rcases hside with h | h <;>
    by_cases w0 : c.layer_with_weights i = 1 <;>
    by_cases w1 : c.layer_with_weights ((i : Int) + 1) = 1 <;>
    by_cases w2 : c.layer_with_weights ((i : Int) + 2) = 1 <;>
    by_cases n2 : i + 2 < c.N <;>
    simp [h, w0, w1, w2, n2, hi, hi0, e2, hin, wlist, stack_step, lnot]

theorem plain_stacks_at (c : Chain) (b : Board) (s : State) (hb : BranchFree c)
    (hc : Consistent c) (h0 : c.layer_with_weights 0 = 1) :
    ∀ k : Nat, k < c.N → PlainStacks c k (at_iteration c b 0 s k) := by
  intro k
  induction k with
  | zero => intro hk; exact plain_stacks_entry c b s hc h0 hk
  | succ k ih =>
    intro hk
    rw [at_iteration_succ]
    exact plain_stacks_step c b k _ hb hc hk (ih (by omega))

theorem chain3_branch_free (out2 : Int) : BranchFree (chain3 out2) := by
  intro i hi
  have h3 : i < 3 := hi
  interval_cases i <;> exact ⟨rfl, rfl, rfl, rfl⟩

theorem chain3_consistent (out2 : Int) : Consistent (chain3 out2) := by
  refine ⟨?_, rfl, rfl, rfl, ?_, ?_⟩
  · intro i hi
    have h3 : i < 2 := by
      have h4 : i + 1 < 3 := hi
      omega
    interval_cases i <;> rfl
  · intro h
    exact absurd h (Bool.false_ne_true)
  · unfold SecondSlotMatches
    constructor
    · intro h
      exact absurd h (Bool.false_ne_true)
    · intro h
      exact absurd h.2 (by simp [chain3, tbl])

theorem chain_w0_branch_free : BranchFree chain_w0 := by
  intro i hi
  have h3 : i < 2 := hi
  interval_cases i <;> exact ⟨rfl, rfl, rfl, rfl⟩

theorem chain_w0_consistent : Consistent chain_w0 := by
  refine ⟨?_, rfl, rfl, rfl, ?_, ?_⟩
  · intro i hi
    have h3 : i < 1 := by
      have h4 : i + 1 < 2 := hi
      omega
    interval_cases i
    rfl
  · intro h
    exact absurd h (Bool.false_ne_true)
  · unfold SecondSlotMatches
    constructor
    · intro h
      exact absurd h (Bool.false_ne_true)
    · intro h
      exact absurd h.2 (by simp [chain_w0, tbl])

theorem chain3_scenario (out2 : Int) : Scenario3 (chain3 out2) out2 :=
  ⟨rfl, chain3_branch_free out2, rfl, rfl, rfl, rfl, rfl, rfl, rfl, rfl, rfl, rfl, rfl, rfl,
    rfl, rfl, rfl, rfl⟩

/-! ## Branch-free passes: position of the arena boundaries -/

theorem allWithin_append (t u : List Event) :
    AllWithin (t ++ u) ↔ AllWithin t ∧ AllWithin u := by
  simp [AllWithin, List.mem_append, or_imp, forall_and]

theorem allWithin_nil : AllWithin [] := by
  simp [AllWithin]

theorem allWithin_cons (ev : Event) (t : List Event) :
    AllWithin (ev :: t) ↔ ev.within ∧ AllWithin t := by
  simp [AllWithin]

theorem allWithin_prefetch (c : Chain) (i : Nat) (s : State) :
    AllWithin (prefetch c i s).trace ↔ AllWithin s.trace := by
  unfold prefetch
  split_ifs <;>
  simp [trace_do_read, trace_do_wait, allWithin_append, allWithin_cons, allWithin_nil,
    Event.within]

theorem allWithin_cnn_outputs (s : State) :
    AllWithin (cnn_outputs s).trace ↔ AllWithin s.trace := by
  simp [cnn_outputs, store_result, allWithin_append, allWithin_cons, allWithin_nil,
    Event.within]

theorem allWithin_ite (p : Prop) [Decidable p] (t u : List Event) :
    AllWithin (if p then t else u) ↔ if p then AllWithin t else AllWithin u := by
  split <;> rfl

set_option maxHeartbeats 1000000 in
/-- Boundaries after an iteration of a branch-free chain, and the calls it issues. -/
theorem plain_arena_step (c : Chain) (b : Board) (i : Nat) (s : State)
    (hb : BranchFree c) (hc : Consistent c) (hn : SizesNonneg c) (hi : i + 1 < c.N)
    (hside : s.get .begin_end_n = 0 ∨ s.get .begin_end_n = 1)
    (hiu : s.get .input_used_as_out = 0) (hvk : s.get .valid_keep = 0)
    (ha : PlainArena c i s) :
    PlainArena c (i + 1) (layer c b 0 i s)
      ∧ (s.get .L2_buffer_allocation_end_baseline
            = s.get .L2_buffer_allocation_baseline + ARENA_SIZE →
          need c i ≤ ARENA_SIZE → need c (i + 1) ≤ ARENA_SIZE →
          AllWithin s.trace → AllWithin (layer c b 0 i s).trace) := by
  have hctl := plain_ctrl c b i s hb hi hiu hvk
  have b0 := hb i (by omega)
  have b1 := hb (i + 1) hi
  have hprev := plain_prev c i hb (by omega)
  simp only [Nat.cast_add, Nat.cast_one] at b1
  have hin := hc.1 i hi
  have hi0 : i < c.N := by omega
  have e2 : (i : Int) + 1 + 1 = (i : Int) + 2 := by ring
  have n0 := hn i hi0
  have n1 := hn (i + 1) hi
  simp only [Nat.cast_add, Nat.cast_one] at n1
  have n2' : i + 2 < c.N → 0 ≤ c.check_weights_dimension ((i : Int) + 2) := by
    intro h
    have := (hn (i + 2) h).2.2
    simpa using this
  unfold PlainArena at ha ⊢
  unfold need weight_bytes
  rw [hctl.1]
  rw [layer_inner c b i s hi]
  rcases hside with h | h <;>
  by_cases w0 : c.layer_with_weights i = 1 <;>
  by_cases w1 : c.layer_with_weights ((i : Int) + 1) = 1 <;>
  by_cases w2 : c.layer_with_weights ((i : Int) + 2) = 1 <;>
  by_cases n2 : i + 2 < c.N <;>
  simp [bookkeeping, bk_side, bk_next_weights, bk_alloc_weights, bk_merge_side, bk_output,
    bk_input, bk_bypass, bk_keep, bk_free_bypass, bk_free_keep, bk_free_input, bk_exec,
    bk_free_weights, bk_valid, set_keep_index, swap_L3, get_before_kernel,
    trace_before_kernel, b0, b1, hiu, hvk, hprev, w0, w1, w2, n2, h, hi, hi0, e2, hin,
    trace_do_free, trace_alloc_into, trace_invoke, allWithin_append, allWithin_cons,
    allWithin_nil, allWithin_prefetch, allWithin_ite, Event.within, dory_L2_alloc,
    dory_L2_free, lnot, weight_bytes, ARENA_SIZE] at ha n2' ⊢ <;>
  exact ⟨by omega, fun h1 h2 h3 h4 => ⟨h4, by omega⟩⟩

/-- The control variables at the top of every iteration of a branch-free pass. -/
theorem plain_ctrl_at (c : Chain) (b : Board) (s : State) (hb : BranchFree c) :
    ∀ k : Nat, k < c.N →
      ((at_iteration c b 0 s k).get .begin_end_n = 0
          ∨ (at_iteration c b 0 s k).get .begin_end_n = 1)
        ∧ (at_iteration c b 0 s k).get .input_used_as_out = 0
        ∧ (at_iteration c b 0 s k).get .valid_keep = 0 := by
  intro k
  induction k with
  | zero =>
    intro _
    have h := entry_ctrl c b s
    exact ⟨Or.inr h.1, h.2.1, h.2.2⟩
  | succ k ih =>
    intro hk
    obtain ⟨-, a2, a3⟩ := ih (by omega)
    have h := plain_ctrl c b k _ hb hk a2 a3
    rw [at_iteration_succ]
    refine ⟨?_, h.2.1, h.2.2⟩
    rw [h.1]
    unfold lnot
    split <;> simp

theorem at_iteration_baseline (c : Chain) (b : Board) (s : State) (k : Nat) :
    (at_iteration c b 0 s k).get .L2_buffer_allocation_baseline
        = s.get .L2_buffer_allocation_baseline
      ∧ (at_iteration c b 0 s k).get .L2_buffer_allocation_end_baseline
        = s.get .L2_buffer_allocation_end_baseline := by
  have h := iterations_baseline c b 0 k (loop_entry c b 0 s)
  unfold at_iteration
  rw [h.1, h.2]
  constructor <;>
  simp [loop_entry, section1_tail, s1_flip, s1_second, section1_head, s1_output, s1_weights,
    s1_input, section0, restore, init_weights, init_locals]

theorem plain_arena_entry (c : Chain) (b : Board) (s : State) (hc : Consistent c)
    (hn : SizesNonneg c) (h0 : c.layer_with_weights 0 = 1 ∨ c.weights0_dim = 0)
    (hN : 0 < c.N) :
    PlainArena c 0 (loop_entry c b 0 s)
      ∧ (s.get .L2_buffer_allocation_end_baseline
            = s.get .L2_buffer_allocation_baseline + ARENA_SIZE →
          need c 0 ≤ ARENA_SIZE → AllWithin (loop_entry c b 0 s).trace) := by
  obtain ⟨-, hin, hw, hout, hw1, hsec⟩ := hc
  have n0 := hn 0 hN
  have n1 : 1 < c.N → 0 ≤ c.check_weights_dimension 1 := by
    intro h
    have := (hn 1 h).2.2
    simpa using this
  have hz : ¬ c.layer_with_weights 0 = 1 → c.weights0_dim = 0 := fun h => h0.resolve_left h
  unfold SecondSlotMatches at hsec
  unfold PlainArena need weight_bytes
  simp only [Nat.cast_zero] at n0
  by_cases h0' : c.layer_with_weights 0 = 1 <;> by_cases h2 : c.second_weights = true
  · have h3 := hsec.mp h2
    have h4 := hw1 h2
    have n1' := n1 h3.1
    simp [loop_entry, section1_tail, s1_flip, s1_second, section1_head, s1_output, s1_weights,
      s1_input, section0, restore, init_weights, init_locals, lnot, h2, h3, hN, h0',
      trace_alloc_into, trace_do_read, trace_do_wait, allWithin_append, allWithin_cons,
      allWithin_nil, allWithin_ite, Event.within, dory_L2_alloc, ARENA_SIZE]
    exact ⟨by omega, fun h5 h6 => by omega⟩
  · have h3 : ¬ (1 < c.N ∧ c.layer_with_weights 1 = 1) := fun h => h2 (hsec.mpr h)
    simp [loop_entry, section1_tail, s1_flip, s1_second, section1_head, s1_output, s1_weights,
      s1_input, section0, restore, init_weights, init_locals, lnot, h2, h3, hN, h0',
      trace_alloc_into, trace_do_read, trace_do_wait, allWithin_append, allWithin_cons,
      allWithin_nil, allWithin_ite, Event.within, dory_L2_alloc, ARENA_SIZE]
    exact ⟨by omega, fun h5 h6 => by omega⟩
  · have h3 := hsec.mp h2
    have h4 := hw1 h2
    have n1' := n1 h3.1
    have hz' := hz h0'
    simp [loop_entry, section1_tail, s1_flip, s1_second, section1_head, s1_output, s1_weights,
      s1_input, section0, restore, init_weights, init_locals, lnot, h2, h3, hN, h0',
      trace_alloc_into, trace_do_read, trace_do_wait, allWithin_append, allWithin_cons,
      allWithin_nil, allWithin_ite, Event.within, dory_L2_alloc, ARENA_SIZE]
    exact ⟨by omega, fun h5 h6 => by omega⟩
  · have h3 : ¬ (1 < c.N ∧ c.layer_with_weights 1 = 1) := fun h => h2 (hsec.mpr h)
    have hz' := hz h0'
    simp [loop_entry, section1_tail, s1_flip, s1_second, section1_head, s1_output, s1_weights,
      s1_input, section0, restore, init_weights, init_locals, lnot, h2, h3, hN, h0',
      trace_alloc_into, trace_do_read, trace_do_wait, allWithin_append, allWithin_cons,
      allWithin_nil, allWithin_ite, Event.within, dory_L2_alloc, ARENA_SIZE]
    exact ⟨by omega, fun h5 h6 => by omega⟩

theorem allWithin_head (c : Chain) (b : Board) (s : State) (hc : Consistent c)
    (hn : SizesNonneg c) (h0 : c.layer_with_weights 0 = 1 ∨ c.weights0_dim = 0)
    (hN : 0 < c.N)
    (ha : s.get .L2_buffer_allocation_end_baseline
      = s.get .L2_buffer_allocation_baseline + ARENA_SIZE)
    (hfit : need c 0 ≤ ARENA_SIZE) :
    AllWithin (section1_abort (section1_head c (section0 c b 0 s))).trace := by
  obtain ⟨-, hin, hw, hout, -, -⟩ := hc
  have n0 := hn 0 hN
  have n1 : 0 ≤ weight_bytes c (0 + 1) := by
    unfold weight_bytes
    split
    · rename_i h
      have := (hn 1 h.1).2.2
      simpa using this
    · exact le_refl 0
  have w0e : weight_bytes c 0 = c.check_weights_dimension 0 := by
    by_cases h0' : c.layer_with_weights 0 = 1
    · simp [weight_bytes, hN, h0']
    · have hz := h0.resolve_left h0'
      rw [hw] at hz
      simp [weight_bytes, h0', hz]
  unfold need at hfit
  rw [w0e] at hfit
  generalize weight_bytes c (0 + 1) = g at hfit n1
  simp only [Nat.cast_zero] at n0 hfit
  simp [section1_abort, section1_head, s1_output, s1_weights, s1_input, section0, restore,
    init_weights, init_locals, lnot, trace_alloc_into, trace_do_read, trace_do_wait,
    allWithin_append, allWithin_cons, allWithin_nil, allWithin_ite, Event.within,
    dory_L2_alloc, ARENA_SIZE] at ha hfit ⊢
  omega

theorem allWithin_last (c : Chain) (b : Board) (i : Nat) (s : State) (hi : ¬ i + 1 < c.N) :
    AllWithin (layer c b 0 i s).trace ↔ AllWithin s.trace := by
  by_cases h : i + 1 = c.N <;>
  simp [layer, after_kernel, hi, h, set_keep_index, swap_L3, trace_before_kernel,
    trace_invoke, allWithin_cnn_outputs, allWithin_prefetch, allWithin_append,
    allWithin_cons, allWithin_nil, Event.within]

theorem plain_arena_at (c : Chain) (b : Board) (s : State) (hb : BranchFree c)
    (hc : Consistent c) (hn : SizesNonneg c)
    (h0 : c.layer_with_weights 0 = 1 ∨ c.weights0_dim = 0) :
    ∀ k : Nat, k < c.N →
      PlainArena c k (at_iteration c b 0 s k)
        ∧ (s.get .L2_buffer_allocation_end_baseline
              = s.get .L2_buffer_allocation_baseline + ARENA_SIZE →
            (∀ i : Nat, i < c.N → need c i ≤ ARENA_SIZE) →
            AllWithin (at_iteration c b 0 s k).trace) := by
  intro k
  induction k with
  | zero =>
    intro hk
    have h := plain_arena_entry c b s hc hn h0 hk
    exact ⟨h.1, fun ha hfit => h.2 ha (hfit 0 hk)⟩
  | succ k ih =>
    intro hk
    have ih' := ih (by omega)
    obtain ⟨hside, hiu, hvk⟩ := plain_ctrl_at c b s hb k (by omega)
    have hstep := plain_arena_step c b k _ hb hc hn hk hside hiu hvk ih'.1
    have hbase := at_iteration_baseline c b s k
    rw [at_iteration_succ]
    refine ⟨hstep.1, fun ha hfit => ?_⟩
    refine hstep.2 ?_ (hfit k (by omega)) (hfit (k + 1) hk) (ih'.2 ha hfit)
    rw [hbase.1, hbase.2]
    exact ha

theorem chain3_nonneg : SizesNonneg (chain3 28) := by
  intro i hi
  have h3 : i < 3 := hi
  interval_cases i <;> decide

theorem chain_w0_nonneg : SizesNonneg chain_w0 := by
  intro i hi
  have h3 : i < 2 := hi
  interval_cases i <;> decide

theorem chain_pool_branch_free : BranchFree chain_pool := by
  intro i hi
  have h3 : i < 3 := hi
  interval_cases i <;> exact ⟨rfl, rfl, rfl, rfl⟩

theorem chain_pool_consistent : Consistent chain_pool := by
  refine ⟨?_, rfl, rfl, rfl, fun _ => by decide, ?_⟩
  · intro i hi
    have h3 : i < 2 := by
      have : chain_pool.N = 3 := rfl
      omega
    interval_cases i <;> rfl
  · unfold SecondSlotMatches
    exact ⟨fun _ => ⟨by decide, rfl⟩, fun _ => rfl⟩

theorem chain_pool_nonneg : SizesNonneg chain_pool := by
  intro i hi
  have h3 : i < 3 := hi
  interval_cases i <;> decide

/-! ## The double-buffering variables -/

theorem slots_frame (c : Chain) (b : Board) (i : Nat) (s : State) :
    slots (bk_valid c i s) = slots s ∧ slots (bk_free_weights c i s) = slots s
      ∧ slots (bk_free_input c i s) = slots s ∧ slots (bk_free_keep s) = slots s
      ∧ slots (bk_free_bypass c i s) = slots s ∧ slots (bk_keep c i s) = slots s
      ∧ slots (bk_bypass c i s) = slots s ∧ slots (bk_input s) = slots s
      ∧ slots (bk_output c i s) = slots s ∧ slots (bk_merge_side c i s) = slots s
      ∧ slots (bk_side s) = slots s ∧ slots (set_keep_index c i s) = slots s
      ∧ slots (swap_L3 s) = slots s ∧ slots (invoke c b i s) = slots s
      ∧ slots (before_kernel c 0 i s) = slots s ∧ slots (cnn_outputs s) = slots s := by
  refine ⟨?_, ?_, ?_, ?_, ?_, ?_, ?_, ?_, ?_, ?_, ?_, ?_, ?_, ?_, ?_, ?_⟩ <;>
  simp [slots, bk_valid, bk_free_weights, bk_free_input, bk_free_keep, bk_free_bypass,
    bk_keep, bk_bypass, bk_input, bk_output, bk_merge_side, bk_side, set_keep_index,
    swap_L3, before_kernel, set_quant]

theorem slots_exec (c : Chain) (i : Nat) (s : State) :
    slots (bk_exec c i s) = exec_toggle c i (slots s) := by
  by_cases h : c.layer_with_weights ((i : Int) + 1) = 1 <;>
  simp [slots, bk_exec, exec_toggle, h]

theorem slots_next_weights (c : Chain) (i : Nat) (s : State) :
    ∃ p : Int, slots (bk_next_weights c i s) = transfer_toggle c i p (slots s) := by
  refine ⟨(dory_L2_alloc ((bk_merge_side c i s).get .L2_buffer_allocation)
    ((bk_merge_side c i s).get .L2_buffer_allocation_end)
    (c.check_weights_dimension ((i : Int) + 2)) ((bk_merge_side c i s).get .begin_end_n)).2.2, ?_⟩
  have hf := (slots_frame c board0 i s).2.2.2.2.2.2.2.2.2.1
  unfold slots at hf
  simp only [Prod.mk.injEq] at hf
  obtain ⟨f1, f2, f3, f4, f5, f6⟩ := hf
  by_cases n2 : i + 2 < c.N <;>
  by_cases h : c.layer_with_weights ((i : Int) + 2) = 1 <;>
  by_cases he : s.get .d_buffering_weights_e = 1 <;>
  simp [slots, bk_next_weights, bk_alloc_weights, transfer_toggle, n2, h, he, f1, f2, f3, f4,
    f5, f6]

theorem slots_bookkeeping (c : Chain) (i : Nat) (s : State) :
    ∃ p : Int, slots (bookkeeping c i s)
      = transfer_toggle c i p (exec_toggle c i (slots s)) := by
  unfold bookkeeping
  obtain ⟨p, hp⟩ := slots_next_weights c i (bk_output c i (bk_input (bk_bypass c i (bk_keep c i
    (bk_free_bypass c i (bk_free_keep (bk_free_input c i (bk_exec c i
      (bk_free_weights c i (bk_valid c i s))))))))))
  refine ⟨p, ?_⟩
  have f := fun t => slots_frame c board0 i t
  rw [(f _).2.2.2.2.2.2.2.2.2.2.1, hp, (f _).2.2.2.2.2.2.2.2.1, (f _).2.2.2.2.2.2.2.1,
    (f _).2.2.2.2.2.2.1, (f _).2.2.2.2.2.1, (f _).2.2.2.2.1, (f _).2.2.2.1, (f _).2.2.1,
    slots_exec, (f _).2.1, (f _).1]

theorem slots_layer (c : Chain) (b : Board) (i : Nat) (s : State) (hi : i + 1 < c.N) :
    ∃ p : Int, slots (layer c b 0 i s)
      = transfer_toggle c i p (exec_toggle c i (slots s)) := by
  rw [layer_inner c b i s hi]
  obtain ⟨p, hp⟩ := slots_bookkeeping c i
    (set_keep_index c i (swap_L3 (invoke c b i (before_kernel c 0 i s))))
  refine ⟨p, ?_⟩
  have f := fun t => slots_frame c b i t
  rw [hp, (f _).2.2.2.2.2.2.2.2.2.2.2.1, (f _).2.2.2.2.2.2.2.2.2.2.2.2.1,
    (f _).2.2.2.2.2.2.2.2.2.2.2.2.2.1, (f _).2.2.2.2.2.2.2.2.2.2.2.2.2.2.1]

/-- The double-buffering invariant is kept by an iteration, and the pointer selected for
execution afterwards is the one that was selected for transfer before. -/
theorem slotInv_toggle (c : Chain) (i : Nat) (p : Int)
    (v : Int × Int × Int × Int × Int × Int) (hi : i + 1 < c.N) (h : SlotInv c i v) :
    SlotInv c (i + 1) (transfer_toggle c i p (exec_toggle c i v))
      ∧ (transfer_toggle c i p (exec_toggle c i v)).2.2.1 = v.2.2.2.1 := by
  obtain ⟨e, t, ex, tr, w1, w2⟩ := v
  obtain ⟨he, hex, htr, ht⟩ := h
  simp only at he hex htr ht
  have e2 : (i : Int) + 1 + 1 = (i : Int) + 2 := by ring
  have e3 : i + 1 + 1 = i + 2 := rfl
  subst hex htr
  unfold SlotInv
  rcases he with he | he <;> subst he <;>
  by_cases w1 : c.layer_with_weights ((i : Int) + 1) = 1 <;>
  by_cases w2 : i + 2 < c.N ∧ c.layer_with_weights ((i : Int) + 2) = 1 <;>
  simp [w1, w2, hi, e2, e3, exec_toggle, transfer_toggle, pick, lnot] at ht ⊢ <;>
  simp [ht, pick, lnot]

theorem slotInv_entry (c : Chain) (b : Board) (s : State) (h : SecondSlotMatches c) :
    SlotInv c 0 (slots (loop_entry c b 0 s)) := by
  unfold SecondSlotMatches at h
  unfold SlotInv slots
  by_cases h2 : c.second_weights = true
  · have h3 := h.mp h2
    simp [loop_entry, section1_tail, s1_flip, s1_second, section1_head, s1_output, s1_weights,
      s1_input, section0, restore, init_weights, init_locals, lnot, pick, h2, h3]
  · have h3 : ¬ (1 < c.N ∧ c.layer_with_weights 1 = 1) := fun h' => h2 (h.mpr h')
    simp [loop_entry, section1_tail, s1_flip, s1_second, section1_head, s1_output, s1_weights,
      s1_input, section0, restore, init_weights, init_locals, lnot, pick, h2, h3]

theorem slotInv_at (c : Chain) (b : Board) (s : State) (h : SecondSlotMatches c) :
    ∀ k : Nat, k < c.N → SlotInv c k (slots (at_iteration c b 0 s k)) := by
  intro k
  induction k with
  | zero => intro _; exact slotInv_entry c b s h
  | succ k ih =>
    intro hk
    obtain ⟨p, hp⟩ := slots_layer c b k (at_iteration c b 0 s k) hk
    rw [at_iteration_succ, hp]
    exact (slotInv_toggle c k p _ hk (ih (by omega))).1

/-- The pointer selected for execution at the top of iteration `k+1` is the one that was
selected for transfer at the top of iteration `k`. -/
theorem exec_follows_transfer (c : Chain) (b : Board) (s : State) (h : SecondSlotMatches c)
    (k : Nat) (hk : k + 1 < c.N) :
    (at_iteration c b 0 s (k + 1)).get .exec_weights
      = (at_iteration c b 0 s k).get .transfer_weights := by
  obtain ⟨p, hp⟩ := slots_layer c b k (at_iteration c b 0 s k) hk
  have h2 := (slotInv_toggle c k p _ hk (slotInv_at c b s h k (by omega))).2
  rw [← hp] at h2
  exact h2

/-- Slot 6 of the argument vector is `exec_weights`. -/
theorem args_slot6 (c : Chain) (b : Board) (i : Nat) (s : State) :
    (kernel_args c b i s).getD 6 0 = s.get .exec_weights := by
  unfold kernel_args
  split_ifs <;> simp [List.getD]

/-- The calls of a prefetch: the read of the weights of layer `i+1` into
`transfer_weights`, with at most a wait before it and a wait after it. -/
theorem prefetch_trace (c : Chain) (i : Nat) (s : State) (hi : i + 1 < c.N)
    (ha : c.allocate_layer ((i : Int) + 1) = 1) :
    ∃ pre post : List Event,
      (prefetch c i s).trace
        = s.trace ++ pre
          ++ [Event.read (s.get .L3_weights_internal
                + c.cumulative_weights_dimension ((i : Int) + 1))
              (s.get .transfer_weights) (c.check_weights_dimension ((i : Int) + 1))]
          ++ post
      ∧ (pre = [] ∨ pre = [Event.wait]) ∧ (post = [] ∨ post = [Event.wait]) := by
  unfold prefetch
  simp only [hi, ha, if_true]
  by_cases h1 : c.L3_layers ((i : Int) - 1) = 0 ∧ 0 < i <;>
  by_cases h2 : c.L3_layers i = 1
  · exact ⟨[Event.wait], [Event.wait], by simp [h1, h2, trace_do_read, trace_do_wait], by simp, by simp⟩
  · exact ⟨[Event.wait], [], by simp [h1, h2, trace_do_read, trace_do_wait], by simp, by simp⟩
  · exact ⟨[], [Event.wait], by simp [h1, h2, trace_do_read, trace_do_wait], by simp, by simp⟩
  · exact ⟨[], [], by simp [h1, h2, trace_do_read, trace_do_wait], by simp, by simp⟩

theorem chain_www_second : SecondSlotMatches chain_www := by
  unfold SecondSlotMatches
  exact ⟨fun _ => ⟨by decide, rfl⟩, fun _ => rfl⟩

/-! ## Reads and waits of a step -/

theorem transfers_append (t u : List Event) :
    transfers (t ++ u) = transfers t ++ transfers u := by
  simp [transfers, List.filter_append]

theorem transfers_ite (p : Prop) [Decidable p] (t u : List Event) :
    transfers (if p then t else u) = if p then transfers t else transfers u := by
  split <;> rfl

theorem transfers_do_free (s : State) (size : Int) :
    transfers (do_free s size).trace = transfers s.trace := by
  simp [trace_do_free, transfers, List.filter_append, Event.is_transfer]

theorem transfers_alloc_into (s : State) (t : Var) (size : Int) :
    transfers (alloc_into s t size).trace = transfers s.trace := by
  simp [trace_alloc_into, transfers, List.filter_append, Event.is_transfer]

theorem transfers_invoke (c : Chain) (b : Board) (i : Nat) (s : State) :
    transfers (invoke c b i s).trace = transfers s.trace := by
  simp [trace_invoke, transfers, List.filter_append, Event.is_transfer]

theorem transfers_cnn_outputs (s : State) :
    transfers (cnn_outputs s).trace = transfers s.trace := by
  simp [cnn_outputs, store_result, transfers, List.filter_append, Event.is_transfer]

/-- What follows the prefetch in an iteration issues no read and no wait. -/
theorem transfers_frame (c : Chain) (i : Nat) (s : State) :
    transfers (bk_valid c i s).trace = transfers s.trace
      ∧ transfers (bk_free_weights c i s).trace = transfers s.trace
      ∧ transfers (bk_exec c i s).trace = transfers s.trace
      ∧ transfers (bk_free_input c i s).trace = transfers s.trace
      ∧ transfers (bk_free_keep s).trace = transfers s.trace
      ∧ transfers (bk_free_bypass c i s).trace = transfers s.trace
      ∧ transfers (bk_keep c i s).trace = transfers s.trace
      ∧ transfers (bk_bypass c i s).trace = transfers s.trace
      ∧ transfers (bk_input s).trace = transfers s.trace
      ∧ transfers (bk_output c i s).trace = transfers s.trace
      ∧ transfers (bk_next_weights c i s).trace = transfers s.trace
      ∧ transfers (bk_side s).trace = transfers s.trace
      ∧ transfers (set_keep_index c i s).trace = transfers s.trace
      ∧ transfers (swap_L3 s).trace = transfers s.trace := by
  refine ⟨?_, ?_, ?_, ?_, ?_, ?_, ?_, ?_, ?_, ?_, ?_, ?_, ?_, ?_⟩ <;>
  simp [bk_valid, bk_free_weights, bk_exec, bk_free_input, bk_free_keep, bk_free_bypass,
    bk_keep, bk_bypass, bk_input, bk_output, bk_next_weights, bk_alloc_weights,
    bk_merge_side, bk_side, set_keep_index, swap_L3, transfers_ite, transfers_do_free,
    transfers_alloc_into]

theorem transfers_layer (c : Chain) (b : Board) (i : Nat) (s : State) :
    transfers (layer c b 0 i s).trace = transfers (prefetch c i s).trace := by
  have f := fun t => transfers_frame c i t
  unfold layer after_kernel bookkeeping
  simp only [if_true, and_true]
  split_ifs <;>
  simp only [(f _).1, (f _).2.1, (f _).2.2.1, (f _).2.2.2.1, (f _).2.2.2.2.1, (f _).2.2.2.2.2.1,
    (f _).2.2.2.2.2.2.1, (f _).2.2.2.2.2.2.2.1, (f _).2.2.2.2.2.2.2.2.1,
    (f _).2.2.2.2.2.2.2.2.2.1, (f _).2.2.2.2.2.2.2.2.2.2.1, (f _).2.2.2.2.2.2.2.2.2.2.2.1,
    (f _).2.2.2.2.2.2.2.2.2.2.2.2.1, (f _).2.2.2.2.2.2.2.2.2.2.2.2.2, transfers_cnn_outputs,
    transfers_invoke, trace_before_kernel]

/-! ## The bypass pointer -/

/-- Only a branch-output layer assigns `bypass_activations`. -/
theorem layer_bypass_activations (c : Chain) (b : Board) (i : Nat) (s : State)
    (h : c.branch_output i ≠ 1) :
    (layer c b 0 i s).get .bypass_activations = s.get .bypass_activations := by
  by_cases h1 : i + 1 < c.N <;> by_cases h2 : i + 1 = c.N <;>
  simp [layer, after_kernel, bookkeeping, set_quant, swap_L3, before_kernel,
    set_keep_index, bk_valid, bk_free_weights, bk_exec, bk_free_input, bk_free_keep,
    bk_free_bypass, bk_keep, bk_bypass, bk_input, bk_output, bk_next_weights, bk_side,
    bk_merge_side, bk_alloc_weights, h, h1, h2]

theorem bypass_activations_null (c : Chain) (b : Board) (s : State) :
    ∀ k : Nat, (∀ j : Nat, j < k → c.branch_output j ≠ 1) →
      (at_iteration c b 0 s k).get .bypass_activations = 0 := by
  intro k
  induction k with
  | zero =>
    intro _
    simp [at_iteration, iterations, loop_entry, section1_tail, s1_flip, s1_second,
      section1_head, s1_output, s1_weights, s1_input, section0, restore, init_weights,
      init_locals]
  | succ k ih =>
    intro h
    rw [at_iteration_succ, layer_bypass_activations c b k _ (h k (by omega))]
    exact ih (fun j hj => h j (by omega))

/-! ## The branch scenario: a branch-change at layer 2, a merge at layer 5 -/

set_option maxHeartbeats 1000000 in
/-- The branch variables along the first six iterations of the branch scenario. -/
theorem scenario9_states (c : Chain) (b : Board) (s : State) (h : Scenario9 c) :
    ((at_iteration c b 0 s 3).get .begin_end_n = 0
        ∧ (at_iteration c b 0 s 3).get .valid_keep = 0
        ∧ (at_iteration c b 0 s 3).get .input_used_as_out = 0
        ∧ (at_iteration c b 0 s 3).get .bypass_to_dealloc = 0
        ∧ (at_iteration c b 0 s 3).get .keeping = 1
        ∧ (at_iteration c b 0 s 3).get .activation_to_keep
            = (at_iteration c b 0 s 2).get .L2_output
        ∧ (at_iteration c b 0 s 3).get .bypass_side_keep = 0)
      ∧ ((at_iteration c b 0 s 4).get .begin_end_n = 1
        ∧ (at_iteration c b 0 s 4).get .valid_keep = 0
        ∧ (at_iteration c b 0 s 4).get .input_used_as_out = 0
        ∧ (at_iteration c b 0 s 4).get .bypass_to_dealloc = 0
        ∧ (at_iteration c b 0 s 4).get .keeping = 1
        ∧ (at_iteration c b 0 s 4).get .activation_to_keep
            = (at_iteration c b 0 s 2).get .L2_output
        ∧ (at_iteration c b 0 s 4).get .bypass_side_keep = 0)
      ∧ ((at_iteration c b 0 s 5).get .valid_keep = 0
        ∧ (at_iteration c b 0 s 5).get .bypass_to_dealloc = 0
        ∧ (at_iteration c b 0 s 5).get .keeping = 0
        ∧ (at_iteration c b 0 s 5).get .activation_to_keep
            = (at_iteration c b 0 s 2).get .L2_output
        ∧ (at_iteration c b 0 s 5).get .L2_output
            = (at_iteration c b 0 s 2).get .L2_output)
      ∧ (at_iteration c b 0 s 5).get .bypass_activations = 0
      ∧ (at_iteration c b 0 s 6).get .keeping = 0 := by
  obtain ⟨hN, hf⟩ := h
  have f0 := hf 0 (by omega)
  have f1 := hf 1 (by omega)
  have f2 := hf 2 (by omega)
  have f3 := hf 3 (by omega)
  have f4 := hf 4 (by omega)
  have f5 := hf 5 (by omega)
  have f6 := hf 6 (by omega)
  simp at f0 f1 f2 f3 f4 f5 f6
  -- top of the loop
  have t0 : (at_iteration c b 0 s 0).get .begin_end_n = 1
      ∧ (at_iteration c b 0 s 0).get .valid_keep = 0
      ∧ (at_iteration c b 0 s 0).get .input_used_as_out = 0
      ∧ (at_iteration c b 0 s 0).get .bypass_to_dealloc = 0 := by
    refine ⟨?_, ?_, ?_, ?_⟩ <;>
    simp [at_iteration, iterations, loop_entry, section1_tail, s1_flip, s1_second,
      section1_head, s1_output, s1_weights, s1_input, section0, restore, init_weights,
      init_locals, lnot]
  have t1 : (at_iteration c b 0 s 1).get .begin_end_n = 0
      ∧ (at_iteration c b 0 s 1).get .valid_keep = 0
      ∧ (at_iteration c b 0 s 1).get .input_used_as_out = 0
      ∧ (at_iteration c b 0 s 1).get .bypass_to_dealloc = 0 := by
    rw [at_iteration_succ, layer_inner c b 0 _ (by omega)]
    refine ⟨?_, ?_, ?_, ?_⟩ <;>
    simp [bookkeeping, bk_side, bk_next_weights, bk_alloc_weights, bk_merge_side, bk_output,
      bk_input, bk_bypass, bk_keep, bk_free_bypass, bk_free_keep, bk_free_input, bk_exec,
      bk_free_weights, bk_valid, set_keep_index, swap_L3, get_before_kernel, f0, f1, t0, lnot]
  have t2 : (at_iteration c b 0 s 2).get .begin_end_n = 1
      ∧ (at_iteration c b 0 s 2).get .valid_keep = 0
      ∧ (at_iteration c b 0 s 2).get .input_used_as_out = 0
      ∧ (at_iteration c b 0 s 2).get .bypass_to_dealloc = 0 := by
    rw [at_iteration_succ, layer_inner c b 1 _ (by omega)]
    refine ⟨?_, ?_, ?_, ?_⟩ <;>
    simp [bookkeeping, bk_side, bk_next_weights, bk_alloc_weights, bk_merge_side, bk_output,
      bk_input, bk_bypass, bk_keep, bk_free_bypass, bk_free_keep, bk_free_input, bk_exec,
      bk_free_weights, bk_valid, set_keep_index, swap_L3, get_before_kernel, f0, f1, f2, t1,
      lnot]
  have t3 : (at_iteration c b 0 s 3).get .begin_end_n = 0
      ∧ (at_iteration c b 0 s 3).get .valid_keep = 0
      ∧ (at_iteration c b 0 s 3).get .input_used_as_out = 0
      ∧ (at_iteration c b 0 s 3).get .bypass_to_dealloc = 0
      ∧ (at_iteration c b 0 s 3).get .keeping = 1
      ∧ (at_iteration c b 0 s 3).get .activation_to_keep
          = (at_iteration c b 0 s 2).get .L2_output
      ∧ (at_iteration c b 0 s 3).get .bypass_side_keep = 0 := by
    rw [at_iteration_succ, layer_inner c b 2 _ (by omega)]
    refine ⟨?_, ?_, ?_, ?_, ?_, ?_, ?_⟩ <;>
    simp [bookkeeping, bk_side, bk_next_weights, bk_alloc_weights, bk_merge_side, bk_output,
      bk_input, bk_bypass, bk_keep, bk_free_bypass, bk_free_keep, bk_free_input, bk_exec,
      bk_free_weights, bk_valid, set_keep_index, swap_L3, get_before_kernel, f1, f2, f3, t2,
      lnot]
  have t4 : (at_iteration c b 0 s 4).get .begin_end_n = 1
      ∧ (at_iteration c b 0 s 4).get .valid_keep = 0
      ∧ (at_iteration c b 0 s 4).get .input_used_as_out = 0
      ∧ (at_iteration c b 0 s 4).get .bypass_to_dealloc = 0
      ∧ (at_iteration c b 0 s 4).get .keeping = 1
      ∧ (at_iteration c b 0 s 4).get .activation_to_keep
          = (at_iteration c b 0 s 2).get .L2_output
      ∧ (at_iteration c b 0 s 4).get .bypass_side_keep = 0 := by
    rw [at_iteration_succ, layer_inner c b 3 _ (by omega)]
    refine ⟨?_, ?_, ?_, ?_, ?_, ?_, ?_⟩ <;>
    simp [bookkeeping, bk_side, bk_next_weights, bk_alloc_weights, bk_merge_side, bk_output,
      bk_input, bk_bypass, bk_keep, bk_free_bypass, bk_free_keep, bk_free_input, bk_exec,
      bk_free_weights, bk_valid, set_keep_index, swap_L3, get_before_kernel, f2, f3, f4, t3,
      lnot]
  have t5 : (at_iteration c b 0 s 5).get .valid_keep = 0
      ∧ (at_iteration c b 0 s 5).get .bypass_to_dealloc = 0
      ∧ (at_iteration c b 0 s 5).get .keeping = 0
      ∧ (at_iteration c b 0 s 5).get .activation_to_keep
          = (at_iteration c b 0 s 2).get .L2_output
      ∧ (at_iteration c b 0 s 5).get .L2_output
          = (at_iteration c b 0 s 2).get .L2_output := by
    rw [at_iteration_succ, layer_inner c b 4 _ (by omega)]
    refine ⟨?_, ?_, ?_, ?_, ?_⟩ <;>
    simp [bookkeeping, bk_side, bk_next_weights, bk_alloc_weights, bk_merge_side, bk_output,
      bk_input, bk_bypass, bk_keep, bk_free_bypass, bk_free_keep, bk_free_input, bk_exec,
      bk_free_weights, bk_valid, set_keep_index, swap_L3, get_before_kernel, f3, f4, f5, t4,
      lnot]
  have t6 : (at_iteration c b 0 s 6).get .keeping = 0 := by
    rw [at_iteration_succ, layer_inner c b 5 _ (by omega)]
    simp [bookkeeping, bk_side, bk_next_weights, bk_alloc_weights, bk_merge_side, bk_output,
      bk_input, bk_bypass, bk_keep, bk_free_bypass, bk_free_keep, bk_free_input, bk_exec,
      bk_free_weights, bk_valid, set_keep_index, swap_L3, get_before_kernel, f4, f5, f6, t5,
      lnot]
  have hb := bypass_activations_null c b s 5 (fun j hj => by
    have := (hf j (by omega)).1
    rw [this]
    decide)
  exact ⟨t3, t4, t5, hb, t6⟩

set_option maxHeartbeats 1000000 in
/-- Allocator calls of iterations 3 and 4 of the branch scenario. -/
theorem scenario9_calls (c : Chain) (b : Board) (s : State) (h : Scenario9 c) :
    alloc_calls (at_iteration c b 0 s 4).trace
        = alloc_calls (at_iteration c b 0 s 3).trace
          ++ (if c.layer_with_weights 3 = 1 then [Call.free (c.check_weights_dimension 3) 0]
              else [])
          ++ [Call.alloc (c.check_activations_out_dimension 4) 0]
          ++ (if c.layer_with_weights 5 = 1 then [Call.alloc (c.check_weights_dimension 5) 0]
              else [])
      ∧ alloc_calls (at_iteration c b 0 s 5).trace
        = alloc_calls (at_iteration c b 0 s 4).trace
          ++ (if c.layer_with_weights 4 = 1 then [Call.free (c.check_weights_dimension 4) 1]
              else [])
          ++ [Call.free (c.check_activations_dimension 4) 1]
          ++ (if c.layer_with_weights 6 = 1 then [Call.alloc (c.check_weights_dimension 6) 1]
              else []) := by
  obtain ⟨t3, t4, -, -, -⟩ := scenario9_states c b s h
  obtain ⟨hN, hf⟩ := h
  have f2 := hf 2 (by omega)
  have f3 := hf 3 (by omega)
  have f4 := hf 4 (by omega)
  have f5 := hf 5 (by omega)
  simp at f2 f3 f4 f5
  have n5 : 3 + 2 < c.N := by omega
  have n6 : 4 + 2 < c.N := by omega
  constructor
  · rw [at_iteration_succ, layer_inner c b 3 _ (by omega)]
    by_cases w3 : c.layer_with_weights 3 = 1 <;> by_cases w5 : c.layer_with_weights 5 = 1 <;>
    simp [bookkeeping, bk_side, bk_next_weights, bk_alloc_weights, bk_merge_side, bk_output,
      bk_input, bk_bypass, bk_keep, bk_free_bypass, bk_free_keep, bk_free_input, bk_exec,
      bk_free_weights, bk_valid, set_keep_index, swap_L3, get_before_kernel,
      trace_before_kernel, f2, f3, f4, t3, w3, w5, n5, alloc_calls_prefetch,
      alloc_calls_do_free, alloc_calls_alloc_into, alloc_calls_invoke, alloc_calls_ite]
  · rw [at_iteration_succ, layer_inner c b 4 _ (by omega)]
    by_cases w4 : c.layer_with_weights 4 = 1 <;> by_cases w6 : c.layer_with_weights 6 = 1 <;>
    simp [bookkeeping, bk_side, bk_next_weights, bk_alloc_weights, bk_merge_side, bk_output,
      bk_input, bk_bypass, bk_keep, bk_free_bypass, bk_free_keep, bk_free_input, bk_exec,
      bk_free_weights, bk_valid, set_keep_index, swap_L3, get_before_kernel,
      trace_before_kernel, f3, f4, f5, t4, w4, w6, n6, alloc_calls_prefetch,
      alloc_calls_do_free, alloc_calls_alloc_into, alloc_calls_invoke, alloc_calls_ite]

theorem chain9_scenario : Scenario9 chain9 := by
  refine ⟨by decide, ?_⟩
  intro j hj
  have h7 : j < 7 := hj
  interval_cases j <;> exact ⟨rfl, rfl, rfl, rfl⟩

/-! ## The argument vector -/

/-- Slots 0, 1 and 3 of the argument vector. -/
theorem args_slots013 (c : Chain) (b : Board) (i : Nat) (s : State) :
    (kernel_args c b i s).getD 0 0
        = (if c.branch_change ((i : Int) - 1) = 1 ∧ c.branch_input i = 0 then
            s.get .bypass_L3_input else s.get .L3_input)
      ∧ (kernel_args c b i s).getD 1 0
        = (if c.branch_change ((i : Int) - 1) = 1 ∧ c.branch_input i = 0 then
            s.get .bypass_L3_output else s.get .L3_output)
      ∧ (kernel_args c b i s).getD 3 0
        = (if c.branch_change ((i : Int) - 1) = 1 ∧ c.branch_input i = 0 then
            s.get .bypass_activations else s.get .L2_input) := by
  unfold kernel_args
  split_ifs <;> simp [List.getD]

/-- Slots that no statement replaces. -/
theorem args_fixed (c : Chain) (b : Board) (i : Nat) (s : State) :
    (kernel_args c b i s).length = 13
      ∧ (kernel_args c b i s).getD 2 0
          = s.get .L3_weights_internal + c.cumulative_weights_dimension i
      ∧ (kernel_args c b i s).getD 5 0 = s.get .L2_output
      ∧ (kernel_args c b i s).getD 7 0 = s.get .l1_buffer
      ∧ (kernel_args c b i s).getD 8 0 = b.ram
      ∧ (kernel_args c b i s).getD 9 0 = s.get .out_mult
      ∧ (kernel_args c b i s).getD 10 0 = s.get .inmul1
      ∧ (kernel_args c b i s).getD 11 0 = s.get .inmul2
      ∧ (kernel_args c b i s).getD 12 0 = s.get .out_shift := by
  unfold kernel_args
  split_ifs <;> simp [List.getD]

/-- Slot 4 of the argument vector. -/
theorem args_slot4 (c : Chain) (b : Board) (i : Nat) (s : State) :
    (kernel_args c b i s).getD 4 0
      = (if c.branch_input i = 1 ∧ s.get .keeping = 1 then s.get .activation_to_keep
          else s.get .bypass_activations) := by
  unfold kernel_args
  split_ifs <;> simp [List.getD]

theorem callsOnly_refl (t : List Event) : CallsOnly t t :=
  ⟨[], by simp, by simp⟩

theorem callsOnly_trans {t u v : List Event} (h1 : CallsOnly t u) (h2 : CallsOnly u v) :
    CallsOnly t v := by
  obtain ⟨p1, e1, a1⟩ := h1
  obtain ⟨p2, e2, a2⟩ := h2
  refine ⟨p1 ++ p2, by rw [e2, e1, List.append_assoc], ?_⟩
  intro ev hev
  rcases List.mem_append.1 hev with h | h
  · exact a1 ev h
  · exact a2 ev h

theorem callsOnly_do_free (s : State) (size : Int) : CallsOnly s.trace (do_free s size).trace :=
  ⟨_, trace_do_free s size, by simp [Event.call]⟩

theorem callsOnly_alloc_into (s : State) (x : Var) (size : Int) :
    CallsOnly s.trace (alloc_into s x size).trace :=
  ⟨_, trace_alloc_into s x size, by simp [Event.call]⟩

theorem callsOnly_of_eq {t u : List Event} (h : u = t) : CallsOnly t u := by
  rw [h]; exact callsOnly_refl t

/-- The bookkeeping from line 933 on issues allocator calls only. -/
theorem callsOnly_tail (c : Chain) (i : Nat) (s : State) :
    CallsOnly s.trace
      (bk_side (bk_next_weights c i (bk_output c i (bk_input (bk_bypass c i (bk_keep c i
        (bk_free_bypass c i s))))))).trace := by
  have h6 : ∀ s, CallsOnly s.trace (bk_free_bypass c i s).trace := fun s => by
    unfold bk_free_bypass; split
    · simp only [trace_set]; exact callsOnly_do_free _ _
    · exact callsOnly_refl _
  have h7 : ∀ s, CallsOnly s.trace (bk_keep c i s).trace := fun s =>
    callsOnly_of_eq (by unfold bk_keep; split <;> simp)
  have h8 : ∀ s, CallsOnly s.trace (bk_bypass c i s).trace := fun s =>
    callsOnly_of_eq (by unfold bk_bypass; split <;> simp)
  have h9 : ∀ s, CallsOnly s.trace (bk_input s).trace := fun s =>
    callsOnly_of_eq (by simp [bk_input])
  have h10 : ∀ s, CallsOnly s.trace (bk_output c i s).trace := fun s => by
    unfold bk_output; split
    · simp only [trace_set]; exact callsOnly_alloc_into _ _ _
    · split
      · split <;> exact callsOnly_of_eq (by simp)
      · exact callsOnly_of_eq (by simp)
  have h11 : ∀ s, CallsOnly s.trace (bk_next_weights c i s).trace := fun s => by
    unfold bk_next_weights; split
    · have hm : (bk_merge_side c i s).trace = s.trace := by
        unfold bk_merge_side; split <;> simp
      rw [← hm]
      unfold bk_alloc_weights; split
      · simp only [trace_set]
        split
        · exact callsOnly_alloc_into _ _ _
        · exact callsOnly_alloc_into _ _ _
      · exact callsOnly_refl _
    · exact callsOnly_refl _
  have h12 : ∀ s, CallsOnly s.trace (bk_side s).trace := fun s =>
    callsOnly_of_eq (by simp [bk_side])
  exact callsOnly_trans (h6 _) (callsOnly_trans (h7 _) (callsOnly_trans (h8 _)
    (callsOnly_trans (h9 _) (callsOnly_trans (h10 _) (callsOnly_trans (h11 _) (h12 _))))))

/-- The bookkeeping of a layer issues allocator calls only. -/
theorem callsOnly_bookkeeping (c : Chain) (i : Nat) (s : State) :
    CallsOnly s.trace (bookkeeping c i s).trace := by
  have h1 : ∀ s, CallsOnly s.trace (bk_valid c i s).trace := fun s =>
    callsOnly_of_eq (by unfold bk_valid; split <;> simp)
  have h2 : ∀ s, CallsOnly s.trace (bk_free_weights c i s).trace := fun s => by
    unfold bk_free_weights; split
    · exact callsOnly_do_free _ _
    · exact callsOnly_refl _
  have h3 : ∀ s, CallsOnly s.trace (bk_exec c i s).trace := fun s =>
    callsOnly_of_eq (by unfold bk_exec; split <;> simp)
  have h4 : ∀ s, CallsOnly s.trace (bk_free_input c i s).trace := fun s => by
    unfold bk_free_input; split
    · exact callsOnly_do_free _ _
    · exact callsOnly_refl _
  have h5 : ∀ s, CallsOnly s.trace (bk_free_keep s).trace := fun s => by
    unfold bk_free_keep; split
    · simp only [trace_set]; exact callsOnly_do_free _ _
    · exact callsOnly_refl _
  unfold bookkeeping
  exact callsOnly_trans (h1 _) (callsOnly_trans (h2 _) (callsOnly_trans (h3 _)
    (callsOnly_trans (h4 _) (callsOnly_trans (h5 _) (callsOnly_tail c i _)))))

/-- The trace of an iteration that is not the last one, on core 0: the calls of the
prefetch, the kernel call, then allocator calls only. -/
theorem layer_inner_trace (c : Chain) (b : Board) (i : Nat) (s : State) (hi : i + 1 < c.N) :
    CallsOnly
      ((prefetch c i s).trace
        ++ [Event.kernel i (kernel_args c b i (before_kernel c 0 i s))])
      (layer c b 0 i s).trace := by
  rw [layer_inner c b i s hi]
  have h := callsOnly_bookkeeping c i
    (set_keep_index c i (swap_L3 (invoke c b i (before_kernel c 0 i s))))
  have e : (set_keep_index c i (swap_L3 (invoke c b i (before_kernel c 0 i s)))).trace
      = (prefetch c i s).trace
        ++ [Event.kernel i (kernel_args c b i (before_kernel c 0 i s))] := by
    have e1 : ∀ t, (set_keep_index c i t).trace = t.trace := fun t => by
      unfold set_keep_index; split <;> simp
    rw [e1]
    simp [swap_L3, trace_invoke, trace_before_kernel]
  rw [e] at h
  exact h

/-- The trace of the last iteration, on core 0: the kernel call, then the seven writes to
`ResOut`. -/
theorem layer_last_trace (c : Chain) (b : Board) (i : Nat) (s : State) (hi : i + 1 = c.N) :
    (layer c b 0 i s).trace
      = s.trace ++ [Event.kernel i (kernel_args c b i (before_kernel c 0 i s))]
        ++ (List.range 7).map (fun k =>
            Event.resout k
              ((layer c b 0 i s).mem
                ((layer c b 0 i s).get .L2_output + 4 * (k : Int)))) := by
  rw [layer_last c b i s hi]
  have e1 : ∀ t, (set_keep_index c i t).trace = t.trace := fun t => by
    unfold set_keep_index; split <;> simp
  have e2 : ∀ t, (set_keep_index c i t).mem = t.mem := fun t => by
    unfold set_keep_index; split <;> simp
  have e3 : ∀ t, (set_keep_index c i t).get .L2_output = t.get .L2_output := fun t => by
    unfold set_keep_index; split <;> simp
  have hp : (prefetch c i s).trace = s.trace := by
    unfold prefetch
    rw [if_neg (by omega)]
  rw [e1, e2, e3]
  simp [swap_L3, cnn_outputs, store_result, trace_invoke, trace_before_kernel, hp, List.range,
    List.range.loop]

theorem resouts_append (t u : List Event) : resouts (t ++ u) = resouts t ++ resouts u := by
  simp [resouts, List.filterMap_append]

theorem resouts_prefetch (c : Chain) (i : Nat) (s : State) :
    resouts (prefetch c i s).trace = resouts s.trace := by
  unfold prefetch
  split_ifs <;> simp [trace_do_read, trace_do_wait, resouts, List.filterMap_append, Event.result]

theorem resouts_of_callsOnly {t u : List Event} (h : CallsOnly t u) : resouts u = resouts t := by
  obtain ⟨post, e, hp⟩ := h
  have h0 : resouts post = [] := by
    unfold resouts
    rw [List.filterMap_eq_nil_iff]
    intro ev hev
    have := hp ev hev
    cases ev <;> simp_all [Event.call, Event.result]
  rw [e, resouts_append, h0, List.append_nil]

theorem resouts_entry (c : Chain) (b : Board) (s : State) :
    resouts (loop_entry c b 0 s).trace = [] := by
  by_cases h : c.second_weights = true <;> by_cases h2 : c.test = true ∧ c.checksums = true <;>
  simp [loop_entry, section1_tail, s1_flip, s1_second, section1_head, s1_output, s1_weights,
    s1_input, section0, restore, init_weights, init_locals, trace_alloc_into, trace_do_read,
    trace_do_wait, resouts, List.filterMap_append, Event.result, h, h2]

theorem resouts_inner (c : Chain) (b : Board) (i : Nat) (s : State) (hi : i + 1 < c.N) :
    resouts (layer c b 0 i s).trace = resouts s.trace := by
  rw [resouts_of_callsOnly (layer_inner_trace c b i s hi), resouts_append, resouts_prefetch]
  simp [resouts, Event.result]

/-- No write to `ResOut` precedes the last iteration. -/
theorem resouts_at (c : Chain) (b : Board) (s : State) :
    ∀ k : Nat, k < c.N → resouts (at_iteration c b 0 s k).trace = [] := by
  intro k
  induction k with
  | zero => intro _; exact resouts_entry c b s
  | succ k ih =>
    intro hk
    rw [at_iteration_succ, resouts_inner c b k _ hk]
    exact ih (by omega)

/-- An iteration of the loop on a core other than core 0: the four quantisation locals and
`keep_index` are the only variables assigned, and the kernel call is the only call. -/
theorem layer_other_core (c : Chain) (b : Board) (core i : Nat) (s : State) (hc : core ≠ 0) :
    (layer c b core i s).ResOut = s.ResOut
      ∧ resouts (layer c b core i s).trace = resouts s.trace
      ∧ (∀ x : Var, x ≠ .out_mult → x ≠ .out_shift → x ≠ .inmul1 → x ≠ .inmul2 →
          x ≠ .keep_index → (layer c b core i s).get x = s.get x)
      ∧ (layer c b core i s).get .keep_index
          = (if c.branch_change i = 1 then (i : Int) else s.get .keep_index) := by
  have e : layer c b core i s = set_keep_index c i (invoke c b i (set_quant c i s)) := by
    simp [layer, after_kernel, before_kernel, hc]
  rw [e]
  refine ⟨?_, ?_, ?_, ?_⟩
  · unfold set_keep_index; split <;> simp [set_quant]
  · have e1 : ∀ t, (set_keep_index c i t).trace = t.trace := fun t => by
      unfold set_keep_index; split <;> simp
    rw [e1]
    simp [trace_invoke, set_quant, resouts, List.filterMap_append, Event.result]
  · intro x h1 h2 h3 h4 h5
    unfold set_keep_index; split <;> simp [set_quant, h1, h2, h3, h4, h5]
  · unfold set_keep_index; split <;> simp_all [set_quant]

theorem iterations_other_core (c : Chain) (b : Board) (core : Nat) (s : State) (hc : core ≠ 0) :
    ∀ k : Nat, (iterations c b core k s).ResOut = s.ResOut
      ∧ resouts (iterations c b core k s).trace = resouts s.trace
      ∧ (∀ x : Var, x ≠ .out_mult → x ≠ .out_shift → x ≠ .inmul1 → x ≠ .inmul2 →
          x ≠ .keep_index → (iterations c b core k s).get x = s.get x) := by
  intro k
  induction k with
  | zero => exact ⟨rfl, rfl, fun _ _ _ _ _ _ => rfl⟩
  | succ k ih =>
    obtain ⟨h1, h2, h3, -⟩ := layer_other_core c b core k (iterations c b core k s) hc
    simp only [iterations]
    exact ⟨h1.trans ih.1, h2.trans ih.2.1,
      fun x a1 a2 a3 a4 a5 => (h3 x a1 a2 a3 a4 a5).trans (ih.2.2 x a1 a2 a3 a4 a5)⟩

/-- The function `network_run` on a core other than core 0. -/
theorem network_run_other_core (c : Chain) (b : Board) (core : Nat) (s : State)
    (hc : core ≠ 0) :
    network_run c b core s = iterations c b core c.N (init_weights (init_locals s)) := by
  simp [network_run, returns_early, section3, loop_entry, section0, hc]

/-- The function `network_run` on core 0, when line 667 does not return, in a chain of at
least one layer: the last iteration, then section 3. -/
theorem network_run_completes (c : Chain) (b : Board) (s : State) (hN : 0 < c.N)
    (hr : returns_early c b 0 s = false) :
    network_run c b 0 s
      = section3 c 0 (layer c b 0 (c.N - 1) (at_iteration c b 0 s (c.N - 1))) := by
  obtain ⟨n, hn⟩ : ∃ n, c.N = n + 1 := ⟨c.N - 1, by omega⟩
  unfold network_run
  rw [hr]
  simp only [Bool.false_eq_true, if_false]
  rw [hn]
  simp [iterations, at_iteration]

/-- The writes to `ResOut` of a completed pass. -/
theorem pass_results (c : Chain) (b : Board) (s : State) (hN : 0 < c.N)
    (hr : returns_early c b 0 s = false) :
    (network_run c b 0 s).trace
        = (at_iteration c b 0 s (c.N - 1)).trace
          ++ [Event.kernel (c.N - 1)
                (kernel_args c b (c.N - 1) (at_kernel c b 0 s (c.N - 1)))]
          ++ (List.range 7).map (fun k => Event.resout k
                ((network_run c b 0 s).mem
                  ((network_run c b 0 s).get .L2_output + 4 * (k : Int))))
          ++ [Event.l1_free ((network_run c b 0 s).get .l1_buffer) c.l1_buffer_size]
      ∧ (network_run c b 0 s).mem
          = b.kernel (c.N - 1) (kernel_args c b (c.N - 1) (at_kernel c b 0 s (c.N - 1)))
              (at_kernel c b 0 s (c.N - 1)).mem
      ∧ (network_run c b 0 s).get .L2_output = (at_kernel c b 0 s (c.N - 1)).get .L2_output
      ∧ (∀ k : Nat, k < 7 →
          (network_run c b 0 s).ResOut k
            = (network_run c b 0 s).mem
                ((network_run c b 0 s).get .L2_output + 4 * (k : Int))) := by
  have hl : c.N - 1 + 1 = c.N := by omega
  have e2 : ∀ t, (set_keep_index c (c.N - 1) t).mem = t.mem := fun t => by
    unfold set_keep_index; split <;> simp
  have e3 : ∀ t, (set_keep_index c (c.N - 1) t).get .L2_output = t.get .L2_output :=
    fun t => by unfold set_keep_index; split <;> simp
  have e4 : ∀ t, (set_keep_index c (c.N - 1) t).ResOut = t.ResOut := fun t => by
    unfold set_keep_index; split <;> simp
  rw [network_run_completes c b s hN hr]
  have ht := layer_last_trace c b (c.N - 1) (at_iteration c b 0 s (c.N - 1)) hl
  have hq := layer_last c b (c.N - 1) (at_iteration c b 0 s (c.N - 1)) hl
  unfold at_kernel
  generalize at_iteration c b 0 s (c.N - 1) = q at ht hq ⊢
  have hs : ∀ t : State, (section3 c 0 t).mem = t.mem ∧ (section3 c 0 t).get = t.get
      ∧ (section3 c 0 t).ResOut = t.ResOut
      ∧ (section3 c 0 t).trace = t.trace ++ [Event.l1_free (t.get .l1_buffer) c.l1_buffer_size] :=
    fun t => by simp [section3]
  rw [(hs _).1, (hs _).2.1, (hs _).2.2.1, (hs _).2.2.2]
  refine ⟨by rw [ht], ?_, ?_, ?_⟩
  · rw [hq, e2]
    simp [swap_L3, invoke]
  · rw [hq, e3]
    simp [swap_L3, get_before_kernel]
  · intro k hk
    rw [hq, e2, e3, e4]
    interval_cases k <;> simp [swap_L3, cnn_outputs, store_result]

/-! ## Branch-free passes: the bypass variables -/

/-- In a branch-free chain no layer follows a branch-change layer, provided the word in
front of the table `branch_change` is not 1. -/
theorem plain_no_change (c : Chain) (i : Nat) (hb : BranchFree c)
    (hlow : c.branch_change (-1) ≠ 1) (hi : i < c.N) :
    ¬ c.branch_change ((i : Int) - 1) = 1 := by
  rcases Nat.eq_zero_or_pos i with h0 | hpos
  · subst h0; simpa using hlow
  · obtain ⟨j, rfl⟩ : ∃ j, i = j + 1 := ⟨i - 1, by omega⟩
    have bj := hb j (by omega)
    simp [bj.2.2.1]

/-- An iteration of a branch-free chain that is not the last one keeps nothing. -/
theorem plain_keep (c : Chain) (b : Board) (i : Nat) (s : State)
    (hb : BranchFree c) (hi : i + 1 < c.N) (hk : s.get .keeping = 0) :
    (layer c b 0 i s).get .keeping = 0
      ∧ (layer c b 0 i s).get .activation_to_keep = s.get .activation_to_keep := by
  have b0 := hb i (by omega)
  have b1 := hb (i + 1) hi
  simp only [Nat.cast_add, Nat.cast_one] at b1
  rw [layer_inner c b i s hi]
  refine ⟨?_, ?_⟩ <;>
  simp [bookkeeping, bk_side, bk_next_weights, bk_alloc_weights, bk_merge_side, bk_output,
    bk_input, bk_bypass, bk_keep, bk_free_bypass, bk_free_keep, bk_free_input, bk_exec,
    bk_free_weights, bk_valid, set_keep_index, swap_L3, get_before_kernel, b0, b1, hk]

/-- The last iteration assigns the quantisation locals, the two off-chip buffer variables
and `keep_index` only. -/
theorem layer_last_get (c : Chain) (b : Board) (i : Nat) (s : State) (hi : i + 1 = c.N)
    (x : Var) (h1 : x ≠ .out_mult ∧ x ≠ .out_shift ∧ x ≠ .inmul1 ∧ x ≠ .inmul2)
    (h2 : x ≠ .L3_input ∧ x ≠ .L3_output ∧ x ≠ .keep_index) :
    (layer c b 0 i s).get x = s.get x := by
  rw [layer_last c b i s hi]
  unfold set_keep_index
  split <;> simp [swap_L3, get_before_kernel, h1, h2]

/-- The bypass variables at the top of every iteration of a branch-free pass entered with
`keeping = 0`, and after the last one. -/
theorem plain_vars_at (c : Chain) (b : Board) (s : State) (hb : BranchFree c)
    (hk : s.get .keeping = 0) :
    ∀ k : Nat, k ≤ c.N →
      (at_iteration c b 0 s k).get .input_used_as_out = 0
        ∧ (at_iteration c b 0 s k).get .valid_keep = 0
        ∧ (at_iteration c b 0 s k).get .keeping = 0
        ∧ (at_iteration c b 0 s k).get .activation_to_keep = 0
        ∧ (at_iteration c b 0 s k).get .bypass_activations = 0 := by
  intro k
  induction k with
  | zero =>
    intro _
    refine ⟨?_, ?_, ?_, ?_, ?_⟩ <;>
    simp [at_iteration, iterations, loop_entry, section1_tail, s1_flip, s1_second,
      section1_head, s1_output, s1_weights, s1_input, section0, restore, init_weights,
      init_locals, hk]
  | succ k ih =>
    intro hk1
    obtain ⟨a1, a2, a3, a4, a5⟩ := ih (by omega)
    have bk := hb k (by omega)
    rw [at_iteration_succ]
    have hba := layer_bypass_activations c b k (at_iteration c b 0 s k)
      (by rw [bk.2.1]; decide)
    by_cases hlast : k + 1 = c.N
    · have f := fun x h1 h2 => layer_last_get c b k (at_iteration c b 0 s k) hlast x h1 h2
      refine ⟨?_, ?_, ?_, ?_, hba.trans a5⟩
      · rw [f _ (by decide) (by decide)]; exact a1
      · rw [f _ (by decide) (by decide)]; exact a2
      · rw [f _ (by decide) (by decide)]; exact a3
      · rw [f _ (by decide) (by decide)]; exact a4
    · have hi : k + 1 < c.N := by omega
      have h1 := plain_ctrl c b k _ hb hi a1 a2
      have h2 := plain_keep c b k _ hb hi a3
      exact ⟨h1.2.1, h1.2.2, h2.1, h2.2.trans a4, hba.trans a5⟩

theorem chain_low_branch_free : BranchFree chain_low := by
  intro i hi
  have h3 : i < 3 := hi
  interval_cases i <;> exact ⟨rfl, rfl, by decide, rfl⟩

/-! ## The output buffer of a merge layer -/

theorem alloc_calls_of_callsOnly {t u : List Event} (h : CallsOnly t u) :
    ∃ post : List Call, alloc_calls u = alloc_calls t ++ post := by
  obtain ⟨post, e, -⟩ := h
  exact ⟨alloc_calls post, by rw [e, alloc_calls_append]⟩

/-- The side flag is 0 or 1 after an iteration. -/
theorem layer_side (c : Chain) (b : Board) (i : Nat) (s : State)
    (h : s.get .begin_end_n = 0 ∨ s.get .begin_end_n = 1) :
    (layer c b 0 i s).get .begin_end_n = 0 ∨ (layer c b 0 i s).get .begin_end_n = 1 := by
  by_cases h1 : i + 1 < c.N
  · rw [layer_inner c b i s h1]
    unfold bookkeeping
    generalize bk_next_weights c i _ = t
    simp only [bk_side, get_set, if_true]
    unfold lnot
    split <;> simp
  · have e : (layer c b 0 i s).get .begin_end_n = s.get .begin_end_n := by
      by_cases h2 : i + 1 = c.N <;>
      simp [layer, after_kernel, h1, h2, set_keep_index, swap_L3, get_before_kernel]
    rw [e]; exact h

theorem side_at (c : Chain) (b : Board) (s : State) :
    ∀ k : Nat, (at_iteration c b 0 s k).get .begin_end_n = 0
      ∨ (at_iteration c b 0 s k).get .begin_end_n = 1 := by
  intro k
  induction k with
  | zero => exact Or.inr (entry_ctrl c b s).1
  | succ k ih => rw [at_iteration_succ]; exact layer_side c b k _ ih

/-- An iteration that is not the last one, cut at the point where the output of the next
layer is set up. -/
theorem at_iteration_output (c : Chain) (b : Board) (s : State) (i : Nat) (hi : i + 1 < c.N) :
    at_iteration c b 0 s (i + 1)
      = bk_side (bk_next_weights c i (bk_output c i (at_output c b s i))) := by
  rw [at_iteration_succ, layer_inner c b i _ hi]
  rfl

/-- The side flag when the output of layer `i+1` is set up. -/
theorem side_at_output (c : Chain) (b : Board) (s : State) (i : Nat) :
    (at_output c b s i).get .begin_end_n = (at_iteration c b 0 s i).get .begin_end_n := by
  simp [at_output, at_kernel, bk_head, bk_input, bk_bypass, bk_keep, bk_free_bypass,
    bk_free_keep, bk_free_input, bk_exec, bk_free_weights, bk_valid, set_keep_index, swap_L3,
    get_before_kernel]

/-- The output of a merge layer while an activation is kept. -/
theorem merge_output (c : Chain) (i : Nat) (p : State)
    (hm : c.branch_input ((i : Int) + 1) = 1) (hk : p.get .keeping = 1) :
    bk_output c i p
      = (if p.get .bypass_side_keep = p.get .begin_end_n then
          (p.set .L2_output (p.get .L2_input)).set .input_used_as_out 1
        else (p.set .L2_output (p.get .activation_to_keep)).set .keeping 0) := by
  simp [bk_output, hm, hk]

/-- Variables that lines 1001-1031 leave alone. -/
theorem next_weights_frame (c : Chain) (i : Nat) (o : State) (x : Var)
    (h : x ≠ .begin_end_n ∧ x ≠ .L2_weights_1 ∧ x ≠ .L2_weights_2
      ∧ x ≠ .L2_buffer_allocation ∧ x ≠ .L2_buffer_allocation_end
      ∧ x ≠ .d_buffering_weights_t ∧ x ≠ .transfer_weights) :
    (bk_side (bk_next_weights c i o)).get x = o.get x := by
  obtain ⟨h1, h2, h3, h4, h5, h6, h7⟩ := h
  simp [bk_side, bk_next_weights, bk_alloc_weights, bk_merge_side, h1, h2, h3, h4, h5, h6, h7]

/-- The side flag after lines 1001-1031 when the flag was switched ahead of a merge. -/
theorem next_weights_side (c : Chain) (i : Nat) (o : State) (hi : i + 2 < c.N)
    (hm : c.branch_input ((i : Int) + 1) = 1) (hk : o.get .keeping = 1)
    (hs : o.get .bypass_side_keep = o.get .begin_end_n)
    (h01 : o.get .begin_end_n = 0 ∨ o.get .begin_end_n = 1) :
    (bk_side (bk_next_weights c i o)).get .begin_end_n = o.get .begin_end_n := by
  rcases h01 with h | h <;>
  simp [bk_side, bk_next_weights, bk_alloc_weights, bk_merge_side, hi, hm, hk, hs, h, lnot]

/-- The bookkeeping of a merge layer `j` whose output is its input buffer: the weights of
the layer are freed, the input is not, and the kept activation is freed. -/
theorem release_after_merge (c : Chain) (b : Board) (j : Nat) (q : State)
    (hj0 : 0 < j) (hm : c.branch_input j = 1)
    (hk : q.get .keeping = 1) (hiu : q.get .input_used_as_out = 1)
    (hs : q.get .bypass_side_keep = q.get .begin_end_n)
    (hbu : q.get .bypass_used_as_out ≠ 1) :
    alloc_calls (bk_free_keep (bk_free_input c j (bk_exec c j (bk_free_weights c j
          (bk_valid c j (set_keep_index c j (swap_L3 (invoke c b j
            (before_kernel c 0 j q))))))))).trace
        = alloc_calls q.trace
          ++ (if c.layer_with_weights j = 1 then
                [Call.free (c.check_weights_dimension j) (q.get .begin_end_n)] else [])
          ++ [Call.free (q.get .activation_dimension) (q.get .begin_end_n)]
      ∧ (bk_free_keep (bk_free_input c j (bk_exec c j (bk_free_weights c j
          (bk_valid c j (set_keep_index c j (swap_L3 (invoke c b j
            (before_kernel c 0 j q))))))))).get .keeping = 0 := by
  have hj1 : j ≠ 0 := by omega
  refine ⟨?_, ?_⟩
  · by_cases w0 : c.layer_with_weights j = 1 <;>
    by_cases w1 : c.layer_with_weights ((j : Int) + 1) = 1 <;>
    by_cases k1 : c.branch_change j = 1 <;>
    simp [bk_free_keep, bk_free_input, bk_exec, bk_free_weights, bk_valid, set_keep_index,
      swap_L3, get_before_kernel, trace_before_kernel, hm, hk, hiu, hs, hbu, hj1, w0, w1, k1,
      alloc_calls_prefetch, alloc_calls_do_free, alloc_calls_invoke, alloc_calls_ite]
  · by_cases w0 : c.layer_with_weights j = 1 <;>
    by_cases w1 : c.layer_with_weights ((j : Int) + 1) = 1 <;>
    by_cases k1 : c.branch_change j = 1 <;>
    simp [bk_free_keep, bk_free_input, bk_exec, bk_free_weights, bk_valid, set_keep_index,
      swap_L3, get_before_kernel, hm, hk, hiu, hs, hbu, hj1, w0, w1, k1]

/-- Lines 933-969 leave `keeping` alone in a layer that is not a branch-change layer. -/
theorem head_keeping (c : Chain) (j : Nat) (h : State) (hc : ¬ c.branch_change j = 1) :
    (bk_input (bk_bypass c j (bk_keep c j (bk_free_bypass c j h)))).get .keeping
      = h.get .keeping := by
  simp [bk_input, bk_bypass, bk_keep, bk_free_bypass, hc]

/-! ## The checksum of a weight file -/

theorem wrap32_add_wrap32 (a b : Int) : wrap32 (wrap32 a + b) = wrap32 (a + b) := by
  unfold wrap32
  omega

theorem foldl_add_byte (l : List Nat) :
    ∀ s : Int, l.foldl add_byte (wrap32 s) = wrap32 (s + byte_total l) := by
  induction l with
  | nil => intro s; simp [byte_total]
  | cons t l ih =>
    intro s
    have e : add_byte (wrap32 s) t = wrap32 (s + ((t % 256 : Nat) : Int)) := by
      unfold add_byte
      exact wrap32_add_wrap32 _ _
    rw [List.foldl_cons, e, ih]
    simp only [byte_total, List.map_cons, List.sum_cons]
    congr 1
    omega

/-- With enough rounds the loop of lines 441-450 adds up all the bytes that are left. -/
theorem read_loop_enough :
    ∀ (fuel : Nat) (rest : List Nat) (sum : Int), rest.length ≤ fuel →
      read_loop fuel rest sum = rest.foldl add_byte sum := by
  intro fuel
  induction fuel with
  | zero =>
    intro rest sum h
    have : rest = [] := List.length_eq_zero.1 (by omega)
    subst this
    rfl
  | succ fuel ih =>
    intro rest sum h
    unfold read_loop
    by_cases hr : rest = []
    · subst hr; simp
    · rw [if_neg hr, ih _ _ (by
        have : 0 < rest.length := List.length_pos.2 hr
        simp [FLASH_BUFF_SIZE]; omega), ← List.foldl_append, List.take_append_drop]

/-- The sum computed for a file is the 32-bit sum of its bytes. -/
theorem sum_weights_eq (f : WeightFile) : sum_weights f = blob_sum f.bytes := by
  unfold sum_weights blob_sum
  rw [read_loop_enough _ _ _ (le_refl _)]
  have h := foldl_add_byte f.bytes 0
  have h0 : wrap32 0 = 0 := by decide
  rw [h0, zero_add] at h
  exact h

theorem byte_total_append (l1 l2 : List Nat) :
    byte_total (l1 ++ l2) = byte_total l1 + byte_total l2 := by
  simp [byte_total]

/-- Two blobs that differ in one byte have different checksums. -/
theorem blob_sum_one_byte (pre post : List Nat) (u v : Nat) (hu : u < 256) (hv : v < 256)
    (huv : u ≠ v) : blob_sum (pre ++ u :: post) ≠ blob_sum (pre ++ v :: post) := by
  unfold blob_sum
  rw [byte_total_append, byte_total_append]
  have e1 : byte_total (u :: post) = (u : Int) + byte_total post := by
    simp [byte_total]; omega
  have e2 : byte_total (v :: post) = (v : Int) + byte_total post := by
    simp [byte_total]; omega
  rw [e1, e2]
  generalize byte_total pre = p
  generalize byte_total post = q
  unfold wrap32
  omega

/-- The loop over the weight files goes on after every comparison. -/
theorem setup_weights_cons (c : Chain) (cw : Int → Int) (f : WeightFile)
    (rest : List WeightFile) (n : Int) (hf : f.opens = true) :
    setup_weights c cw (f :: rest) n
      = (compare_sum cw (if c.layer_with_weights n = 0 then n + 1 else n) (sum_weights f)
            :: (setup_weights c cw rest
                  ((if c.layer_with_weights n = 0 then n + 1 else n) + 1)).1,
          (setup_weights c cw rest
            ((if c.layer_with_weights n = 0 then n + 1 else n) + 1)).2) := by
  simp [setup_weights, hf]

theorem setup_weights_runs (c : Chain) (cw : Int → Int) :
    ∀ (files : List WeightFile) (n : Int), (∀ f ∈ files, f.opens = true) →
      (setup_weights c cw files n).2 = true
        ∧ (setup_weights c cw files n).1.length = files.length := by
  intro files
  induction files with
  | nil => intro n _; exact ⟨rfl, rfl⟩
  | cons f rest ih =>
    intro n h
    rw [setup_weights_cons c cw f rest n (h f (by simp))]
    have h2 := ih ((if c.layer_with_weights n = 0 then n + 1 else n) + 1)
      (fun g hg => h g (by simp [hg]))
    exact ⟨h2.1, by simp [h2.2]⟩

/-! ## The state at the top of the loop -/

/-- Sections 0 and 1 do not assign `keeping`; they leave `activation_to_keep` null and the
input buffer at the restored begin boundary. -/
theorem entry_keeping (c : Chain) (b : Board) (s : State) :
    (loop_entry c b 0 s).get .keeping = s.get .keeping
      ∧ (loop_entry c b 0 s).get .activation_to_keep = 0
      ∧ (loop_entry c b 0 s).get .L2_input = s.get .L2_buffer_allocation_baseline := by
  refine ⟨?_, ?_, ?_⟩ <;>
  simp [loop_entry, section1_tail, s1_flip, s1_second, section1_head, s1_output, s1_weights,
    s1_input, section0, restore, init_weights, init_locals, dory_L2_alloc]

/-- The kernel call of an iteration is in the trace after the iteration. -/
theorem kernel_in_layer (c : Chain) (b : Board) (i : Nat) (s : State) (hi : i < c.N) :
    Event.kernel i (kernel_args c b i (before_kernel c 0 i s)) ∈ (layer c b 0 i s).trace := by
  by_cases h : i + 1 < c.N
  · obtain ⟨post, e, -⟩ := layer_inner_trace c b i s h
    rw [e]
    simp
  · rw [layer_last_trace c b i s (by omega)]
    simp

/-- An iteration only adds to the trace. -/
theorem layer_grows (c : Chain) (b : Board) (i : Nat) (s : State) (hi : i < c.N) :
    ∃ post : List Event, (layer c b 0 i s).trace = s.trace ++ post := by
  by_cases h : i + 1 < c.N
  · obtain ⟨post, e, -⟩ := layer_inner_trace c b i s h
    have hp : ∃ pf : List Event, (prefetch c i s).trace = s.trace ++ pf := by
      unfold prefetch
      split_ifs <;> simp [trace_do_read, trace_do_wait]
    obtain ⟨pf, hpf⟩ := hp
    exact ⟨pf ++ [Event.kernel i (kernel_args c b i (before_kernel c 0 i s))] ++ post, by
      rw [e, hpf]; simp⟩
  · exact ⟨_, by rw [layer_last_trace c b i s (by omega), List.append_assoc]⟩

/-- The kernel call of layer 0 is in the trace at the top of every later iteration. -/
theorem kernel0_called (c : Chain) (b : Board) (s : State) :
    ∀ k : Nat, k < c.N →
      Event.kernel 0 (kernel_args c b 0 (at_kernel c b 0 s 0))
        ∈ (at_iteration c b 0 s (k + 1)).trace := by
  intro k
  induction k with
  | zero =>
    intro h
    exact kernel_in_layer c b 0 _ h
  | succ k ih =>
    intro h
    rw [at_iteration_succ]
    obtain ⟨post, e⟩ := layer_grows c b (k + 1) (at_iteration c b 0 s (k + 1)) h
    rw [e]
    exact List.mem_append_left _ (ih (by omega))

/-! ## The crop of the camera frame -/

/-- The source of a byte of the cropped image lies behind it in the frame. -/
theorem crop_source_gt (k : Nat) : k < crop_source k := by
  unfold crop_source
  omega

theorem crop_source_row (i j : Nat) (hj : j < 200) :
    crop_source (i * 200 + j) = (i + 44) * 324 + j + 62 := by
  unfold crop_source
  have h1 : (i * 200 + j) / 200 = i := by omega
  have h2 : (i * 200 + j) % 200 = j := by omega
  rw [h1, h2]

/-- One assignment of the crop, when the byte it reads has not been written yet. -/
theorem crop_step_ok (v : Build) (hv : v.IMAV = false) (raw cropped i j : Nat)
    (m cur : Nat → Nat) (hj : j < 200)
    (hsafe : ∀ k : Nat, k < i * 200 + j → cropped + k ≠ raw + crop_source (i * 200 + j))
    (h : cur = cropped_memory raw cropped (i * 200 + j) m) :
    crop_step v raw cropped i j cur = cropped_memory raw cropped (i * 200 + j + 1) m := by
  subst h
  funext x
  have cw : CAMERA_WIDTH v = 324 := by simp [CAMERA_WIDTH, hv]
  have iw : INPUT_WIDTH v = 200 := by simp [INPUT_WIDTH, hv]
  have hr : cropped_memory raw cropped (i * 200 + j) m (raw + (i + 44) * 324 + j + 62)
      = m (raw + (i + 44) * 324 + j + 62) := by
    unfold cropped_memory
    rw [if_neg]
    rintro ⟨h1, h2⟩
    have hs := hsafe (raw + (i + 44) * 324 + j + 62 - cropped) (by omega)
    rw [crop_source_row i j hj] at hs
    omega
  unfold crop_step
  rw [cw, iw, hr]
  by_cases hx : x = cropped + i * 200 + j
  · subst hx
    rw [Function.update_same]
    unfold cropped_memory
    rw [if_pos (by omega)]
    have e : cropped + i * 200 + j - cropped = i * 200 + j := by omega
    rw [e, crop_source_row i j hj]
    congr 1
    omega
  · rw [Function.update_noteq hx]
    unfold cropped_memory
    by_cases h1 : cropped ≤ x ∧ x < cropped + (i * 200 + j)
    · rw [if_pos h1, if_pos (by omega)]
    · rw [if_neg h1, if_neg (by omega)]

theorem crop_row_upto (v : Build) (hv : v.IMAV = false) (raw cropped i : Nat)
    (m cur : Nat → Nat) (hi : i < 200) (hsafe : CropSafe raw cropped)
    (h : cur = cropped_memory raw cropped (i * 200) m) :
    ∀ J : Nat, J ≤ 200 →
      (List.range J).foldl (fun m j => crop_step v raw cropped i j m) cur
        = cropped_memory raw cropped (i * 200 + J) m := by
  intro J
  induction J with
  | zero => intro _; simpa using h
  | succ J ih =>
    intro hJ
    rw [List.range_succ, List.foldl_append, ih (by omega)]
    simp only [List.foldl_cons, List.foldl_nil]
    exact crop_step_ok v hv raw cropped i J m _ (by omega)
      (fun k hk => hsafe k _ hk (by omega)) rfl

theorem crop_rows_upto (v : Build) (hv : v.IMAV = false) (raw cropped : Nat)
    (m : Nat → Nat) (hsafe : CropSafe raw cropped) :
    ∀ I : Nat, I ≤ 200 →
      (List.range I).foldl (fun m i => crop_row v raw cropped i m) m
        = cropped_memory raw cropped (I * 200) m := by
  intro I
  induction I with
  | zero =>
    intro _
    funext x
    unfold cropped_memory
    rw [if_neg (by omega)]
    rfl
  | succ I ih =>
    intro hI
    rw [List.range_succ, List.foldl_append, ih (by omega)]
    simp only [List.foldl_cons, List.foldl_nil]
    unfold crop_row
    rw [crop_row_upto v hv raw cropped I m _ (by omega) hsafe rfl 200 (le_refl _)]
    have e : I * 200 + 200 = (I + 1) * 200 := by omega
    rw [e]

/-- The function `image_crop` leaves the cropped image in the destination, and the other
bytes as they were, when no byte is written before it is read. -/
theorem image_crop_eq (v : Build) (hv : v.IMAV = false) (raw cropped : Nat)
    (m : Nat → Nat) (hsafe : CropSafe raw cropped) :
    image_crop v raw cropped m = cropped_memory raw cropped 40000 m := by
  unfold image_crop
  rw [crop_rows_upto v hv raw cropped m hsafe 200 (le_refl _)]

theorem cropSafe_in_place (buf : Nat) : CropSafe buf buf := by
  intro k k2 hk _
  have := crop_source_gt k2
  omega

theorem cropSafe_apart (raw cropped : Nat)
    (h : cropped + 40000 ≤ raw ∨ raw + 79056 ≤ cropped) : CropSafe raw cropped := by
  intro k k2 hk hk2
  have h1 : crop_source k2 < 79056 := by
    unfold crop_source
    omega
  omega

/-! ## C1: the arena boundaries are restored at the start of every pass -/

/-- C1: after `network_setup` has stored the baselines, whatever sequence of passes has
run before (and whatever they left in the two boundaries), section 0 of the next call of
`network_run` on core 0 sets `L2_buffer_allocation` and `L2_buffer_allocation_end` back
to the baseline values stored by `network_setup`: the arena address and that address
plus 410000. -/
theorem c1_boundaries_restored (c : Chain) (b : Board) (s : State)
    (frames : List ((Int → Int) → (Int → Int))) (h : b.files_open = true) :
    (section0 c b 0 (passes c b frames (network_setup b s).1)).get .L2_buffer_allocation
        = (network_setup b s).1.get .L2_buffer_allocation_baseline
      ∧ (section0 c b 0 (passes c b frames (network_setup b s).1)).get
          .L2_buffer_allocation_end
        = (network_setup b s).1.get .L2_buffer_allocation_end_baseline
      ∧ (network_setup b s).1.get .L2_buffer_allocation_baseline = b.l2_malloc
      ∧ (network_setup b s).1.get .L2_buffer_allocation_end_baseline
        = b.l2_malloc + 410000 := by
  have hp := passes_baseline c b frames (network_setup b s).1
  refine ⟨?_, ?_, ?_, ?_⟩
  · rw [← hp.1]
    simp [section0, restore, init_weights, init_locals]
  · rw [← hp.2]
    simp [section0, restore, init_weights, init_locals]
  · simp [network_setup, h]
  · simp [network_setup, h, ARENA_SIZE]

theorem c1_boundaries_restored_witness :
    board0.files_open = true
      ∧ (section0 (chain3 28) board0 0
          (passes (chain3 28) board0 [id, id] (network_setup board0 state0).1)).get
            .L2_buffer_allocation = 1000
      ∧ (section0 (chain3 28) board0 0
          (passes (chain3 28) board0 [id, id] (network_setup board0 state0).1)).get
            .L2_buffer_allocation_end = 411000 := by
  have h := c1_boundaries_restored (chain3 28) board0 state0 [id, id] rfl
  refine ⟨rfl, ?_, ?_⟩
  · rw [h.1, h.2.2.1]; rfl
  · rw [h.2.1, h.2.2.2]; rfl

/-! ## C2: stack discipline of the allocator calls -/

/-- C2 (as amended): in a branch-free chain with mutually consistent size tables whose
first layer has weights, every `dory_L2_free` issued by a pass of `network_run` releases,
on the side given by `begin_end_n`, the block that was allocated last and not yet freed on
that side, with the size it was allocated with. -/
theorem c2_stack_discipline (c : Chain) (b : Board) (s : State) (hb : BranchFree c)
    (hc : Consistent c) (h0 : c.layer_with_weights 0 = 1) :
    StackDiscipline (network_run c b 0 s).trace := by
  unfold StackDiscipline arena_stacks network_run
  split
  · rw [show alloc_calls (section1_abort (section1_head c (section0 c b 0 s))).trace
        = alloc_calls (section1_head c (section0 c b 0 s)).trace from rfl, head_calls]
    simp [stack_step]
  · rw [section3_calls]
    rcases Nat.eq_zero_or_pos c.N with hN | hN
    · rw [hN]
      simp only [iterations]
      rw [entry_calls]
      by_cases h2 : c.second_weights = true <;> simp [h2, stack_step]
    · obtain ⟨k, hk⟩ : ∃ k, c.N = k + 1 := ⟨c.N - 1, by omega⟩
      have hs := plain_stacks_at c b s hb hc h0 k (by omega)
      rw [hk]
      simp only [iterations]
      rw [last_calls c b k _ (by omega)]
      have h4 := hs.2.2.2
      unfold arena_stacks at h4
      unfold at_iteration at h4
      rw [h4]
      rfl

theorem c2_stack_discipline_witness :
    BranchFree (chain3 28) ∧ Consistent (chain3 28) ∧ (chain3 28).layer_with_weights 0 = 1
      ∧ StackDiscipline (network_run (chain3 28) board0 0 state0).trace :=
  ⟨chain3_branch_free 28, chain3_consistent 28, rfl,
    c2_stack_discipline (chain3 28) board0 state0 (chain3_branch_free 28)
      (chain3_consistent 28) rfl⟩

theorem c2_counterexample :
    BranchFree chain_w0 ∧ Consistent chain_w0
      ∧ alloc_calls (network_run chain_w0 board0 0 (network_setup board0 state0).1).trace
          = [Call.alloc 100 1, Call.alloc 40 1, Call.alloc 200 0, Call.free 100 1,
             Call.alloc 28 1]
      ∧ ¬ StackDiscipline (network_run chain_w0 board0 0 (network_setup board0 state0).1).trace := by
  refine ⟨chain_w0_branch_free, chain_w0_consistent, by decide, ?_⟩
  unfold StackDiscipline
  decide

/-! ## C3: the arena never overflows on branch-free chains -/

/-- C3 (as amended): in a branch-free chain of at least one layer, with mutually
consistent non-negative size tables and a first layer that has weights or for which no
weight bytes are emitted into section 1 (`weights0_dim = 0`), run with the arena of
410000 bytes set up by `network_setup`: when the kernel of layer `i` is invoked
the bytes live in the arena are the input, the weights and the output of layer `i` plus
the weights of layer `i+1` (weights counted only for layers that have them, the last term
only when `i+1 < N`); and if this sum is at most 410000 for every layer then
`L2_buffer_allocation <= L2_buffer_allocation_end` holds after every allocator call of the
pass. -/
theorem c3_arena_never_overflows (c : Chain) (b : Board) (s : State) (hb : BranchFree c)
    (hc : Consistent c) (hn : SizesNonneg c)
    (h0 : c.layer_with_weights 0 = 1 ∨ c.weights0_dim = 0) (hN : 0 < c.N)
    (ha : s.get .L2_buffer_allocation_end_baseline
      = s.get .L2_buffer_allocation_baseline + ARENA_SIZE) :
    (∀ i : Nat, i < c.N → live (at_kernel c b 0 s i) = need c i)
      ∧ ((∀ i : Nat, i < c.N → need c i ≤ ARENA_SIZE) →
          AllWithin (network_run c b 0 s).trace) := by
  constructor
  · intro i hi
    have h := (plain_arena_at c b s hb hc hn h0 i hi).1
    have hs := (plain_ctrl_at c b s hb i hi).1
    unfold PlainArena at h
    unfold live at_kernel need
    have e : ∀ x : Var, (x ≠ .out_mult ∧ x ≠ .out_shift ∧ x ≠ .inmul1 ∧ x ≠ .inmul2) →
        (before_kernel c 0 i (at_iteration c b 0 s i)).get x
          = (at_iteration c b 0 s i).get x :=
      fun x hx => get_before_kernel c i _ x hx
    rw [e _ (by decide), e _ (by decide), e _ (by decide), e _ (by decide)]
    rcases hs with h1 | h1
    · rw [h1] at h
      simp only [show ¬ ((0 : Int) = 1) by decide, if_false] at h
      rw [h.1, h.2]
      ring
    · rw [h1] at h
      simp only [if_true] at h
      rw [h.1, h.2]
      ring
  · intro hfit
    unfold network_run
    split
    · exact allWithin_head c b s hc hn h0 hN ha (hfit 0 hN)
    · have e : AllWithin (section3 c 0 (iterations c b 0 c.N (loop_entry c b 0 s))).trace
          ↔ AllWithin (iterations c b 0 c.N (loop_entry c b 0 s)).trace := by
        simp [section3, allWithin_append, allWithin_cons, allWithin_nil, Event.within]
      rw [e]
      obtain ⟨k, hk⟩ : ∃ k, c.N = k + 1 := ⟨c.N - 1, by omega⟩
      have h := (plain_arena_at c b s hb hc hn h0 k (by omega)).2 ha hfit
      rw [hk]
      simp only [iterations]
      rw [allWithin_last c b k _ (by omega)]
      exact h

theorem c3_arena_never_overflows_witness :
    BranchFree chain_pool ∧ Consistent chain_pool ∧ SizesNonneg chain_pool
      ∧ chain_pool.layer_with_weights 0 = 0 ∧ chain_pool.weights0_dim = 0
      ∧ 0 < chain_pool.N
      ∧ (network_setup board0 state0).1.get .L2_buffer_allocation_end_baseline
          = (network_setup board0 state0).1.get .L2_buffer_allocation_baseline + ARENA_SIZE
      ∧ (∀ i : Nat, i < chain_pool.N → need chain_pool i ≤ ARENA_SIZE)
      ∧ live (at_kernel chain_pool board0 0 (network_setup board0 state0).1 0)
          = need chain_pool 0
      ∧ need chain_pool 0 = 360
      ∧ AllWithin (network_run chain_pool board0 0 (network_setup board0 state0).1).trace := by
  have hfit : ∀ i : Nat, i < chain_pool.N → need chain_pool i ≤ ARENA_SIZE := by
    intro i hi
    have h3 : i < 3 := hi
    interval_cases i <;> decide
  have h := c3_arena_never_overflows chain_pool board0 (network_setup board0 state0).1
    chain_pool_branch_free chain_pool_consistent chain_pool_nonneg (Or.inr rfl) (by decide)
    (by decide)
  exact ⟨chain_pool_branch_free, chain_pool_consistent, chain_pool_nonneg, rfl, rfl,
    by decide, by decide, hfit, h.1 0 (by decide), by decide, h.2 hfit⟩

theorem c3_counterexample :
    BranchFree chain_w0 ∧ Consistent chain_w0 ∧ SizesNonneg chain_w0
      ∧ live (at_kernel chain_w0 board0 0 (network_setup board0 state0).1 0) = 340
      ∧ need chain_w0 0 = 300 :=
  ⟨chain_w0_branch_free, chain_w0_consistent, chain_w0_nonneg, by decide, by decide⟩

/-! ## C4: the allocator calls of the 3-layer scenario -/

/-- C4 (as amended): for the 3-layer branch-free chain with sizes 100, 200, 150 and
weights 40, 0, 60, the allocator calls of one pass of `network_run` are exactly
alloc(100), alloc(40) on the begin side and alloc(200) on the end side in section 1;
free(40), free(100), alloc(150) and alloc(60) for the weights of layer 2, all on the
begin side, after layer 0; free(200) and alloc(out2) on the end side after layer 1; and
no allocator call after that. -/
theorem c4_allocator_calls (c : Chain) (out2 : Int) (b : Board) (s : State)
    (h : Scenario3 c out2) :
    alloc_calls (network_run c b 0 s).trace
      = [Call.alloc 100 1, Call.alloc 40 1, Call.alloc 200 0,
         Call.free 40 1, Call.free 100 1, Call.alloc 150 1, Call.alloc 60 1,
         Call.free 200 0, Call.alloc out2 0] := by
  obtain ⟨hN, hb, hin, hw0, hout, hsec, l0, l1, l2, w0, w1, w2, a0, a1, a2, o0, o1, o2⟩ := h
  have hre : returns_early c b 0 s = false := by
    simp [returns_early, section1_returns, hsec]
  have hent := entry_ctrl c b s
  have hc0 := plain_ctrl c b 0 (loop_entry c b 0 s) hb (by omega) hent.2.1 hent.2.2
  have hk0 := plain_calls c b 0 (loop_entry c b 0 s) hb (by omega) hent.2.1 hent.2.2
  have hc1 := plain_ctrl c b 1 (layer c b 0 0 (loop_entry c b 0 s)) hb (by omega)
    hc0.2.1 hc0.2.2
  have hk1 := plain_calls c b 1 (layer c b 0 0 (loop_entry c b 0 s)) hb (by omega)
    hc0.2.1 hc0.2.2
  have hk2 := last_calls c b 2 (layer c b 0 1 (layer c b 0 0 (loop_entry c b 0 s)))
    (by omega)
  unfold network_run
  rw [hre]
  simp only [Bool.false_eq_true, if_false]
  rw [section3_calls, hN]
  simp only [iterations]
  rw [hk2, hk1, hk0, entry_calls, hc0.1, hent.1]
  simp [hN, hin, hw0, hout, hsec, l0, l1, l2, w0, w1, w2, a0, a1, a2, o0, o1, o2, lnot]

theorem c4_allocator_calls_witness :
    Scenario3 (chain3 28) 28
      ∧ alloc_calls (network_run (chain3 28) board0 0 (network_setup board0 state0).1).trace
        = [Call.alloc 100 1, Call.alloc 40 1, Call.alloc 200 0,
           Call.free 40 1, Call.free 100 1, Call.alloc 150 1, Call.alloc 60 1,
           Call.free 200 0, Call.alloc 28 0] :=
  ⟨chain3_scenario 28,
    c4_allocator_calls (chain3 28) 28 board0 (network_setup board0 state0).1
      (chain3_scenario 28)⟩

theorem c4_counterexample :
    Scenario3 (chain3 28) 28
      ∧ ¬ ExpectedCalls 28
          (alloc_calls (network_run (chain3 28) board0 0 (network_setup board0 state0).1).trace) := by
  refine ⟨chain3_scenario 28, ?_⟩
  have h : alloc_calls (network_run (chain3 28) board0 0 (network_setup board0 state0).1).trace
      = [Call.alloc 100 1, Call.alloc 40 1, Call.alloc 200 0,
         Call.free 40 1, Call.free 100 1, Call.alloc 150 1, Call.alloc 60 1,
         Call.free 200 0, Call.alloc 28 0] := by decide
  rw [h]
  rintro ⟨s1, s2, s3, s4, s5, s6, s7, s8, rest, heq, -⟩
  simp at heq

/-! ## C5: execution lags the prefetch by one weight slot -/

/-- Where section 1 pre-allocates the second weight slot exactly when layer 1 has
weights, execution lags the prefetch by one slot.  The `exec_weights` pointer
in slot 6 of the argument vector of layer 0 is the destination of the read of section 1;
and for every layer `i+1` whose weights are prefetched (`allocate_layer[i+1] = 1`), the
read issued in iteration `i` goes to the `transfer_weights` of that moment and slot 6 of
the argument vector of layer `i+1` is that same pointer. -/
theorem exec_lags_prefetch (c : Chain) (b : Board) (s : State)
    (h : SecondSlotMatches c) :
    (∃ pre : List Event,
        (s1_weights c (s1_input c (section0 c b 0 s))).trace
          = pre ++ [Event.read ((s1_weights c (s1_input c (section0 c b 0 s))).get
                        .L3_weights_internal)
                      ((s1_weights c (s1_input c (section0 c b 0 s))).get .transfer_weights)
                      c.weights0_dim,
                    Event.wait])
      ∧ (kernel_args c b 0 (at_kernel c b 0 s 0)).getD 6 0
          = (s1_weights c (s1_input c (section0 c b 0 s))).get .transfer_weights
      ∧ ∀ i : Nat, i + 1 < c.N → c.allocate_layer ((i : Int) + 1) = 1 →
          (∃ pre post : List Event,
              (at_kernel c b 0 s i).trace
                = pre ++ [Event.read ((at_iteration c b 0 s i).get .L3_weights_internal
                            + c.cumulative_weights_dimension ((i : Int) + 1))
                          ((at_iteration c b 0 s i).get .transfer_weights)
                          (c.check_weights_dimension ((i : Int) + 1))] ++ post
              ∧ (post = [] ∨ post = [Event.wait]))
            ∧ (kernel_args c b (i + 1) (at_kernel c b 0 s (i + 1))).getD 6 0
                = (at_iteration c b 0 s i).get .transfer_weights := by
  refine ⟨?_, ?_, ?_⟩
  · refine ⟨(s1_input c (section0 c b 0 s)).trace
      ++ [Event.alloc c.weights0_dim ((s1_input c (section0 c b 0 s)).get .begin_end_n)
          (dory_L2_alloc ((s1_input c (section0 c b 0 s)).get .L2_buffer_allocation)
            ((s1_input c (section0 c b 0 s)).get .L2_buffer_allocation_end) c.weights0_dim
            ((s1_input c (section0 c b 0 s)).get .begin_end_n)).2.2
          (dory_L2_alloc ((s1_input c (section0 c b 0 s)).get .L2_buffer_allocation)
            ((s1_input c (section0 c b 0 s)).get .L2_buffer_allocation_end) c.weights0_dim
            ((s1_input c (section0 c b 0 s)).get .begin_end_n)).1
          (dory_L2_alloc ((s1_input c (section0 c b 0 s)).get .L2_buffer_allocation)
            ((s1_input c (section0 c b 0 s)).get .L2_buffer_allocation_end) c.weights0_dim
            ((s1_input c (section0 c b 0 s)).get .begin_end_n)).2.1], ?_⟩
    generalize s1_input c (section0 c b 0 s) = t
    simp [s1_weights, trace_do_wait, trace_do_read, trace_alloc_into]
  · rw [args_slot6]
    unfold at_kernel at_iteration
    rw [get_before_kernel _ _ _ _ (by decide)]
    simp only [iterations, loop_entry, section1_tail, section1_head, if_true]
    generalize s1_input c (section0 c b 0 s) = t
    by_cases h2 : c.second_weights = true <;>
    simp [s1_flip, s1_second, s1_output, s1_weights, h2]
  · intro i hi ha
    constructor
    · obtain ⟨pre, post, h1, -, h3⟩ := prefetch_trace c i (at_iteration c b 0 s i) hi ha
      refine ⟨(at_iteration c b 0 s i).trace ++ pre, post, ?_, h3⟩
      unfold at_kernel
      rw [trace_before_kernel, h1]
    · rw [args_slot6]
      unfold at_kernel
      rw [get_before_kernel _ _ _ _ (by decide)]
      exact exec_follows_transfer c b s h i hi

/-- C5, at the failing input: in the 2-layer chain whose layer 1 is a `MatMul` node,
which has weights (`layer_with_weights[1] = 1`, `allocate_layer[1] = 1`) while the
template condition of line 662 emits no second slot, the calls up to the kernel of layer 0
are: the section-1 read into `L2_weights_1` (1100), waited for, and the read of iteration 0
for the weights of layer 1 into the same address 1100, the slot layer 0 executes from;
no second weight slot is allocated, and the `exec_weights` pointer in slot 6 of the
argument vector of layer 1 is `L2_weights_2`, never assigned (null), not the destination
1100 of that read. -/
theorem c5_matmul_slot_missing :
    1 < chain_mm.N ∧ chain_mm.allocate_layer 1 = 1 ∧ chain_mm.layer_with_weights 1 = 1
      ∧ chain_mm.second_weights = false
      ∧ (at_kernel chain_mm board0 0 (network_setup board0 state0).1 0).trace
          = [Event.l1_malloc 1000, Event.alloc 100 1 1000 1100 411000,
             Event.alloc 40 1 1100 1140 411000, Event.read 2000000 1100 40, Event.wait,
             Event.alloc 200 0 410800 1140 410800, Event.read 2000040 1100 60]
      ∧ (kernel_args chain_mm board0 0
            (at_kernel chain_mm board0 0 (network_setup board0 state0).1 0)).getD 6 0 = 1100
      ∧ (kernel_args chain_mm board0 1
            (at_kernel chain_mm board0 0 (network_setup board0 state0).1 1)).getD 6 0 = 0 := by
  refine ⟨by decide, rfl, rfl, rfl, by decide, by decide, by decide⟩
/-! ## C6: the execution slot and the transfer slot differ -/

/-- Where section 1 pre-allocates the second weight slot exactly when layer 1 has
weights, in every iteration `i` that prefetches the weights of a layer `i+1` with
weights, the two toggles differ at the moment the read is issued and while kernel
`i` runs, `exec_weights` is the slot variable selected by `d_buffering_weights_e`,
`transfer_weights` (the destination of the read) is the one selected by
`d_buffering_weights_t`, and the two pointers differ exactly when the two slot variables
hold different addresses. -/
theorem toggles_differ (c : Chain) (b : Board) (s : State) (h : SecondSlotMatches c)
    (i : Nat) (hi : i + 1 < c.N) (ha : c.allocate_layer ((i : Int) + 1) = 1)
    (hw : c.layer_with_weights ((i : Int) + 1) = 1) :
    (at_kernel c b 0 s i).get .d_buffering_weights_e
        ≠ (at_kernel c b 0 s i).get .d_buffering_weights_t
      ∧ (at_kernel c b 0 s i).get .exec_weights
          = pick ((at_kernel c b 0 s i).get .d_buffering_weights_e)
              ((at_kernel c b 0 s i).get .L2_weights_1)
              ((at_kernel c b 0 s i).get .L2_weights_2)
      ∧ (at_kernel c b 0 s i).get .transfer_weights
          = pick ((at_kernel c b 0 s i).get .d_buffering_weights_t)
              ((at_kernel c b 0 s i).get .L2_weights_1)
              ((at_kernel c b 0 s i).get .L2_weights_2)
      ∧ ((at_kernel c b 0 s i).get .exec_weights ≠ (at_kernel c b 0 s i).get .transfer_weights
          ↔ (at_kernel c b 0 s i).get .L2_weights_1 ≠ (at_kernel c b 0 s i).get .L2_weights_2)
      ∧ ∃ (pre post : List Event) (src size : Int),
          (at_kernel c b 0 s i).trace
            = pre ++ [Event.read src ((at_kernel c b 0 s i).get .transfer_weights) size]
              ++ post := by
  have hinv := slotInv_at c b s h i (by omega)
  have hk : ∀ x : Var, (x ≠ .out_mult ∧ x ≠ .out_shift ∧ x ≠ .inmul1 ∧ x ≠ .inmul2) →
      (at_kernel c b 0 s i).get x = (at_iteration c b 0 s i).get x :=
    fun x hx => get_before_kernel c i _ x hx
  rw [hk _ (by decide), hk _ (by decide), hk _ (by decide), hk _ (by decide),
    hk _ (by decide), hk _ (by decide)]
  obtain ⟨he, hex, htr, ht⟩ := hinv
  simp only [slots, hi, hw, and_self, if_true] at he hex htr ht
  refine ⟨?_, hex, htr, ?_, ?_⟩
  · rw [ht]
    rcases he with he | he <;> simp [he, lnot]
  · rw [hex, htr, ht]
    rcases he with he | he <;> simp [he, lnot, pick, eq_comm]
  · obtain ⟨pre, post, h1, -, -⟩ := prefetch_trace c i (at_iteration c b 0 s i) hi ha
    refine ⟨(at_iteration c b 0 s i).trace ++ pre, post,
      (at_iteration c b 0 s i).get .L3_weights_internal
        + c.cumulative_weights_dimension ((i : Int) + 1),
      c.check_weights_dimension ((i : Int) + 1), ?_⟩
    unfold at_kernel
    rw [trace_before_kernel, h1]

/-- C6, at the failing input: in the 2-layer chain whose layer 1 is a `MatMul` node with
weights, for which line 662 emits no second slot, iteration 0 has a layer 0 with weights
and issues the prefetch for layer 1, and both toggles are 0 while kernel 0 runs:
`exec_weights` and `transfer_weights` are the same address 1100 (`L2_weights_1`), and the
read of iteration 0 is issued into it. -/
theorem c6_same_slot :
    chain_mm.layer_with_weights 0 = 1 ∧ 1 < chain_mm.N ∧ chain_mm.allocate_layer 1 = 1
      ∧ chain_mm.layer_with_weights 1 = 1 ∧ chain_mm.second_weights = false
      ∧ (at_kernel chain_mm board0 0 (network_setup board0 state0).1 0).get
          .d_buffering_weights_e = 0
      ∧ (at_kernel chain_mm board0 0 (network_setup board0 state0).1 0).get
          .d_buffering_weights_t = 0
      ∧ (at_kernel chain_mm board0 0 (network_setup board0 state0).1 0).get .exec_weights
          = 1100
      ∧ (at_kernel chain_mm board0 0 (network_setup board0 state0).1 0).get .transfer_weights
          = 1100
      ∧ (at_kernel chain_mm board0 0 (network_setup board0 state0).1 0).trace
          = (at_iteration chain_mm board0 0 (network_setup board0 state0).1 0).trace
            ++ [Event.read 2000040 1100 60] := by
  refine ⟨rfl, by decide, rfl, rfl, rfl, by decide, by decide, by decide, by decide,
    by decide⟩
/-! ## C7: at most one outstanding transfer -/

/-- C7, at the failing input: in the 4-layer chain `chain_gap` the read of iteration 0
(weights of layer 1) is never waited for, and the read of iteration 2 (weights of layer
3) is issued on the same request handle while it is still outstanding. -/
theorem c7_read_while_outstanding :
    transfers (network_run chain_gap board0 0 (network_setup board0 state0).1).trace
        = [Event.read 2000000 1100 40, Event.wait, Event.read 2000040 410740 60,
           Event.read 2000100 410830 50]
      ∧ ¬ OneOutstanding (network_run chain_gap board0 0 (network_setup board0 state0).1).trace := by
  refine ⟨by decide, ?_⟩
  unfold OneOutstanding
  decide

/-! ## C8: where the wait on the previous transfer is placed -/

/-- In an iteration `j+1 > 0` that issues a prefetch, the wait of the iteration is
placed by the residency of the previous layer `j`.  If layer `j` is not
off-chip-resident the iteration waits immediately before its read.  If it is, the
iteration issues its read without a wait of its own; in that case, when iteration `j`
issued a prefetch too, that read was waited for right after it was issued, so it is
complete before the next read is issued. -/
theorem prefetch_wait_placement (c : Chain) (b : Board) (s : State) (j : Nat) (hj : j + 2 < c.N)
    (ha : c.allocate_layer ((j : Int) + 2) = 1) :
    (c.L3_layers j = 0 →
        ∃ (src dst size : Int) (post : List Event),
          (at_kernel c b 0 s (j + 1)).trace
            = (at_iteration c b 0 s (j + 1)).trace
              ++ [Event.wait, Event.read src dst size] ++ post)
      ∧ (c.L3_layers j ≠ 0 →
          ∃ (src dst size : Int) (post : List Event),
            (at_kernel c b 0 s (j + 1)).trace
              = (at_iteration c b 0 s (j + 1)).trace ++ [Event.read src dst size] ++ post)
      ∧ (c.L3_layers j = 1 → c.allocate_layer ((j : Int) + 1) = 1 →
          ∃ (pre : List Event) (src dst size : Int),
            transfers (at_iteration c b 0 s (j + 1)).trace
              = pre ++ [Event.read src dst size, Event.wait]) := by
  have ha' : c.allocate_layer ((j : Int) + 1 + 1) = 1 := by
    rw [show (j : Int) + 1 + 1 = (j : Int) + 2 by ring]
    exact ha
  have h1 : j + 1 + 1 < c.N := hj
  refine ⟨fun h0 => ?_, fun h0 => ?_, fun h3 ha1 => ?_⟩
  · refine ⟨(at_iteration c b 0 s (j + 1)).get .L3_weights_internal
        + c.cumulative_weights_dimension ((j : Int) + 1 + 1),
      (at_iteration c b 0 s (j + 1)).get .transfer_weights,
      c.check_weights_dimension ((j : Int) + 1 + 1),
      if c.L3_layers ((j : Int) + 1) = 1 then [Event.wait] else [], ?_⟩
    by_cases h2 : c.L3_layers ((j : Int) + 1) = 1 <;>
    simp [at_kernel, trace_before_kernel, prefetch, h1, ha', h0, h2, trace_do_read,
      trace_do_wait]
  · refine ⟨(at_iteration c b 0 s (j + 1)).get .L3_weights_internal
        + c.cumulative_weights_dimension ((j : Int) + 1 + 1),
      (at_iteration c b 0 s (j + 1)).get .transfer_weights,
      c.check_weights_dimension ((j : Int) + 1 + 1),
      if c.L3_layers ((j : Int) + 1) = 1 then [Event.wait] else [], ?_⟩
    by_cases h2 : c.L3_layers ((j : Int) + 1) = 1 <;>
    simp [at_kernel, trace_before_kernel, prefetch, h1, ha', h0, h2, trace_do_read,
      trace_do_wait]
  · have h4 : j + 1 < c.N := by omega
    rw [at_iteration_succ, transfers_layer]
    refine ⟨transfers (at_iteration c b 0 s j).trace
        ++ (if c.L3_layers ((j : Int) - 1) = 0 ∧ 0 < j then [Event.wait] else []),
      (at_iteration c b 0 s j).get .L3_weights_internal
        + c.cumulative_weights_dimension ((j : Int) + 1),
      (at_iteration c b 0 s j).get .transfer_weights,
      c.check_weights_dimension ((j : Int) + 1), ?_⟩
    by_cases h5 : c.L3_layers ((j : Int) - 1) = 0 ∧ 0 < j <;>
    simp [prefetch, h4, ha1, h3, h5, trace_do_read, trace_do_wait, transfers_append,
      transfers, Event.is_transfer]

/-- C8, at the failing input: in the 4-layer chain with `L3_layers = {0,1,0,0}` and
`allocate_layer = {1,1,0,1}`, iteration 2 issues a prefetch and its previous layer 1 is
off-chip-resident; iteration 1 issued no prefetch, so the transfers before iteration 2
are the section-1 read, its wait, and the read of iteration 0, still not waited for; and
iteration 2 issues its read with no wait before it. -/
theorem c8_no_wait_before_read :
    0 < 2 ∧ 2 + 1 < chain_gap.N ∧ chain_gap.allocate_layer (2 + 1) = 1
      ∧ chain_gap.L3_layers (2 - 1) = 1 ∧ chain_gap.allocate_layer 2 = 0
      ∧ transfers (at_iteration chain_gap board0 0 (network_setup board0 state0).1 2).trace
          = [Event.read 2000000 1100 40, Event.wait, Event.read 2000040 410740 60]
      ∧ (at_kernel chain_gap board0 0 (network_setup board0 state0).1 2).trace
          = (at_iteration chain_gap board0 0 (network_setup board0 state0).1 2).trace
            ++ [Event.read 2000100 410830 50] := by
  refine ⟨by decide, by decide, rfl, rfl, rfl, by decide, by decide⟩
/-! ## C9: the branch scenario -/

/-- What the code does in a chain of at least 7 layers whose only branch flags are
`branch_change` at layer 2 and `branch_input` at layer 5: the output of layer 2 is
recorded at the completion of layer 2 (`keeping = 1`, `activation_to_keep` = output of
layer 2, on the end side); it is held through the kernel invocations of layers 3 and 4
(`keeping = 1`, same pointer; iteration 3 frees nothing but the weights of layer 3 and the
frees of iteration 4 are on the begin side); the bookkeeping of layer 4 makes it the
output buffer of the merge layer and clears `keeping`, so that layer 5 is invoked with
`keeping = 0`, `activation_to_keep` in its output argument (slot 5) and the null
`bypass_activations` in its bypass-input argument (slot 4); and `keeping = 0` after the
bookkeeping of layer 5. -/
theorem scenario9_pass (c : Chain) (b : Board) (s : State) (h : Scenario9 c) :
    ((at_iteration c b 0 s 3).get .keeping = 1
        ∧ (at_iteration c b 0 s 3).get .activation_to_keep
            = (at_kernel c b 0 s 2).get .L2_output
        ∧ (at_iteration c b 0 s 3).get .bypass_side_keep = 0)
      ∧ ((at_kernel c b 0 s 3).get .keeping = 1
        ∧ (at_kernel c b 0 s 3).get .activation_to_keep = (at_kernel c b 0 s 2).get .L2_output
        ∧ (at_kernel c b 0 s 4).get .keeping = 1
        ∧ (at_kernel c b 0 s 4).get .activation_to_keep
            = (at_kernel c b 0 s 2).get .L2_output)
      ∧ (alloc_calls (at_iteration c b 0 s 4).trace
            = alloc_calls (at_iteration c b 0 s 3).trace
              ++ (if c.layer_with_weights 3 = 1 then
                    [Call.free (c.check_weights_dimension 3) 0] else [])
              ++ [Call.alloc (c.check_activations_out_dimension 4) 0]
              ++ (if c.layer_with_weights 5 = 1 then
                    [Call.alloc (c.check_weights_dimension 5) 0] else [])
        ∧ alloc_calls (at_iteration c b 0 s 5).trace
            = alloc_calls (at_iteration c b 0 s 4).trace
              ++ (if c.layer_with_weights 4 = 1 then
                    [Call.free (c.check_weights_dimension 4) 1] else [])
              ++ [Call.free (c.check_activations_dimension 4) 1]
              ++ (if c.layer_with_weights 6 = 1 then
                    [Call.alloc (c.check_weights_dimension 6) 1] else []))
      ∧ ((at_kernel c b 0 s 5).get .keeping = 0
        ∧ (kernel_args c b 5 (at_kernel c b 0 s 5)).getD 4 0 = 0
        ∧ (kernel_args c b 5 (at_kernel c b 0 s 5)).getD 5 0
            = (at_kernel c b 0 s 5).get .activation_to_keep
        ∧ (at_kernel c b 0 s 5).get .activation_to_keep
            = (at_kernel c b 0 s 2).get .L2_output)
      ∧ (at_iteration c b 0 s 6).get .keeping = 0 := by
  obtain ⟨t3, t4, t5, hb, t6⟩ := scenario9_states c b s h
  have hcalls := scenario9_calls c b s h
  obtain ⟨hN, hf⟩ := h
  have f4 := hf 4 (by omega)
  have f5 := hf 5 (by omega)
  simp at f4 f5
  have hk : ∀ (k : Nat) (x : Var),
      (x ≠ .out_mult ∧ x ≠ .out_shift ∧ x ≠ .inmul1 ∧ x ≠ .inmul2) →
      (at_kernel c b 0 s k).get x = (at_iteration c b 0 s k).get x :=
    fun k x hx => get_before_kernel c k _ x hx
  have k5 : (at_kernel c b 0 s 5).get .keeping = 0 := by
    rw [hk 5 _ (by decide)]; exact t5.2.2.1
  have b5 : (at_kernel c b 0 s 5).get .bypass_activations = 0 := by
    rw [hk 5 _ (by decide)]; exact hb
  refine ⟨⟨t3.2.2.2.2.1, ?_, t3.2.2.2.2.2.2⟩, ⟨?_, ?_, ?_, ?_⟩, hcalls, ⟨k5, ?_, ?_, ?_⟩, t6⟩
  · rw [hk 2 _ (by decide)]; exact t3.2.2.2.2.2.1
  · rw [hk 3 _ (by decide)]; exact t3.2.2.2.2.1
  · rw [hk 3 _ (by decide), hk 2 _ (by decide)]; exact t3.2.2.2.2.2.1
  · rw [hk 4 _ (by decide)]; exact t4.2.2.2.2.1
  · rw [hk 4 _ (by decide), hk 2 _ (by decide)]; exact t4.2.2.2.2.2.1
  · simp [kernel_args, f4, f5, k5, b5, List.getD]
  · have e1 : (at_kernel c b 0 s 5).get .L2_output
        = (at_kernel c b 0 s 5).get .activation_to_keep := by
      rw [hk 5 _ (by decide), hk 5 _ (by decide), t5.2.2.2.1, t5.2.2.2.2]
    simp [kernel_args, f4, f5, k5, List.getD, e1]
  · rw [hk 5 _ (by decide), hk 2 _ (by decide)]; exact t5.2.2.2.1

/-- C9, at the failing input: in the 7-layer chain with a branch-change at layer 2 and
a merge at layer 5, the output of layer 2 (410880) is kept through the kernels of layers
3 and 4 (`keeping = 1`), but the bookkeeping of layer 4 clears `keeping` before the merge
runs: the kernel of layer 5 is called with `keeping = 0`, the null `bypass_activations`
as its bypass-input argument (slot 4) and the kept activation only as its output argument
(slot 5), so the kept activation is not consumed at layer 5. -/
theorem c9_kept_activation_not_consumed :
    Scenario9 chain9
      ∧ (at_iteration chain9 board0 0 (network_setup board0 state0).1 3).get .keeping = 1
      ∧ (at_kernel chain9 board0 0 (network_setup board0 state0).1 2).get .L2_output
          = 410880
      ∧ (at_kernel chain9 board0 0 (network_setup board0 state0).1 4).get .keeping = 1
      ∧ (at_kernel chain9 board0 0 (network_setup board0 state0).1 4).get .activation_to_keep
          = 410880
      ∧ (at_kernel chain9 board0 0 (network_setup board0 state0).1 5).get .activation_to_keep
          = 410880
      ∧ (at_kernel chain9 board0 0 (network_setup board0 state0).1 5).get .keeping = 0
      ∧ kernel_args chain9 board0 5
            (at_kernel chain9 board0 0 (network_setup board0 state0).1 5)
          = [7000000, 5000000, 2000070, 410790, 0, 410880, 410770, 16, 8, 0, 0, 0, 0] := by
  refine ⟨chain9_scenario, by decide, by decide, by decide, by decide, by decide, by decide,
    by decide⟩
/-! ## C10: the bypass input of a merge layer without a branch -/

/-- C10 (as amended): when a merge layer `i` (`branch_input[i] = 1`) is reached with no
preserved activation (`keeping = 0`) and no branch-output layer before it, the
bypass-input argument (slot 4) passed to its kernel is `bypass_activations`, which is
still the null pointer that section 0 stored in it. -/
theorem c10_merge_bypass_is_null (c : Chain) (b : Board) (s : State) (i : Nat)
    (hm : c.branch_input i = 1) (hk : (at_kernel c b 0 s i).get .keeping = 0)
    (hno : ∀ j : Nat, j < i → c.branch_output j ≠ 1) :
    (kernel_args c b i (at_kernel c b 0 s i)).getD 4 0
        = (at_kernel c b 0 s i).get .bypass_activations
      ∧ (at_kernel c b 0 s i).get .bypass_activations = 0 := by
  have h0 := bypass_activations_null c b s i hno
  have h1 : (at_kernel c b 0 s i).get .bypass_activations = 0 := by
    unfold at_kernel
    rw [get_before_kernel _ _ _ _ (by decide)]
    exact h0
  refine ⟨?_, h1⟩
  simp [kernel_args, hm, hk, List.getD]

theorem c10_merge_bypass_is_null_witness :
    chain_merge.branch_input ((2 : Nat) : Int) = 1
      ∧ (at_kernel chain_merge board0 0 (network_setup board0 state0).1 2).get .keeping = 0
      ∧ (∀ j : Nat, j < 2 → chain_merge.branch_output j ≠ 1)
      ∧ (kernel_args chain_merge board0 2
            (at_kernel chain_merge board0 0 (network_setup board0 state0).1 2)).getD 4 0 = 0 := by
  have hno : ∀ j : Nat, j < 2 → chain_merge.branch_output j ≠ 1 := by
    intro j hj
    interval_cases j <;> decide
  have h := c10_merge_bypass_is_null chain_merge board0 (network_setup board0 state0).1 2 rfl
    (by decide) hno
  exact ⟨rfl, by decide, hno, h.1.trans h.2⟩

theorem c10_counterexample :
    1 < chain_merge.N ∧ chain_merge.branch_input 1 = 1
      ∧ chain_merge.branch_output 0 = 0
      ∧ (at_kernel chain_merge board0 0 (network_setup board0 state0).1 1).get .keeping = 0
      ∧ kernel_args chain_merge board0 1
            (at_kernel chain_merge board0 0 (network_setup board0 state0).1 1)
          = [7000000, 5000000, 2000040, 410800, 0, 1000, 1100, 16, 8, 0, 0, 0, 0] := by
  refine ⟨by decide, rfl, rfl, by decide, by decide⟩

/-! ## C11: the output buffer of a merge layer -/

/-- C11 (as amended): when the output of a merge layer `i+1` is set up while an activation
is kept (`keeping = 1`), no allocator call is made for it.  If the kept side coincides
with the current side (`bypass_side_keep == begin_end_n`) the output buffer is the input
buffer of the merge layer (`L2_input`, the output of layer `i`); the merge layer is then
called with `keeping = 1` and the kept activation as its bypass input, and, when it is not
the last layer and no bypass buffer is in use as an output, the kept activation is freed,
and `keeping` cleared, only after the merge layer has run: its bookkeeping frees its
weights, does not free its input, frees the kept activation and clears `keeping`.
Otherwise the output buffer is the storage of the kept activation
(`activation_to_keep`). -/
theorem c11_merge_output_reuse (c : Chain) (b : Board) (s : State) (i : Nat)
    (hi : i + 1 < c.N) (hm : c.branch_input ((i : Int) + 1) = 1)
    (hk : (at_output c b s i).get .keeping = 1) :
    (bk_output c i (at_output c b s i)).trace = (at_output c b s i).trace
      ∧ ((at_output c b s i).get .bypass_side_keep = (at_output c b s i).get .begin_end_n →
          (at_iteration c b 0 s (i + 1)).get .L2_output = (at_output c b s i).get .L2_input
            ∧ (at_kernel c b 0 s (i + 1)).get .keeping = 1
            ∧ (kernel_args c b (i + 1) (at_kernel c b 0 s (i + 1))).getD 4 0
                = (at_output c b s i).get .activation_to_keep
            ∧ (i + 2 < c.N → (at_output c b s i).get .bypass_used_as_out ≠ 1 →
                (∃ post : List Call,
                  alloc_calls (at_iteration c b 0 s (i + 2)).trace
                    = alloc_calls (at_iteration c b 0 s (i + 1)).trace
                      ++ (if c.layer_with_weights ((i : Int) + 1) = 1 then
                            [Call.free (c.check_weights_dimension ((i : Int) + 1))
                              ((at_output c b s i).get .begin_end_n)] else [])
                      ++ [Call.free ((at_output c b s i).get .activation_dimension)
                            ((at_output c b s i).get .begin_end_n)]
                      ++ post)
                  ∧ (¬ c.branch_change ((i : Int) + 1) = 1 →
                      (at_output c b s (i + 1)).get .keeping = 0)))
      ∧ ((at_output c b s i).get .bypass_side_keep ≠ (at_output c b s i).get .begin_end_n →
          (at_iteration c b 0 s (i + 1)).get .L2_output
              = (at_output c b s i).get .activation_to_keep) := by
  have ho := merge_output c i (at_output c b s i) hm hk
  have hq := at_iteration_output c b s i hi
  have hkk : ∀ x : Var, (x ≠ .out_mult ∧ x ≠ .out_shift ∧ x ≠ .inmul1 ∧ x ≠ .inmul2) →
      (at_kernel c b 0 s (i + 1)).get x = (at_iteration c b 0 s (i + 1)).get x :=
    fun x hx => get_before_kernel c (i + 1) _ x hx
  have hm1 : c.branch_input ((i + 1 : Nat) : Int) = 1 := by
    simp only [Nat.cast_add, Nat.cast_one]; exact hm
  have h4 := args_slot4 c b (i + 1) (at_kernel c b 0 s (i + 1))
  have h01 : (at_output c b s i).get .begin_end_n = 0
      ∨ (at_output c b s i).get .begin_end_n = 1 := by
    rw [side_at_output]; exact side_at c b s i
  generalize at_output c b s i = p at ho hq hk h01 ⊢
  refine ⟨?_, ?_, ?_⟩
  · rw [ho]; split <;> simp
  · intro hs
    rw [if_pos hs] at ho
    have fr := fun x h => next_weights_frame c i (bk_output c i p) x h
    have q1 : (at_iteration c b 0 s (i + 1)).get .L2_output = p.get .L2_input := by
      rw [hq, fr _ (by decide), ho]; simp
    have q2 : (at_iteration c b 0 s (i + 1)).get .keeping = 1 := by
      rw [hq, fr _ (by decide), ho]; simpa using hk
    have q3 : (at_iteration c b 0 s (i + 1)).get .activation_to_keep
        = p.get .activation_to_keep := by
      rw [hq, fr _ (by decide), ho]; simp
    have k2 : (at_kernel c b 0 s (i + 1)).get .keeping = 1 := by
      rw [hkk _ (by decide)]; exact q2
    refine ⟨q1, k2, ?_, ?_⟩
    · rw [h4, if_pos ⟨hm1, k2⟩, hkk _ (by decide)]; exact q3
    · intro hi2 hbu
      have q4 : (at_iteration c b 0 s (i + 1)).get .input_used_as_out = 1 := by
        rw [hq, fr _ (by decide), ho]; simp
      have q5 : (at_iteration c b 0 s (i + 1)).get .bypass_side_keep
          = p.get .bypass_side_keep := by
        rw [hq, fr _ (by decide), ho]; simp
      have q6 : (at_iteration c b 0 s (i + 1)).get .bypass_used_as_out
          = p.get .bypass_used_as_out := by
        rw [hq, fr _ (by decide), ho]; simp
      have q7 : (at_iteration c b 0 s (i + 1)).get .activation_dimension
          = p.get .activation_dimension := by
        rw [hq, fr _ (by decide), ho]; simp
      have q8 : (at_iteration c b 0 s (i + 1)).get .begin_end_n = p.get .begin_end_n := by
        rw [hq, next_weights_side c i (bk_output c i p) hi2 hm
          (by rw [ho]; simpa using hk) (by rw [ho]; simpa using hs)
          (by rw [ho]; simpa using h01), ho]
        simp
      have hr := release_after_merge c b (i + 1) (at_iteration c b 0 s (i + 1)) (by omega)
        hm1 q2 q4 (by rw [q5, q8]; exact hs) (by rw [q6]; exact hbu)
      rw [q7, q8] at hr
      simp only [Nat.cast_add, Nat.cast_one] at hr
      have hl : at_iteration c b 0 s (i + 2)
          = bk_side (bk_next_weights c (i + 1) (bk_output c (i + 1) (bk_input
              (bk_bypass c (i + 1) (bk_keep c (i + 1) (bk_free_bypass c (i + 1)
                (bk_free_keep (bk_free_input c (i + 1) (bk_exec c (i + 1)
                  (bk_free_weights c (i + 1) (bk_valid c (i + 1)
                    (set_keep_index c (i + 1) (swap_L3 (invoke c b (i + 1)
                      (before_kernel c 0 (i + 1)
                        (at_iteration c b 0 s (i + 1))))))))))))))))) := by
        rw [at_iteration_succ, layer_inner c b (i + 1) _ (by omega)]
        rfl
      have ho1 : at_output c b s (i + 1)
          = bk_input (bk_bypass c (i + 1) (bk_keep c (i + 1) (bk_free_bypass c (i + 1)
              (bk_free_keep (bk_free_input c (i + 1) (bk_exec c (i + 1)
                (bk_free_weights c (i + 1) (bk_valid c (i + 1)
                  (set_keep_index c (i + 1) (swap_L3 (invoke c b (i + 1)
                    (before_kernel c 0 (i + 1)
                      (at_iteration c b 0 s (i + 1)))))))))))))) := rfl
      generalize bk_free_keep (bk_free_input c (i + 1) (bk_exec c (i + 1)
        (bk_free_weights c (i + 1) (bk_valid c (i + 1)
          (set_keep_index c (i + 1) (swap_L3 (invoke c b (i + 1)
            (before_kernel c 0 (i + 1) (at_iteration c b 0 s (i + 1))))))))))
        = h at hr hl ho1
      refine ⟨?_, ?_⟩
      · obtain ⟨post, hp⟩ := alloc_calls_of_callsOnly (callsOnly_tail c (i + 1) h)
        rw [← hl] at hp
        exact ⟨post, by rw [hp, hr.1]⟩
      · intro hc
        have hc1 : ¬ c.branch_change ((i + 1 : Nat) : Int) = 1 := by
          simp only [Nat.cast_add, Nat.cast_one]; exact hc
        rw [ho1, head_keeping c (i + 1) h hc1]
        exact hr.2
  · intro hs
    rw [if_neg hs] at ho
    have fr := fun x h => next_weights_frame c i (bk_output c i p) x h
    rw [hq, fr _ (by decide), ho]; simp

theorem c11_merge_output_reuse_witness :
    3 + 1 < chain_even.N ∧ chain_even.branch_input (((3 : Nat) : Int) + 1) = 1
      ∧ (at_output chain_even board0 (network_setup board0 state0).1 3).get .keeping = 1
      ∧ (at_output chain_even board0 (network_setup board0 state0).1 3).get .bypass_side_keep
          = (at_output chain_even board0 (network_setup board0 state0).1 3).get .begin_end_n
      ∧ (at_iteration chain_even board0 0 (network_setup board0 state0).1 (3 + 1)).get
          .L2_output
          = (at_output chain_even board0 (network_setup board0 state0).1 3).get .L2_input
      ∧ (at_kernel chain_even board0 0 (network_setup board0 state0).1 (3 + 1)).get .keeping = 1
      ∧ (at_output chain_even board0 (network_setup board0 state0).1 (3 + 1)).get .keeping
          = 0 :=
  ⟨by decide, by decide, by decide, by decide,
    ((c11_merge_output_reuse chain_even board0 (network_setup board0 state0).1 3 (by decide)
      (by decide) (by decide)).2.1 (by decide)).1,
    ((c11_merge_output_reuse chain_even board0 (network_setup board0 state0).1 3 (by decide)
      (by decide) (by decide)).2.1 (by decide)).2.1,
    ((((c11_merge_output_reuse chain_even board0 (network_setup board0 state0).1 3 (by decide)
      (by decide) (by decide)).2.1 (by decide)).2.2.2 (by decide) (by decide)).2 (by decide))⟩

theorem c11_counterexample :
    (chain_even.branch_input 4 = 1
        ∧ (at_output chain_even board0 (network_setup board0 state0).1 3).get .keeping = 1
        ∧ (at_output chain_even board0 (network_setup board0 state0).1 3).get .bypass_side_keep
            = 0
        ∧ (at_output chain_even board0 (network_setup board0 state0).1 3).get .begin_end_n = 0
        ∧ (at_output chain_even board0 (network_setup board0 state0).1 3).get
            .activation_to_keep = 410880
        ∧ (at_output chain_even board0 (network_setup board0 state0).1 3).get .L2_input = 1000
        ∧ (at_iteration chain_even board0 0 (network_setup board0 state0).1 4).get .L2_output
            = 1000)
      ∧ (chain9.branch_input 5 = 1
        ∧ (at_output chain9 board0 (network_setup board0 state0).1 4).get .keeping = 1
        ∧ (at_output chain9 board0 (network_setup board0 state0).1 4).get .bypass_side_keep = 0
        ∧ (at_output chain9 board0 (network_setup board0 state0).1 4).get .begin_end_n = 1
        ∧ (at_output chain9 board0 (network_setup board0 state0).1 4).get .L2_input = 410790
        ∧ (at_iteration chain9 board0 0 (network_setup board0 state0).1 5).get .L2_output
            = 410880
        ∧ (at_kernel chain9 board0 0 (network_setup board0 state0).1 5).get .keeping = 0) := by
  refine ⟨⟨by decide, by decide, by decide, by decide, by decide, by decide, by decide⟩,
    ⟨by decide, by decide, by decide, by decide, by decide, by decide, by decide⟩⟩

/-! ## C12: the substitution of the bypass addresses -/

/-- C14 (as amended): in a pass of a chain of at least one layer that is not left at line
667 (`if(L2_output == NULL) return -1;`), core 0
writes `ResOut` once: the trace of the pass is the trace up to the last iteration, which
has no write to `ResOut`, then the kernel call of layer `N-1`, then the seven writes
`ResOut[0..6]`, then the release of the L1 buffer; the values are the words at byte
offsets `4*k` of `L2_output`, the buffer passed to the last kernel as its output (slot
5), in the memory as that kernel left it, and they are the contents of `ResOut` after the
pass.  A core other than core 0 writes nothing to `ResOut`. -/
theorem c14_result_extraction (c : Chain) (b : Board) (s : State) (hN : 0 < c.N)
    (hr : returns_early c b 0 s = false) :
    ((network_run c b 0 s).trace
        = (at_iteration c b 0 s (c.N - 1)).trace
          ++ [Event.kernel (c.N - 1)
                (kernel_args c b (c.N - 1) (at_kernel c b 0 s (c.N - 1)))]
          ++ (List.range 7).map (fun k => Event.resout k
                ((network_run c b 0 s).mem
                  ((network_run c b 0 s).get .L2_output + 4 * (k : Int))))
          ++ [Event.l1_free ((network_run c b 0 s).get .l1_buffer) c.l1_buffer_size]
      ∧ resouts (at_iteration c b 0 s (c.N - 1)).trace = [])
      ∧ resouts (network_run c b 0 s).trace
          = (List.range 7).map (fun k : Nat =>
              ((k, (network_run c b 0 s).mem
                    ((network_run c b 0 s).get .L2_output + 4 * (k : Int))) : Nat × Int))
      ∧ ((network_run c b 0 s).mem
            = b.kernel (c.N - 1) (kernel_args c b (c.N - 1) (at_kernel c b 0 s (c.N - 1)))
                (at_kernel c b 0 s (c.N - 1)).mem
        ∧ (kernel_args c b (c.N - 1) (at_kernel c b 0 s (c.N - 1))).getD 5 0
            = (network_run c b 0 s).get .L2_output)
      ∧ (∀ k : Nat, k < 7 →
          (network_run c b 0 s).ResOut k
            = (network_run c b 0 s).mem
                ((network_run c b 0 s).get .L2_output + 4 * (k : Int)))
      ∧ (∀ core : Nat, core ≠ 0 →
          resouts (network_run c b core s).trace = []
            ∧ (network_run c b core s).ResOut = s.ResOut) := by
  obtain ⟨h1, h2, h3, h4⟩ := pass_results c b s hN hr
  have h0 := resouts_at c b s (c.N - 1) (by omega)
  refine ⟨⟨h1, h0⟩, ?_, ⟨h2, ?_⟩, h4, ?_⟩
  · rw [h1]
    simp only [resouts_append, h0]
    simp [resouts, Event.result, List.range, List.range.loop]
  · rw [h3]
    exact (args_fixed c b _ _).2.2.1
  · intro core hc
    rw [network_run_other_core c b core s hc]
    obtain ⟨a1, a2, -⟩ := iterations_other_core c b core (init_weights (init_locals s)) hc c.N
    refine ⟨?_, ?_⟩
    · rw [a2]; simp [init_weights, init_locals, resouts]
    · rw [a1]; simp [init_weights, init_locals]

theorem c14_result_extraction_witness :
    0 < (chain3 28).N
      ∧ returns_early (chain3 28) board1 0 (network_setup board1 state0).1 = false
      ∧ resouts (network_run (chain3 28) board1 0 (network_setup board1 state0).1).trace
          = [(0, 2000), (1, 2004), (2, 2008), (3, 2012), (4, 2016), (5, 2020), (6, 2024)]
      ∧ (network_run (chain3 28) board1 0 (network_setup board1 state0).1).ResOut 3 = 2012 :=
  ⟨by decide, by decide,
    (c14_result_extraction (chain3 28) board1 (network_setup board1 state0).1 (by decide)
      (by decide)).2.1.trans (by decide),
    by decide⟩

theorem c14_counterexample :
    0 < chain_full.N ∧ chain_full.second_weights = true
      ∧ (section1_head chain_full
            (section0 chain_full board0 0 (network_setup board0 state0).1)).get .L2_output = 0
      ∧ returns_early chain_full board0 0 (network_setup board0 state0).1 = true
      ∧ resouts (network_run chain_full board0 0 (network_setup board0 state0).1).trace = []
      ∧ (network_run chain_full board0 0 (network_setup board0 state0).1).ResOut
          = (network_setup board0 state0).1.ResOut := by
  refine ⟨by decide, rfl, by decide, by decide, by decide, ?_⟩
  have h : returns_early chain_full board0 0 (network_setup board0 state0).1 = true := by
    decide
  unfold network_run
  rw [if_pos h]
  rfl

/-! ## C15: the length of the result vector -/

/-- C15, at the failing input: whenever lines 803-835 run they write the seven words
`ResOut[0..6]`, as in the pass of the 3-layer chain, and main.c allocates `CNN_OUTPUTS`
words: every written index is below `CNN_OUTPUTS` in the IMAV build only; in the default
build (`CNN_OUTPUTS = 2`) and in the classification build (`CNN_OUTPUTS = 4`) the writes
at indices 2..6 and 4..6 fall behind the allocated block. -/
theorem c15_result_overflow :
    (∀ s : State, (resouts (cnn_outputs s).trace).map Prod.fst
        = (resouts s.trace).map Prod.fst ++ [0, 1, 2, 3, 4, 5, 6])
      ∧ (resouts (network_run (chain3 28) board0 0 (network_setup board0 state0).1).trace).map
            Prod.fst = [0, 1, 2, 3, 4, 5, 6]
      ∧ CNN_OUTPUTS ⟨false, false⟩ = 2 ∧ CNN_OUTPUTS ⟨true, false⟩ = 4
      ∧ CNN_OUTPUTS ⟨false, true⟩ = 7
      ∧ (∀ v : Build,
          (∀ k ∈ (resouts (network_run (chain3 28) board0 0
                (network_setup board0 state0).1).trace).map Prod.fst, k < CNN_OUTPUTS v)
            ↔ (v.REGRESSION_AS_CLASSIFICATION = false ∧ v.IMAV = true)) := by
  have h : (resouts (network_run (chain3 28) board0 0 (network_setup board0 state0).1).trace).map
      Prod.fst = [0, 1, 2, 3, 4, 5, 6] := by decide
  refine ⟨?_, h, rfl, rfl, rfl, ?_⟩
  · intro s
    simp [cnn_outputs, store_result, resouts, List.filterMap_append, Event.result]
  · intro v
    rw [h]
    rcases v with ⟨_ | _, _ | _⟩ <;> simp [CNN_OUTPUTS]

/-! ## C16: branch-free passes -/

/-- C16 (as amended): in a pass, entered with `keeping = 0`, of a chain whose branch flags
are zero for all layers and in which the word that line 759 reads in front of the table
`branch_change` is not 1, every kernel is called with `keeping = 0` and null
`activation_to_keep` and `bypass_activations`, and with `L3_input`, `L3_output` and
`L2_input` in slots 0, 1 and 3.  The bookkeeping of a layer `i` that is not the last one
issues the frees of the weights and of the input of layer `i` and the allocations of the
output of layer `i+1` and of the weights of layer `i+2`, and no other allocator call; the
output of layer `i+1` is set up by `dory_L2_alloc`; `begin_end_n` is toggled once.  The
last layer has no bookkeeping: no allocator call, and `begin_end_n` is not toggled. -/
theorem c16_branch_free_pass (c : Chain) (b : Board) (s : State) (hb : BranchFree c)
    (hlow : c.branch_change (-1) ≠ 1) (hk : s.get .keeping = 0) (i : Nat) (hi : i < c.N) :
    ((at_kernel c b 0 s i).get .keeping = 0
        ∧ (at_kernel c b 0 s i).get .activation_to_keep = 0
        ∧ (at_kernel c b 0 s i).get .bypass_activations = 0)
      ∧ ((kernel_args c b i (at_kernel c b 0 s i)).getD 0 0
            = (at_kernel c b 0 s i).get .L3_input
        ∧ (kernel_args c b i (at_kernel c b 0 s i)).getD 1 0
            = (at_kernel c b 0 s i).get .L3_output
        ∧ (kernel_args c b i (at_kernel c b 0 s i)).getD 3 0
            = (at_kernel c b 0 s i).get .L2_input)
      ∧ (i + 1 < c.N →
          alloc_calls (at_iteration c b 0 s (i + 1)).trace
              = alloc_calls (at_iteration c b 0 s i).trace
                ++ (if c.layer_with_weights i = 1 then
                      [Call.free (c.check_weights_dimension i)
                        ((at_iteration c b 0 s i).get .begin_end_n)] else [])
                ++ [Call.free (c.check_activations_dimension i)
                      ((at_iteration c b 0 s i).get .begin_end_n),
                    Call.alloc (c.check_activations_out_dimension ((i : Int) + 1))
                      ((at_iteration c b 0 s i).get .begin_end_n)]
                ++ (if i + 2 < c.N ∧ c.layer_with_weights ((i : Int) + 2) = 1 then
                      [Call.alloc (c.check_weights_dimension ((i : Int) + 2))
                        ((at_iteration c b 0 s i).get .begin_end_n)]
                    else [])
            ∧ (∀ q : State, bk_output c i q
                = ((alloc_into q .L2_output
                      (c.check_activations_out_dimension ((i : Int) + 1))).set
                    .input_used_as_out 0).set .bypass_used_as_out 0)
            ∧ (at_iteration c b 0 s (i + 1)).get .begin_end_n
                = lnot ((at_iteration c b 0 s i).get .begin_end_n))
      ∧ (i + 1 = c.N →
          alloc_calls (at_iteration c b 0 s (i + 1)).trace
              = alloc_calls (at_iteration c b 0 s i).trace
            ∧ (at_iteration c b 0 s (i + 1)).get .begin_end_n
                = (at_iteration c b 0 s i).get .begin_end_n
            ∧ (at_iteration c b 0 s (i + 1)).get .keeping = 0) := by
  obtain ⟨a1, a2, a3, a4, a5⟩ := plain_vars_at c b s hb hk i (by omega)
  have hkk : ∀ x : Var, (x ≠ .out_mult ∧ x ≠ .out_shift ∧ x ≠ .inmul1 ∧ x ≠ .inmul2) →
      (at_kernel c b 0 s i).get x = (at_iteration c b 0 s i).get x :=
    fun x hx => get_before_kernel c i _ x hx
  have hnc := plain_no_change c i hb hlow hi
  obtain ⟨s0, s1, s3⟩ := args_slots013 c b i (at_kernel c b 0 s i)
  have hcond : ¬ (c.branch_change ((i : Int) - 1) = 1 ∧ c.branch_input i = 0) :=
    fun h => hnc h.1
  rw [if_neg hcond] at s0 s1 s3
  refine ⟨⟨?_, ?_, ?_⟩, ⟨s0, s1, s3⟩, ?_, ?_⟩
  · rw [hkk _ (by decide)]; exact a3
  · rw [hkk _ (by decide)]; exact a4
  · rw [hkk _ (by decide)]; exact a5
  · intro h1
    have b1 := hb (i + 1) h1
    simp only [Nat.cast_add, Nat.cast_one] at b1
    refine ⟨?_, ?_, ?_⟩
    · rw [at_iteration_succ]
      exact plain_calls c b i _ hb h1 a1 a2
    · intro q
      simp [bk_output, b1.1]
    · rw [at_iteration_succ]
      exact (plain_ctrl c b i _ hb h1 a1 a2).1
  · intro h1
    refine ⟨?_, ?_, ?_⟩
    · rw [at_iteration_succ]
      exact last_calls c b i _ (by omega)
    · rw [at_iteration_succ]
      exact layer_last_get c b i _ h1 _ (by decide) (by decide)
    · exact (plain_vars_at c b s hb hk (i + 1) (by omega)).2.2.1

theorem c16_branch_free_pass_witness :
    BranchFree (chain3 28) ∧ (chain3 28).branch_change (-1) ≠ 1
      ∧ (network_setup board0 state0).1.get .keeping = 0 ∧ 1 < (chain3 28).N
      ∧ (at_iteration (chain3 28) board0 0 (network_setup board0 state0).1 2).get .begin_end_n
          = lnot ((at_iteration (chain3 28) board0 0 (network_setup board0 state0).1 1).get
              .begin_end_n)
      ∧ (at_kernel (chain3 28) board0 0 (network_setup board0 state0).1 1).get .keeping = 0 :=
  ⟨chain3_branch_free 28, by decide, by decide, by decide,
    ((c16_branch_free_pass (chain3 28) board0 (network_setup board0 state0).1
      (chain3_branch_free 28) (by decide) (by decide) 1 (by decide)).2.2.1 (by decide)).2.2,
    (c16_branch_free_pass (chain3 28) board0 (network_setup board0 state0).1
      (chain3_branch_free 28) (by decide) (by decide) 1 (by decide)).1.1⟩

theorem c16_counterexample :
    BranchFree (chain3 28) ∧ (network_setup board0 state0).1.get .keeping = 0
      ∧ (at_iteration (chain3 28) board0 0 (network_setup board0 state0).1 2).get .begin_end_n
          = 1
      ∧ (at_iteration (chain3 28) board0 0 (network_setup board0 state0).1 3).get .begin_end_n
          = 1
      ∧ BranchFree chain_low
      ∧ (at_kernel chain_low board0 0 (network_setup board0 state0).1 0).get .L3_input
          = 5000000
      ∧ (at_kernel chain_low board0 0 (network_setup board0 state0).1 0).get .L2_input = 1000
      ∧ kernel_args chain_low board0 0
            (at_kernel chain_low board0 0 (network_setup board0 state0).1 0)
          = [0, 0, 2000000, 0, 0, 410800, 1100, 16, 8, 0, 0, 0, 0] := by
  refine ⟨chain3_branch_free 28, by decide, by decide, by decide, chain_low_branch_free,
    by decide, by decide, by decide⟩

/-! ## C17: a corrupted weight file -/

/-- C17 (as amended): in a checksum-enabled build the comparison made for a weight file
reports `Check FAILED`, with the stored and the computed value, exactly when the 32-bit
sum of the bytes of the file differs from the entry of `check_weights` it is compared
with, and `Check OK` otherwise; a blob that differs from the reference blob in one byte
is reported as failed; and whatever the outcome, the loop goes on with the next file:
when all files open it runs to its end and prints one diagnostic per file. -/
theorem c17_checksum_mismatch (c : Chain) (cw : Int → Int) (files : List WeightFile)
    (n : Int) (hopen : ∀ f ∈ files, f.opens = true) :
    ((setup_weights c cw files n).2 = true
        ∧ (setup_weights c cw files n).1.length = files.length)
      ∧ (∀ (f : WeightFile) (rest : List WeightFile) (m : Int), f.opens = true →
          setup_weights c cw (f :: rest) m
            = ((if cw (if c.layer_with_weights m = 0 then m + 1 else m) = blob_sum f.bytes then
                  Diag.check_ok (if c.layer_with_weights m = 0 then m + 1 else m)
                    (cw (if c.layer_with_weights m = 0 then m + 1 else m)) (blob_sum f.bytes)
                else
                  Diag.check_failed (if c.layer_with_weights m = 0 then m + 1 else m)
                    (cw (if c.layer_with_weights m = 0 then m + 1 else m)) (blob_sum f.bytes))
                :: (setup_weights c cw rest
                      ((if c.layer_with_weights m = 0 then m + 1 else m) + 1)).1,
              (setup_weights c cw rest
                ((if c.layer_with_weights m = 0 then m + 1 else m) + 1)).2))
      ∧ (∀ (pre post : List Nat) (u v : Nat) (k : Int), u < 256 → v < 256 → u ≠ v →
          cw k = blob_sum (pre ++ u :: post) →
          compare_sum cw k (sum_weights ⟨true, pre ++ v :: post⟩)
            = Diag.check_failed k (blob_sum (pre ++ u :: post))
                (blob_sum (pre ++ v :: post))) := by
  refine ⟨setup_weights_runs c cw files n hopen, ?_, ?_⟩
  · intro f rest m hf
    rw [setup_weights_cons c cw f rest m hf, sum_weights_eq]
    rfl
  · intro pre post u v k hu hv huv hk
    rw [sum_weights_eq]
    unfold compare_sum
    rw [hk, if_neg (blob_sum_one_byte pre post u v hu hv huv)]

theorem c17_checksum_mismatch_witness :
    (∀ f ∈ [(⟨true, [1, 2]⟩ : WeightFile), ⟨true, [7, 7, 7]⟩], f.opens = true)
      ∧ (setup_weights (chain3 28) (tbl [3, 0, 20]) [⟨true, [1, 2]⟩, ⟨true, [7, 7, 7]⟩] 0).1
          = [Diag.check_ok 0 3 3, Diag.check_failed 2 20 21]
      ∧ (setup_weights (chain3 28) (tbl [3, 0, 20]) [⟨true, [1, 2]⟩, ⟨true, [7, 7, 7]⟩] 0).2
          = true := by
  have h : ∀ f ∈ [(⟨true, [1, 2]⟩ : WeightFile), ⟨true, [7, 7, 7]⟩], f.opens = true := by
    intro f hf
    simp at hf
    rcases hf with rfl | rfl <;> rfl
  exact ⟨h, by decide,
    (c17_checksum_mismatch (chain3 28) (tbl [3, 0, 20]) [⟨true, [1, 2]⟩, ⟨true, [7, 7, 7]⟩] 0
      h).1.1⟩

theorem c17_counterexample :
    (tbl [3, 0, 20]) 0 = blob_sum [1, 2]
      ∧ ([2, 1] : List Nat) ≠ [1, 2]
      ∧ setup_weights (chain3 28) (tbl [3, 0, 20]) [⟨true, [2, 1]⟩, ⟨true, [7, 7, 6]⟩] 0
          = ([Diag.check_ok 0 3 3, Diag.check_ok 2 20 20], true) := by
  refine ⟨by decide, by decide, by decide⟩

/-! ## C18: the cores other than core 0 -/

/-- C18, at the failing input: a core other than core 0 runs the unguarded statements of
section 0 (lines 567-568 and 584-587) and line 884.  After its call of `network_run` the
two bypass pointers are null, `L3_weights_internal` is `L3_weights` and the three weight
pointers are `L2_weights_1`, whatever core 0 stored in them; the boundaries, the buffer
pointers and `keeping` are as before.  In the 3-layer chain with weights in every layer,
when such a core runs section 0 after core 0 has run section 1, `transfer_weights` goes
back from the second slot to the first; and in the branch chain the call assigns
`keep_index`. -/
theorem c18_other_cores_write (c : Chain) (b : Board) (s : State) (core : Nat) :
    ((network_run c b (core + 1) s).get .bypass_activations = 0
        ∧ (network_run c b (core + 1) s).get .activation_to_keep = 0
        ∧ (network_run c b (core + 1) s).get .L3_weights_internal = s.get .L3_weights
        ∧ (network_run c b (core + 1) s).get .transfer_weights = s.get .L2_weights_1
        ∧ (network_run c b (core + 1) s).get .exec_weights = s.get .L2_weights_1
        ∧ (network_run c b (core + 1) s).get .bypass_weights = s.get .L2_weights_1)
      ∧ ((network_run c b (core + 1) s).get .L2_buffer_allocation
            = s.get .L2_buffer_allocation
        ∧ (network_run c b (core + 1) s).get .L2_buffer_allocation_end
            = s.get .L2_buffer_allocation_end
        ∧ (network_run c b (core + 1) s).get .L2_input = s.get .L2_input
        ∧ (network_run c b (core + 1) s).get .L2_output = s.get .L2_output
        ∧ (network_run c b (core + 1) s).get .L2_weights_1 = s.get .L2_weights_1
        ∧ (network_run c b (core + 1) s).get .L2_weights_2 = s.get .L2_weights_2
        ∧ (network_run c b (core + 1) s).get .L3_input = s.get .L3_input
        ∧ (network_run c b (core + 1) s).get .L3_output = s.get .L3_output
        ∧ (network_run c b (core + 1) s).get .keeping = s.get .keeping)
      ∧ ((loop_entry chain_www board0 0 (network_setup board0 state0).1).get .transfer_weights
            = 410760
        ∧ (section0 chain_www board0 1
              (loop_entry chain_www board0 0 (network_setup board0 state0).1)).get
            .transfer_weights = 1100)
      ∧ ((network_setup board0 state0).1.get .keep_index = 0
        ∧ (network_run chain9 board0 1 (network_setup board0 state0).1).get .keep_index = 2) := by
  have hc : core + 1 ≠ 0 := by omega
  have h := (iterations_other_core c b (core + 1) (init_weights (init_locals s)) hc c.N).2.2
  rw [network_run_other_core c b (core + 1) s hc]
  refine ⟨⟨?_, ?_, ?_, ?_, ?_, ?_⟩, ⟨?_, ?_, ?_, ?_, ?_, ?_, ?_, ?_, ?_⟩, ⟨by decide, by decide⟩,
    ⟨by decide, by decide⟩⟩ <;>
  rw [h _ (by decide) (by decide) (by decide) (by decide) (by decide)] <;>
  simp [init_weights, init_locals, pick]

/-! ## C19: kernels and outstanding reads -/

/-- C19, at the failing input: in the 3-layer chain the weights of layer 2 are read in
iteration 1 into the slot from which layer 2 executes (slot 6 of its argument vector), and
no wait follows: the read is still outstanding when the kernels of layers 1 and 2 are
called. -/
theorem c19_kernel_on_weights_in_flight :
    (chain3 28).allocate_layer 2 = 1
      ∧ transfers (network_run (chain3 28) board0 0 (network_setup board0 state0).1).trace
          = [Event.read 2000000 1100 40, Event.wait, Event.wait, Event.read 2000040 1150 60]
      ∧ (kernel_args (chain3 28) board0 2
            (at_kernel (chain3 28) board0 0 (network_setup board0 state0).1 2)).getD 6 0 = 1150
      ∧ in_flight_at_kernel 0
            (network_run (chain3 28) board0 0 (network_setup board0 state0).1).trace false
          = some false
      ∧ in_flight_at_kernel 2
            (network_run (chain3 28) board0 0 (network_setup board0 state0).1).trace false
          = some true := by
  refine ⟨by decide, by decide, by decide, by decide, by decide⟩

/-! ## C20: indices of the table reads -/

/-- C20, at the failing input: in iteration 0 the test of line 759 reads
`branch_change[-1]`.  Slots 0, 1 and 3 of the argument vector of layer 0 are selected by
that word: `chain_low` has the same table entries as `chain3 28` at every index from 0 on
and layer 0 is called with another argument vector. -/
theorem c20_read_below_table (c : Chain) (b : Board) (s : State) :
    ((kernel_args c b 0 (at_kernel c b 0 s 0)).getD 0 0
        = (if c.branch_change (-1) = 1 ∧ c.branch_input 0 = 0 then
            (at_kernel c b 0 s 0).get .bypass_L3_input
          else (at_kernel c b 0 s 0).get .L3_input))
      ∧ (∀ j : Int, 0 ≤ j →
          chain_low.branch_change j = (chain3 28).branch_change j
            ∧ chain_low.branch_input j = (chain3 28).branch_input j)
      ∧ kernel_args (chain3 28) board0 0
            (at_kernel (chain3 28) board0 0 (network_setup board0 state0).1 0)
          = [5000000, 7000000, 2000000, 1000, 0, 410800, 1100, 16, 8, 0, 0, 0, 0]
      ∧ kernel_args chain_low board0 0
            (at_kernel chain_low board0 0 (network_setup board0 state0).1 0)
          = [0, 0, 2000000, 0, 0, 410800, 1100, 16, 8, 0, 0, 0, 0] := by
  refine ⟨?_, ?_, by decide, by decide⟩
  · have h := (args_slots013 c b 0 (at_kernel c b 0 s 0)).1
    simpa using h
  · intro j hj
    have : j ≠ -1 := by omega
    simp [chain_low, chain3, tbl, this]

/-! ## C21: the branch state at the start of a pass -/

/-- C21, at the failing input: sections 0 and 1 reset `activation_to_keep` and leave the
function-static `keeping` as the previous pass left it.  After a pass of the 3-layer chain
with a branch-change at layer 1 and no merge, and after a pass of the 3-layer chain with a
branch-change at layer 0 and a merge at the last layer, `keeping` is 1, and the next pass
enters the layer loop with `keeping = 1` and a null `activation_to_keep`. -/
theorem c21_keeping_survives_pass (c : Chain) (b : Board) (s : State) :
    ((loop_entry c b 0 s).get .keeping = s.get .keeping
        ∧ (loop_entry c b 0 s).get .activation_to_keep = 0)
      ∧ (network_setup board0 state0).1.get .keeping = 0
      ∧ ((passes chain_keep board0 [fun m => m] (network_setup board0 state0).1).get .keeping
            = 1
        ∧ (loop_entry chain_keep board0 0
              (passes chain_keep board0 [fun m => m] (network_setup board0 state0).1)).get
            .keeping = 1
        ∧ (loop_entry chain_keep board0 0
              (passes chain_keep board0 [fun m => m] (network_setup board0 state0).1)).get
            .activation_to_keep = 0)
      ∧ ((passes chain_merge_last board0 [fun m => m] (network_setup board0 state0).1).get
            .keeping = 1
        ∧ (loop_entry chain_merge_last board0 0
              (passes chain_merge_last board0 [fun m => m]
                (network_setup board0 state0).1)).get .keeping = 1
        ∧ (loop_entry chain_merge_last board0 0
              (passes chain_merge_last board0 [fun m => m]
                (network_setup board0 state0).1)).get .activation_to_keep = 0) := by
  have h := entry_keeping c b s
  have h1 : (passes chain_keep board0 [fun m => m] (network_setup board0 state0).1).get
      .keeping = 1 := by decide
  have h2 : (passes chain_merge_last board0 [fun m => m]
      (network_setup board0 state0).1).get .keeping = 1 := by decide
  have e1 := entry_keeping chain_keep board0
    (passes chain_keep board0 [fun m => m] (network_setup board0 state0).1)
  have e2 := entry_keeping chain_merge_last board0
    (passes chain_merge_last board0 [fun m => m] (network_setup board0 state0).1)
  exact ⟨⟨h.1, h.2.1⟩, by decide, ⟨h1, e1.1.trans h1, e1.2.1⟩, ⟨h2, e2.1.trans h2, e2.2.1⟩⟩

/-! ## C22: the layer a weight file is checked against -/

/-- C22, at the failing input: in the 7-layer chain whose layers 0, 3 and 5 have weights,
with three intact weight files whose byte sums 10, 20, 30 are the entries 0, 3 and 5 of
`check_weights`, the test of line 427 steps over one weight-free layer only: the second
file is compared with `check_weights[2]` and the third with `check_weights[3]`, and both
are reported as failed. -/
theorem c22_checksum_pairing :
    weighted_layers chain9 = [0, 3, 5]
      ∧ (setup_weights chain9 (tbl [10, 0, 0, 20, 0, 30, 0])
            [⟨true, [10]⟩, ⟨true, [20]⟩, ⟨true, [30]⟩] 0).1.map Diag.layer
          = [some 0, some 2, some 3]
      ∧ setup_weights chain9 (tbl [10, 0, 0, 20, 0, 30, 0])
            [⟨true, [10]⟩, ⟨true, [20]⟩, ⟨true, [30]⟩] 0
          = ([Diag.check_ok 0 10 10, Diag.check_failed 2 0 20, Diag.check_failed 3 20 30],
              true) := by
  refine ⟨by decide, by decide, by decide⟩

/-! ## C23: the camera buffer -/

/-- After a successful `network_setup`, in every later pass, whatever the passes
before it and the camera frame stored before it, the on-chip input pointer `L2_input`
with which the kernel of layer 0 is called is the pointer that `network_setup` returned,
the address of the arena.  It is slot 3 of the argument vector of layer 0 unless the word
that line 759 reads in front of the table `branch_change` is 1 and layer 0 is not a
merge; and in a chain of at least one layer, when the pass is not left at line 667, the
kernel of layer 0 is called with that argument vector. -/
theorem camera_buffer_is_input (c : Chain) (b : Board) (s : State)
    (frames : List ((Int → Int) → (Int → Int))) (f : (Int → Int) → (Int → Int))
    (h : b.files_open = true) :
    (network_setup b s).2 = b.l2_malloc
      ∧ (at_kernel c b 0
            ((passes c b frames (network_setup b s).1).store
              (f (passes c b frames (network_setup b s).1).mem)) 0).get .L2_input
          = (network_setup b s).2
      ∧ (¬ (c.branch_change (-1) = 1 ∧ c.branch_input 0 = 0) →
          (kernel_args c b 0 (at_kernel c b 0
              ((passes c b frames (network_setup b s).1).store
                (f (passes c b frames (network_setup b s).1).mem)) 0)).getD 3 0
            = (network_setup b s).2)
      ∧ (0 < c.N →
          returns_early c b 0 ((passes c b frames (network_setup b s).1).store
              (f (passes c b frames (network_setup b s).1).mem)) = false →
          Event.kernel 0 (kernel_args c b 0 (at_kernel c b 0
              ((passes c b frames (network_setup b s).1).store
                (f (passes c b frames (network_setup b s).1).mem)) 0))
            ∈ (network_run c b 0 ((passes c b frames (network_setup b s).1).store
                (f (passes c b frames (network_setup b s).1).mem))).trace) := by
  have hp := (passes_baseline c b frames (network_setup b s).1).1
  have hr : (network_setup b s).2 = b.l2_malloc := by simp [network_setup, h]
  have hb : (network_setup b s).1.get .L2_buffer_allocation_baseline = b.l2_malloc := by
    simp [network_setup, h]
  generalize passes c b frames (network_setup b s).1 = p at hp ⊢
  have hin : (at_kernel c b 0 (p.store (f p.mem)) 0).get .L2_input = (network_setup b s).2 := by
    unfold at_kernel
    rw [get_before_kernel _ _ _ _ (by decide)]
    show (loop_entry c b 0 (p.store (f p.mem))).get .L2_input = _
    rw [(entry_keeping c b _).2.2, hr, ← hb, ← hp]
    rfl
  refine ⟨hr, hin, ?_, ?_⟩
  · intro hc
    have h3 := (args_slots013 c b 0 (at_kernel c b 0 (p.store (f p.mem)) 0)).2.2
    rw [if_neg (by simpa using hc)] at h3
    rw [h3, hin]
  · intro hN hre
    rw [network_run_completes c b _ hN hre]
    have hk := kernel0_called c b (p.store (f p.mem)) (c.N - 1) (by omega)
    rw [at_iteration_succ] at hk
    simp only [section3, if_true, trace_log]
    exact List.mem_append_left _ hk

/-- C23, at the failing input: on the 3-layer chain in front of whose table
`branch_change` the word 1 is stored, `network_setup` succeeds and returns the arena
address 1000, and `L2_input` is 1000 when the kernel of layer 0 is called, but the
on-chip input pointer passed to that kernel (slot 3 of its argument vector) is the null
`bypass_activations`: line 759 reads `branch_change[-1] == 1` in iteration 0 and line 763
substitutes the bypass buffer for `L2_input`.  The kernel of layer 0 is called with that
argument vector in the pass. -/
theorem c23_slot3_not_camera_buffer :
    board0.files_open = true ∧ (network_setup board0 state0).2 = 1000
      ∧ chain_low.branch_change (-1) = 1 ∧ chain_low.branch_input 0 = 0
      ∧ (at_kernel chain_low board0 0 (network_setup board0 state0).1 0).get .L2_input = 1000
      ∧ (at_kernel chain_low board0 0 (network_setup board0 state0).1 0).get
          .bypass_activations = 0
      ∧ (kernel_args chain_low board0 0
            (at_kernel chain_low board0 0 (network_setup board0 state0).1 0)).getD 3 0 = 0
      ∧ Event.kernel 0 (kernel_args chain_low board0 0
            (at_kernel chain_low board0 0 (network_setup board0 state0).1 0))
          ∈ (network_run chain_low board0 0 (network_setup board0 state0).1).trace := by
  refine ⟨rfl, by decide, by decide, by decide, by decide, by decide, by decide, by decide⟩

/-! ## C24: the crop in place -/

/-- C24: in a build without `IMAV` (frames of 324*244 bytes), for every memory and every
buffer address, after `image_crop(buf, buf)` the byte at offset `i*200 + j` of the buffer
is the byte that was at offset `(i+44)*324 + j + 62` before the call, for all `i`, `j`
below 200, and the bytes outside the first 200*200 bytes of the buffer are as before;
this is what `image_crop` leaves in a destination buffer that does not overlap the
frame; and every offset read or written is below `BUFF_SIZE` = 324*244. -/
theorem c24_crop_in_place (v : Build) (hv : v.IMAV = false) (m : Nat → Nat) (buf : Nat) :
    (∀ i j : Nat, i < 200 → j < 200 →
        image_crop v buf buf m (buf + i * INPUT_WIDTH v + j)
          = m (buf + (i + 44) * CAMERA_WIDTH v + j + 62))
      ∧ (∀ x : Nat, ¬ (buf ≤ x ∧ x < buf + 200 * 200) → image_crop v buf buf m x = m x)
      ∧ (∀ dst : Nat, dst + 200 * 200 ≤ buf ∨ buf + BUFF_SIZE v ≤ dst →
          ∀ i j : Nat, i < 200 → j < 200 →
            image_crop v buf buf m (buf + i * INPUT_WIDTH v + j)
              = image_crop v buf dst m (dst + i * INPUT_WIDTH v + j))
      ∧ (BUFF_SIZE v = 324 * 244
          ∧ ∀ i j : Nat, i < 200 → j < 200 →
              i * INPUT_WIDTH v + j < BUFF_SIZE v
                ∧ (i + 44) * CAMERA_WIDTH v + j + 62 < BUFF_SIZE v) := by
  have cw : CAMERA_WIDTH v = 324 := by simp [CAMERA_WIDTH, hv]
  have ch : CAMERA_HEIGHT v = 244 := by simp [CAMERA_HEIGHT, hv]
  have iw : INPUT_WIDTH v = 200 := by simp [INPUT_WIDTH, hv]
  have bs : BUFF_SIZE v = 79056 := by simp [BUFF_SIZE, cw, ch]
  have hin := image_crop_eq v hv buf buf m (cropSafe_in_place buf)
  have hval : ∀ (raw cropped : Nat), CropSafe raw cropped → ∀ i j : Nat, i < 200 → j < 200 →
      image_crop v raw cropped m (cropped + i * 200 + j)
        = m (raw + (i + 44) * 324 + j + 62) := by
    intro raw cropped hs i j hi hj
    rw [image_crop_eq v hv raw cropped m hs]
    unfold cropped_memory
    rw [if_pos (by omega)]
    have e : cropped + i * 200 + j - cropped = i * 200 + j := by omega
    rw [e, crop_source_row i j hj]
    congr 1
    omega
  rw [cw, iw, bs]
  refine ⟨hval buf buf (cropSafe_in_place buf), ?_, ?_, ⟨by norm_num, ?_⟩⟩
  · intro x hx
    rw [hin]
    unfold cropped_memory
    rw [if_neg (by omega)]
  · intro dst hd i j hi hj
    rw [hval buf buf (cropSafe_in_place buf) i j hi hj,
      hval buf dst (cropSafe_apart buf dst (by omega)) i j hi hj]
  · intro i j hi hj
    omega

theorem c24_crop_in_place_witness :
    (⟨false, false⟩ : Build).IMAV = false
      ∧ image_crop ⟨false, false⟩ 1000 1000 (fun x => x % 256)
            (1000 + 3 * INPUT_WIDTH ⟨false, false⟩ + 5)
          = (1000 + (3 + 44) * CAMERA_WIDTH ⟨false, false⟩ + 5 + 62) % 256 :=
  ⟨rfl, (c24_crop_in_place ⟨false, false⟩ rfl (fun x => x % 256) 1000).1 3 5 (by decide)
    (by decide)⟩
end Dory
